import Mathlib

/-!
# kmscube resource binding: a shallow embedding

Lean models of the resource-binding code of the repository and theorems about them.

* `has_ext` (common.c): whole-token search in a space-separated extension list.
* `init_bo`, `init_surfaceless`, `init_surface`, `init_gbm` (common.c): buffer allocation with
  the linear fallback.
* `drm_fb_get_from_bo`, `drm_fb_destroy_callback` (drm-common.c): the per-buffer framebuffer
  cache.
* `init_drm` and its helpers (drm-common.c): connector, mode, encoder and CRTC selection.

Conventions. C strings are lists of characters without the terminating NUL, and a NULL
pointer to a string is `none`. Unsigned machine integers are natural numbers; the places
where the C code computes in `int` are modelled in `Int` with explicit wrap-around. Library
and kernel entry points (libc, GBM, libdrm) are parameters of the models: records of
functions whose answers may depend on the calls issued so far. A result `none` of a model
that returns `Option` stands for undefined behaviour of the C code (a NULL dereference, a
store outside an array) or, for the fuelled loop of `has_ext`, for a scan that has not
finished within the given number of iterations.
-/

namespace KmsCube

/-! ## Definitions -/

/-! ### common.c: has_ext -/

/-- The C library function strstr on NUL-free strings: the suffix of `hay` that starts at
the first occurrence of `needle`, or `none` (NULL) when there is no occurrence. An empty
needle is found at the very start. -/
def strstr : List Char → List Char → Option (List Char)
  | [], needle => if needle.isPrefixOf [] then some [] else none
  | c :: t, needle => if needle.isPrefixOf (c :: t) then some (c :: t) else strstr t needle

/-- The `while (true)` loop of has_ext, one iteration per unit of fuel. `ptr` is the current
scan position (the rest of the list), `ext.length` is `len`. Reading `ptr[len]` after a
successful strstr is the first character of `p.drop ext.length`, the terminating NUL when
that list is empty. `none` means the fuel ran out. The name is assumed shorter than 2^31
characters, so that `int len = strlen(ext)` is exact. -/
def has_ext_loop : Nat → List Char → List Char → Option Bool
  | 0, _, _ => none
  | fuel + 1, ptr, ext =>
    match strstr ptr ext with
    | none => some false
    | some p =>
      match p.drop ext.length with
      | [] => some true
      | c :: rest => if c = ' ' then some true else has_ext_loop fuel (c :: rest) ext

/-- Model of has_ext: a NULL or empty list is rejected before the loop is entered. -/
def has_ext (fuel : Nat) (extension_list : Option (List Char)) (ext : List Char) :
    Option Bool :=
  match extension_list with
  | none => some false
  | some [] => some false
  | some (c :: cs) => has_ext_loop fuel (c :: cs) ext

/-! ### common.c: init_bo, init_surfaceless, init_surface, init_gbm -/

/-- DRM_FORMAT_MOD_LINEAR, common.h. -/
def DRM_FORMAT_MOD_LINEAR : Nat := 0

/-- NUM_BUFFERS, common.h: the size of the array gbm.bos. -/
def NUM_BUFFERS : Nat := 2

/-- GBM_BO_USE_SCANOUT of gbm.h. -/
def GBM_BO_USE_SCANOUT : Nat := 1

/-- GBM_BO_USE_RENDERING of gbm.h. -/
def GBM_BO_USE_RENDERING : Nat := 4

/-- Conversion of an int argument to a uint32_t parameter. -/
def to_u32 (x : Int) : Nat := (x % 4294967296).toNat

/-- Calls into the GBM library, with their arguments. -/
inductive GbmCall where
  | create_device (drm_fd : Int)
  | bo_create_with_modifiers (dev width height format : Nat) (modifiers : List Nat)
      (count : Nat)
  | bo_create (dev width height format flags : Nat)
  | surface_create_with_modifiers (dev width height format : Nat) (modifiers : List Nat)
      (count : Nat)
  | surface_create (dev width height format flags : Nat)
  deriving DecidableEq, Repr

/-- The GBM library as the code sees it. The two weak symbols are `none` when the library
does not provide them. Every entry point receives the calls issued before it and the call
itself; allocation entry points answer `none` for NULL. -/
structure GbmPlatform where
  gbm_create_device : List GbmCall → Int → Nat
  gbm_bo_create_with_modifiers : Option (List GbmCall → GbmCall → Option Nat)
  gbm_bo_create : List GbmCall → GbmCall → Option Nat
  gbm_surface_create_with_modifiers : Option (List GbmCall → GbmCall → Option Nat)
  gbm_surface_create : List GbmCall → GbmCall → Option Nat

/-- The struct gbm of common.h; `bos` is the array of NUM_BUFFERS buffer object pointers. -/
structure gbm where
  dev : Nat
  surface : Option Nat
  bos : List (Option Nat)
  format : Nat
  width : Int
  height : Int
  deriving DecidableEq, Repr

/-- The two ways init_bo returns NULL, told apart by the message printed:
`UnsupportedModifier` is the branch "Modifiers requested but support isn't available",
`AllocationFailed` is the branch "failed to create gbm bo". -/
inductive BoError where
  | UnsupportedModifier
  | AllocationFailed
  deriving DecidableEq, Repr

/-- First step of init_bo: `bo` after the guarded call of gbm_bo_create_with_modifiers,
together with the calls issued so far. -/
def modifier_aware_bo (P : GbmPlatform) (g : gbm) (modifier : Nat) (calls : List GbmCall) :
    Option Nat × List GbmCall :=
  match P.gbm_bo_create_with_modifiers with
  | some f =>
    let call := GbmCall.bo_create_with_modifiers g.dev (to_u32 g.width) (to_u32 g.height)
      g.format [modifier] 1
    (f calls call, calls ++ [call])
  | none => (none, calls)

/-- The call of gbm_bo_create that init_bo issues in its fallback. -/
def bo_create_call (g : gbm) : GbmCall :=
  GbmCall.bo_create g.dev (to_u32 g.width) (to_u32 g.height) g.format
    (GBM_BO_USE_SCANOUT ||| GBM_BO_USE_RENDERING)

/-- Model of init_bo: the buffer object or the failing branch, and the calls issued. -/
def init_bo (P : GbmPlatform) (g : gbm) (modifier : Nat) (calls : List GbmCall) :
    Except BoError Nat × List GbmCall :=
  match modifier_aware_bo P g modifier calls with
  | (some bo, calls1) => (Except.ok bo, calls1)
  | (none, calls1) =>
    if modifier ≠ DRM_FORMAT_MOD_LINEAR then
      (Except.error BoError.UnsupportedModifier, calls1)
    else
      match P.gbm_bo_create calls1 (bo_create_call g) with
      | some bo => (Except.ok bo, calls1 ++ [bo_create_call g])
      | none => (Except.error BoError.AllocationFailed, calls1 ++ [bo_create_call g])

/-- The loop of init_surfaceless: `n` iterations left, `i` the index being filled. The
Boolean is false when NULL is returned. -/
def init_surfaceless_loop (P : GbmPlatform) (modifier : Nat) :
    Nat → Nat → gbm → List GbmCall → Bool × gbm × List GbmCall
  | 0, _, g, calls => (true, g, calls)
  | n + 1, i, g, calls =>
    match init_bo P g modifier calls with
    | (Except.ok bo, calls1) =>
      init_surfaceless_loop P modifier n (i + 1) { g with bos := g.bos.set i (some bo) } calls1
    | (Except.error _, calls1) => (false, { g with bos := g.bos.set i none }, calls1)

/-- Model of init_surfaceless. -/
def init_surfaceless (P : GbmPlatform) (g : gbm) (modifier : Nat) (calls : List GbmCall) :
    Bool × gbm × List GbmCall :=
  init_surfaceless_loop P modifier NUM_BUFFERS 0 g calls

/-- Model of init_surface. -/
def init_surface (P : GbmPlatform) (g : gbm) (modifier : Nat) (calls : List GbmCall) :
    Bool × gbm × List GbmCall :=
  let (g1, calls1) :=
    match P.gbm_surface_create_with_modifiers with
    | some f =>
      let call := GbmCall.surface_create_with_modifiers g.dev (to_u32 g.width)
        (to_u32 g.height) g.format [modifier] 1
      ({ g with surface := f calls call }, calls ++ [call])
    | none => (g, calls)
  match g1.surface with
  | some _ => (true, g1, calls1)
  | none =>
    if modifier ≠ DRM_FORMAT_MOD_LINEAR then (false, g1, calls1)
    else
      let call := GbmCall.surface_create g1.dev (to_u32 g1.width) (to_u32 g1.height) g1.format
        (GBM_BO_USE_SCANOUT ||| GBM_BO_USE_RENDERING)
      match P.gbm_surface_create calls1 call with
      | some s => (true, { g1 with surface := some s }, calls1 ++ [call])
      | none => (false, g1, calls1 ++ [call])

/-- Model of init_gbm. `g` is the static struct gbm before the call. -/
def init_gbm (P : GbmPlatform) (g : gbm) (calls : List GbmCall) (drm_fd : Int) (w h : Int)
    (format : Nat) (modifier : Nat) (surfaceless : Bool) : Bool × gbm × List GbmCall :=
  let g1 : gbm :=
    { g with dev := P.gbm_create_device calls drm_fd, format := format, surface := none,
             width := w, height := h }
  let calls1 := calls ++ [GbmCall.create_device drm_fd]
  if surfaceless then init_surfaceless P g1 modifier calls1
  else init_surface P g1 modifier calls1

/-- The zero-initialised static struct gbm. -/
def gbm_zero : gbm :=
  { dev := 0, surface := none, bos := [none, none], format := 0, width := 0, height := 0 }

/-- A GBM library without the modifier-aware entry points. -/
def platform_no_modifiers : GbmPlatform :=
  { gbm_create_device := fun _ _ => 1
    gbm_bo_create_with_modifiers := none
    gbm_bo_create := fun calls _ => some (100 + calls.length)
    gbm_surface_create_with_modifiers := none
    gbm_surface_create := fun _ _ => some 50 }

/-- A GBM library that has the modifier-aware entry points and rejects every request made
through them. -/
def platform_rejecting : GbmPlatform :=
  { gbm_create_device := fun _ _ => 1
    gbm_bo_create_with_modifiers := some (fun _ _ => none)
    gbm_bo_create := fun calls _ => some (100 + calls.length)
    gbm_surface_create_with_modifiers := some (fun _ _ => none)
    gbm_surface_create := fun _ _ => some 50 }

/-! ### drm-common.c: drm_fb_destroy_callback, drm_fb_get_from_bo -/

/-- DRM_FORMAT_MOD_INVALID, common.h: `(0 << 56) | ((1 << 56) - 1)`. -/
def DRM_FORMAT_MOD_INVALID : Nat := 2 ^ 56 - 1

/-- DRM_MODE_FB_MODIFIERS of the kernel header drm_mode.h: `1 << 1`. -/
def DRM_MODE_FB_MODIFIERS : Nat := 2

/-- The struct drm_fb of drm-common.h; `bo` is the address of the owning buffer object. -/
structure drm_fb where
  bo : Nat
  fb_id : Nat
  deriving DecidableEq, Repr

/-- Destructor callbacks that can be registered with gbm_bo_set_user_data. -/
inductive DestroyFn where
  | drm_fb_destroy_callback
  deriving DecidableEq, Repr

/-- A GBM buffer object as seen through the accessors the code calls: the answers of
gbm_bo_get_width, gbm_bo_get_handle(bo).u32, gbm_bo_get_handle_for_plane(bo, i).u32 and so
on, the file descriptor of its device, and the user data slot with its destructor. -/
structure gbm_bo where
  device_fd : Int
  width : Nat
  height : Nat
  format : Nat
  handle : Nat
  stride : Nat
  modifier : Nat
  plane_count : Int
  handle_for_plane : Nat → Nat
  stride_for_plane : Nat → Nat
  offset : Nat → Nat
  user_data : Option Nat
  destroy_user_data : Option DestroyFn

/-- Effects that leave the process: allocator traffic and libdrm framebuffer calls. -/
inductive KmsEvent where
  | calloc (p : Nat)
  | free (p : Nat)
  | AddFB2WithModifiers (fd : Int) (width height format : Nat)
      (handles strides offsets modifiers : List Nat) (flags : Nat)
  | AddFB2 (fd : Int) (width height format : Nat) (handles strides offsets : List Nat)
      (flags : Nat)
  | RmFB (fd : Int) (fb_id : Nat)
  deriving DecidableEq, Repr

/-- The platform under drm_fb_get_from_bo. The five Booleans say whether the weak GBM
symbols are resolved. `calloc_fails` says whether the next calloc returns NULL. The two
libdrm calls receive the events so far and the call itself and answer with the return
value and the content of `*buf_id` after the call. -/
structure DrmPlatform where
  gbm_bo_get_handle_for_plane : Bool
  gbm_bo_get_modifier : Bool
  gbm_bo_get_plane_count : Bool
  gbm_bo_get_stride_for_plane : Bool
  gbm_bo_get_offset : Bool
  calloc_fails : List KmsEvent → Bool
  drmModeAddFB2WithModifiers : List KmsEvent → KmsEvent → Int × Nat
  drmModeAddFB2 : List KmsEvent → KmsEvent → Int × Nat

/-- Program state around the framebuffer cache: buffer objects by address, the drm_fb
structs on the heap by address, the next address the allocator hands out, and the events
so far. -/
structure World where
  bos : Nat → gbm_bo
  heap : Nat → Option drm_fb
  next : Nat
  log : List KmsEvent

/-- The four local arrays of drm_fb_get_from_bo. -/
structure PlaneArrays where
  handles : List Nat
  strides : List Nat
  offsets : List Nat
  modifiers : List Nat
  deriving DecidableEq, Repr

/-- Store into a four-element local array; an index outside it is undefined behaviour. -/
def store4 (a : List Nat) (i : Nat) (v : Nat) : Option (List Nat) :=
  if i < 4 then some (a.set i v) else none

/-- The plane loop `for (int i = 0; i < num_planes; i++)`: `n` iterations left, `i` the
plane index. `modifiers[0]` is read back for every plane. -/
def plane_loop (bo : gbm_bo) : Nat → Nat → PlaneArrays → Option PlaneArrays
  | 0, _, a => some a
  | n + 1, i, a =>
    match store4 a.handles i (bo.handle_for_plane i), store4 a.strides i (bo.stride_for_plane i),
        store4 a.offsets i (bo.offset i), store4 a.modifiers i (a.modifiers.headD 0) with
    | some hs, some ss, some os, some ms =>
      plane_loop bo n (i + 1) { handles := hs, strides := ss, offsets := os, modifiers := ms }
    | _, _, _, _ => none

/-- Write a drm_fb (or nothing, after free) at a heap address. -/
def set_heap (w : World) (p : Nat) (v : Option drm_fb) : World :=
  { w with heap := Function.update w.heap p v }

/-- Append an event to the log. -/
def emit (w : World) (e : KmsEvent) : World :=
  { w with log := w.log ++ [e] }

/-- A successful `calloc(1, sizeof *fb)`: hands out the next unused address, zeroed. -/
def calloc_fb (w : World) : Nat × World :=
  let w1 := emit w (KmsEvent.calloc w.next)
  (w.next, { w1 with heap := Function.update w1.heap w.next (some { bo := 0, fb_id := 0 }),
                     next := w.next + 1 })

/-- The call `free(fb)`. -/
def free_fb (w : World) (p : Nat) : World :=
  set_heap (emit w (KmsEvent.free p)) p none

/-- The GBM call gbm_bo_set_user_data. -/
def gbm_bo_set_user_data (w : World) (bo : Nat) (data : Nat) (destroy : DestroyFn) : World :=
  let b := w.bos bo
  let b1 : gbm_bo := { b with user_data := some data, destroy_user_data := some destroy }
  { w with bos := Function.update w.bos bo b1 }

/-- Model of drm_fb_destroy_callback. `none` when `data` does not point to a drm_fb. -/
def drm_fb_destroy_callback (w : World) (bo : Nat) (data : Nat) : Option World :=
  let drm_fd := (w.bos bo).device_fd
  match w.heap data with
  | none => none
  | some fb =>
    let w1 := if fb.fb_id ≠ 0 then emit w (KmsEvent.RmFB drm_fd fb.fb_id) else w
    some (free_fb w1 data)

/-- The modifier-aware attempt of drm_fb_get_from_bo: gathers the planes and calls
drmModeAddFB2WithModifiers. Returns `ret` and the state, or `none` when a plane index
leaves the four-element arrays. -/
def add_fb_with_modifiers (P : DrmPlatform) (w : World) (bo fb : Nat) : Option (Int × World) :=
  let b := w.bos bo
  let zero4 : List Nat := [0, 0, 0, 0]
  match plane_loop b b.plane_count.toNat 0
      { handles := zero4, strides := zero4, offsets := zero4,
        modifiers := zero4.set 0 b.modifier } with
  | none => none
  | some a =>
    let flags :=
      if a.modifiers.headD 0 ≠ 0 ∧ a.modifiers.headD 0 ≠ DRM_FORMAT_MOD_INVALID then
        DRM_MODE_FB_MODIFIERS else 0
    let call := KmsEvent.AddFB2WithModifiers b.device_fd b.width b.height b.format
      a.handles a.strides a.offsets a.modifiers flags
    let r := P.drmModeAddFB2WithModifiers w.log call
    some (r.1, set_heap (emit w call) fb (some { bo := bo, fb_id := r.2 }))

/-- The legacy attempt of drm_fb_get_from_bo: the arrays are cleared, plane zero is filled
from gbm_bo_get_handle and gbm_bo_get_stride, and drmModeAddFB2 is called with flags 0. -/
def add_fb_legacy (P : DrmPlatform) (w : World) (bo fb : Nat) : Int × World :=
  let b := w.bos bo
  let zero4 : List Nat := [0, 0, 0, 0]
  let call := KmsEvent.AddFB2 b.device_fd b.width b.height b.format
    (zero4.set 0 b.handle) (zero4.set 0 b.stride) zero4 0
  let r := P.drmModeAddFB2 w.log call
  (r.1, set_heap (emit w call) fb (some { bo := bo, fb_id := r.2 }))

/-- Model of drm_fb_get_from_bo: the returned pointer (`none` for NULL) and the state after
the call. The outer `none` is undefined behaviour: calloc returned NULL and was
dereferenced, or the plane loop left its arrays. -/
def drm_fb_get_from_bo (P : DrmPlatform) (w : World) (bo : Nat) :
    Option (Option Nat × World) :=
  match (w.bos bo).user_data with
  | some fb => some (some fb, w)
  | none =>
    if P.calloc_fails w.log then none
    else
      let (fb, w1) := calloc_fb w
      let w2 := set_heap w1 fb (some { bo := bo, fb_id := 0 })
      let stage : Option (Int × World) :=
        if P.gbm_bo_get_handle_for_plane && P.gbm_bo_get_modifier && P.gbm_bo_get_plane_count &&
            P.gbm_bo_get_stride_for_plane && P.gbm_bo_get_offset then
          add_fb_with_modifiers P w2 bo fb
        else some (-1, w2)
      match stage with
      | none => none
      | some (ret, w3) =>
        let (ret2, w4) := if ret ≠ 0 then add_fb_legacy P w3 bo fb else (ret, w3)
        if ret2 ≠ 0 then some (none, free_fb w4 fb)
        else some (some fb, gbm_bo_set_user_data w4 bo fb DestroyFn.drm_fb_destroy_callback)

/-- A sequence of calls of drm_fb_get_from_bo, on the buffer objects listed, in order. -/
def run_gets (P : DrmPlatform) : World → List Nat → Option World
  | w, [] => some w
  | w, bo :: rest =>
    match drm_fb_get_from_bo P w bo with
    | none => none
    | some (_, w1) => run_gets P w1 rest

/-- Every cached pointer was handed out by the allocator. Holds when no buffer object has
user data and is kept by every call of drm_fb_get_from_bo. -/
def World.wf (w : World) : Prop :=
  ∀ b p, (w.bos b).user_data = some p → p < w.next

/-- Steps that touch only the log and the drm_fb stored at address `fb`. -/
structure Frame (fb : Nat) (w w2 : World) : Prop where
  bos : w2.bos = w.bos
  next : w2.next = w.next
  heap : ∀ q, q ≠ fb → w2.heap q = w.heap q

/-- A single-plane linear buffer object without user data. -/
def bo_linear : gbm_bo :=
  { device_fd := 3, width := 640, height := 480, format := 875713112, handle := 11,
    stride := 2560, modifier := 0, plane_count := 1, handle_for_plane := fun _ => 11,
    stride_for_plane := fun _ => 2560, offset := fun _ => 0, user_data := none,
    destroy_user_data := none }

/-- A state in which no buffer object has a cached framebuffer. -/
def world0 : World :=
  { bos := fun _ => bo_linear, heap := fun _ => none, next := 1, log := [] }

/-- A kernel that rejects drmModeAddFB2WithModifiers and accepts drmModeAddFB2. -/
def platform_legacy_only : DrmPlatform :=
  { gbm_bo_get_handle_for_plane := true, gbm_bo_get_modifier := true,
    gbm_bo_get_plane_count := true, gbm_bo_get_stride_for_plane := true,
    gbm_bo_get_offset := true, calloc_fails := fun _ => false,
    drmModeAddFB2WithModifiers := fun _ _ => (-22, 0),
    drmModeAddFB2 := fun log _ => (0, 40 + log.length) }

/-- The state after the first call on buffer object 7 in `world0`. -/
def world1 : World :=
  match drm_fb_get_from_bo platform_legacy_only world0 7 with
  | some (_, w) => w
  | none => world0

/-- The state after two further calls, on buffer objects 8 and 7. -/
def world2 : World :=
  match run_gets platform_legacy_only world1 [8, 7] with
  | some w => w
  | none => world1

/-! ### drm-common.c: find_crtc_for_encoder, find_crtc_for_connector, init_drm -/

/-- DRM_MODE_CONNECTED of libdrm, the first value of the enum drmModeConnection. -/
def DRM_MODE_CONNECTED : Nat := 1

/-- DRM_MODE_TYPE_PREFERRED of the kernel header drm_mode.h: `1 << 3`. -/
def DRM_MODE_TYPE_PREFERRED : Nat := 8

/-- Value of an arithmetic result stored in a 32-bit int: two-complement wrap-around, which
is what the product of the two promoted uint16_t fields yields on the usual targets when it
does not fit (the C standard leaves that case undefined). -/
def wrap_int32 (x : Int) : Int := (x + 2147483648) % 4294967296 - 2147483648

/-- The fields of drmModeModeInfo that init_drm reads. -/
structure drmModeModeInfo where
  hdisplay : Nat
  vdisplay : Nat
  vrefresh : Nat
  type : Nat
  name : List Char
  deriving DecidableEq, Repr

/-- The fields of drmModeConnector that init_drm reads; `modes` and `encoders` are the arrays
with their counts. -/
structure drmModeConnector where
  connector_id : Nat
  encoder_id : Nat
  connection : Nat
  modes : List drmModeModeInfo
  encoders : List Nat
  deriving DecidableEq, Repr

/-- The fields of drmModeEncoder that the code reads. -/
structure drmModeEncoder where
  encoder_id : Nat
  crtc_id : Nat
  possible_crtcs : Nat
  deriving DecidableEq, Repr

/-- The arrays of drmModeRes with their counts. -/
structure drmModeRes where
  crtcs : List Nat
  connectors : List Nat
  encoders : List Nat
  deriving DecidableEq, Repr

/-- The kernel lookups by object id; `none` is a NULL result. -/
structure Kernel where
  drmModeGetConnector : Nat → Option drmModeConnector
  drmModeGetEncoder : Nat → Option drmModeEncoder

/-- Value of a non-null drm->mode: a pointer to entry `i` of the mode array of the chosen
connector, or some other pointer found in the structure on entry. -/
inductive ModePtr where
  | modes_elem (i : Nat)
  | other (addr : Nat)
  deriving DecidableEq, Repr

/-- The fields of struct drm that init_drm reads or writes. -/
structure drm where
  fd : Int
  crtc_index : Int
  mode : Option ModePtr
  crtc_id : Nat
  connector_id : Nat
  count : Nat
  deriving DecidableEq, Repr

/-- The connector loop of init_drm over resources->connectors. The outer `none` is the
dereference of a NULL connector; `some none` means no connector is connected. -/
def find_connector (K : Kernel) : List Nat → Option (Option drmModeConnector)
  | [] => some none
  | id :: rest =>
    match K.drmModeGetConnector id with
    | none => none
    | some connector =>
      if connector.connection = DRM_MODE_CONNECTED then some (some connector)
      else find_connector K rest

/-- The loop "find user requested mode" of init_drm, started at index `i`: the index at which
it breaks, if it does. -/
def find_requested_mode (mode_str : List Char) (vrefresh : Nat) :
    List drmModeModeInfo → Nat → Option Nat
  | [], _ => none
  | current_mode :: rest, i =>
    if current_mode.name = mode_str ∧ (vrefresh = 0 ∨ current_mode.vrefresh = vrefresh) then
      some i
    else find_requested_mode mode_str vrefresh rest (i + 1)

/-- The loop "find preferred mode or the highest resolution mode" of init_drm, started at
index `i` with the running `area` and the running value of drm->mode (an index). -/
def find_default_mode : List drmModeModeInfo → Nat → Int → Option Nat → Option Nat
  | [], _, _, mode => mode
  | current_mode :: rest, i, area, mode =>
    if current_mode.type &&& DRM_MODE_TYPE_PREFERRED ≠ 0 then some i
    else
      let current_area : Int := wrap_int32 (current_mode.hdisplay * current_mode.vdisplay)
      if current_area > area then find_default_mode rest (i + 1) current_area (some i)
      else find_default_mode rest (i + 1) area mode

/-- The mode selection of init_drm (both loops): the value of drm->mode after it, given the
value `mode` on entry. -/
def select_mode (connector : drmModeConnector) (mode_str : Option (List Char)) (vrefresh : Nat)
    (mode : Option ModePtr) : Option ModePtr :=
  let mode1 : Option ModePtr :=
    match mode_str with
    | some (c :: s) =>
      match find_requested_mode (c :: s) vrefresh connector.modes 0 with
      | some i => some (ModePtr.modes_elem i)
      | none => mode
    | _ => mode
  match mode1 with
  | some m => some m
  | none => (find_default_mode connector.modes 0 0 none).map ModePtr.modes_elem

/-- The encoder loop of init_drm over resources->encoders. The outer `none` is the
dereference of a NULL encoder. -/
def find_encoder (K : Kernel) (connector : drmModeConnector) :
    List Nat → Option (Option drmModeEncoder)
  | [] => some none
  | id :: rest =>
    match K.drmModeGetEncoder id with
    | none => none
    | some encoder =>
      if encoder.encoder_id = connector.encoder_id then some (some encoder)
      else find_encoder K connector rest

/-- The loop of find_crtc_for_encoder from index `i`. `1 << i` is taken as a 32-bit
pattern; the `-1` returned through uint32_t is 4294967295. -/
def find_crtc_for_encoder_loop (encoder : drmModeEncoder) : List Nat → Nat → Nat
  | [], _ => 4294967295
  | crtc_id :: rest, i =>
    let crtc_mask : Nat := (1 <<< i) % 4294967296
    if encoder.possible_crtcs &&& crtc_mask ≠ 0 then crtc_id
    else find_crtc_for_encoder_loop encoder rest (i + 1)

/-- Model of find_crtc_for_encoder. -/
def find_crtc_for_encoder (resources : drmModeRes) (encoder : drmModeEncoder) : Nat :=
  find_crtc_for_encoder_loop encoder resources.crtcs 0

/-- The loop of find_crtc_for_connector over connector->encoders. -/
def find_crtc_for_connector_loop (K : Kernel) (resources : drmModeRes) : List Nat → Nat
  | [] => 4294967295
  | encoder_id :: rest =>
    match K.drmModeGetEncoder encoder_id with
    | some encoder =>
      let crtc_id := find_crtc_for_encoder resources encoder
      if crtc_id ≠ 0 then crtc_id else find_crtc_for_connector_loop K resources rest
    | none => find_crtc_for_connector_loop K resources rest

/-- Model of find_crtc_for_connector. -/
def find_crtc_for_connector (K : Kernel) (resources : drmModeRes)
    (connector : drmModeConnector) : Nat :=
  find_crtc_for_connector_loop K resources connector.encoders

/-- The last loop of init_drm: the first index at which resources->crtcs holds `crtc_id`. -/
def find_crtc_index (crtc_id : Nat) : List Nat → Nat → Option Nat
  | [], _ => none
  | c :: rest, i => if c = crtc_id then some i else find_crtc_index crtc_id rest (i + 1)

/-- Model of init_drm from the point where the device has been opened: `fd` is the value
stored in drm->fd and `resources` the result of drmModeGetResources. Returns the return
value and the struct drm, or `none` when a NULL connector or encoder is dereferenced. -/
def init_drm (K : Kernel) (d : drm) (fd : Int) (resources : Option drmModeRes)
    (mode_str : Option (List Char)) (vrefresh : Nat) (count : Nat) : Option (Int × drm) :=
  let d := { d with fd := fd }
  if fd < 0 then some (-1, d)
  else
    match resources with
    | none => some (-1, d)
    | some resources =>
      match find_connector K resources.connectors with
      | none => none
      | some none => some (-1, d)
      | some (some connector) =>
        let d := { d with mode := select_mode connector mode_str vrefresh d.mode }
        match d.mode with
        | none => some (-1, d)
        | some _ =>
          match find_encoder K connector resources.encoders with
          | none => none
          | some encoder =>
            let crtc : Option Nat :=
              match encoder with
              | some e => some e.crtc_id
              | none =>
                let crtc_id := find_crtc_for_connector K resources connector
                if crtc_id = 0 then none else some crtc_id
            match crtc with
            | none => some (-1, d)
            | some crtc_id =>
              let d := { d with crtc_id := crtc_id }
              let d :=
                match find_crtc_index d.crtc_id resources.crtcs 0 with
                | some i => { d with crtc_index := i }
                | none => d
              some (0, { d with connector_id := connector.connector_id, count := count })

/-- Area of a mode as init_drm computes it. -/
def current_area (m : drmModeModeInfo) : Int := wrap_int32 (m.hdisplay * m.vdisplay)

/-- A mode with the given name, size, refresh rate and type flags. -/
def mk_mode (name : String) (h v r t : Nat) : drmModeModeInfo :=
  { hdisplay := h, vdisplay := v, vrefresh := r, type := t, name := name.toList }

/-- A connected connector with id 30, attached to encoder 20, advertising `ms`. -/
def connector30 (ms : List drmModeModeInfo) : drmModeConnector :=
  { connector_id := 30, encoder_id := 20, connection := 1, modes := ms, encoders := [20] }

/-- The encoder 20, bound to CRTC 10. -/
def encoder20 : drmModeEncoder :=
  { encoder_id := 20, crtc_id := 10, possible_crtcs := 1 }

/-- A kernel with the single connector `connector30 ms` and the single encoder 20. -/
def kernel30 (ms : List drmModeModeInfo) : Kernel :=
  { drmModeGetConnector := fun id => if id = 30 then some (connector30 ms) else none
    drmModeGetEncoder := fun id => if id = 20 then some encoder20 else none }

/-- The resources of `kernel30`. -/
def resources30 : drmModeRes := { crtcs := [10], connectors := [30], encoders := [20] }

/-- A zero-initialised struct drm. -/
def drm_zero : drm :=
  { fd := 0, crtc_index := 0, mode := none, crtc_id := 0, connector_id := 0, count := 0 }

/-- Scenario A: 1920x1080 flagged preferred, then 1280x720. -/
def modes_preferred_first : List drmModeModeInfo :=
  [mk_mode "1920x1080" 1920 1080 60 8, mk_mode "1280x720" 1280 720 60 0]

/-- A small mode flagged preferred after two larger ones. -/
def modes_preferred_small : List drmModeModeInfo :=
  [mk_mode "1920x1080" 1920 1080 60 0, mk_mode "2560x1440" 2560 1440 60 0,
   mk_mode "640x480" 640 480 60 8]

/-- Scenario B behind a larger preferred mode: 1280x720 at 75 Hz before 1280x720 at 60 Hz. -/
def modes_two_refresh : List drmModeModeInfo :=
  [mk_mode "1920x1080" 1920 1080 60 8, mk_mode "1280x720" 1280 720 75 0,
   mk_mode "1280x720" 1280 720 60 0]

/-- No preferred mode; the largest area 200 occurs at indices 2 and 3. -/
def modes_area_tie : List drmModeModeInfo :=
  [mk_mode "10x10" 10 10 60 0, mk_mode "20x5" 20 5 60 0, mk_mode "20x10" 20 10 60 0,
   mk_mode "10x20" 10 20 60 0]

/-- A single mode of area zero. -/
def modes_zero_area : List drmModeModeInfo := [mk_mode "0x0" 0 0 60 0]

/-- A mode whose area does not fit a 32-bit int, then a one-pixel mode. -/
def modes_overflow : List drmModeModeInfo :=
  [mk_mode "65535x65535" 65535 65535 60 0, mk_mode "1x1" 1 1 60 0]

/-- A connected connector with id 31 to which no encoder is attached (encoder_id 0), with
the candidate encoders `cands`. -/
def connector_unattached (cands : List Nat) : drmModeConnector :=
  { connector_id := 31, encoder_id := 0, connection := 1, modes := modes_preferred_first,
    encoders := cands }

/-- The encoder 21, which can drive no CRTC at all. -/
def encoder21 : drmModeEncoder :=
  { encoder_id := 21, crtc_id := 0, possible_crtcs := 0 }

/-- The encoder 22, bound to no CRTC, which can drive the CRTC at index 0. -/
def encoder22 : drmModeEncoder :=
  { encoder_id := 22, crtc_id := 0, possible_crtcs := 1 }

/-- A kernel with the single connector `connector_unattached cands` and the encoders 21
and 22. -/
def kernel_unattached (cands : List Nat) : Kernel :=
  { drmModeGetConnector := fun id => if id = 31 then some (connector_unattached cands) else none
    drmModeGetEncoder := fun id =>
      if id = 21 then some encoder21 else if id = 22 then some encoder22 else none }

/-- The resources of `kernel_unattached`. -/
def resources_unattached : drmModeRes :=
  { crtcs := [10], connectors := [31], encoders := [21, 22] }

/-- A kernel in which connector 30 is attached to an encoder 20 that is bound to no CRTC. -/
def kernel_unbound : Kernel :=
  { drmModeGetConnector := fun id =>
      if id = 30 then some (connector30 modes_preferred_first) else none
    drmModeGetEncoder := fun id =>
      if id = 20 then some { encoder_id := 20, crtc_id := 0, possible_crtcs := 1 } else none }

/-- A disconnected connector with id 32 (DRM_MODE_DISCONNECTED is 2). -/
def connector32 : drmModeConnector :=
  { connector_id := 32, encoder_id := 0, connection := 2, modes := [], encoders := [] }

/-- A kernel with the disconnected connector 32, the connected connector 30 attached to
encoder 20, and the encoders 20 and 22. -/
def kernel_board : Kernel :=
  { drmModeGetConnector := fun id =>
      if id = 30 then some (connector30 modes_preferred_first)
      else if id = 32 then some connector32 else none
    drmModeGetEncoder := fun id =>
      if id = 20 then some encoder20 else if id = 22 then some encoder22 else none }

/-- Resources of `kernel_board`: the disconnected connector comes first, the attached
encoder second, the CRTC 10 second. -/
def resources_board : drmModeRes :=
  { crtcs := [11, 10], connectors := [32, 30], encoders := [22, 20] }

/-- Resources of `kernel_board` with the disconnected connector only. -/
def resources_unplugged : drmModeRes :=
  { crtcs := [11, 10], connectors := [32], encoders := [22, 20] }

/-- The struct drm written by a successful init_drm that chose `connector`, the mode
pointer `mp` and the controller `crtc_id`: crtc_index is overwritten only when the last
loop finds `crtc_id` in the controller list. -/
def drm_bound (d0 : drm) (fd : Int) (resources : drmModeRes) (connector : drmModeConnector)
    (mp : ModePtr) (crtc_id count : Nat) : drm :=
  { fd := fd
    crtc_index :=
      match find_crtc_index crtc_id resources.crtcs 0 with
      | some i => (i : Int)
      | none => d0.crtc_index
    mode := some mp
    crtc_id := crtc_id
    connector_id := connector.connector_id
    count := count }

/-! ### drm-common.c: the pieces of drm_fb_get_from_bo by name -/

/-- The guard of the modifier-aware path: all five weak GBM symbols are resolved. -/
def plane_accessors (P : DrmPlatform) : Bool :=
  P.gbm_bo_get_handle_for_plane && P.gbm_bo_get_modifier && P.gbm_bo_get_plane_count &&
    P.gbm_bo_get_stride_for_plane && P.gbm_bo_get_offset

/-- The local arrays after the plane loop of drm_fb_get_from_bo, `none` when the loop
stores outside them. -/
def gather_planes (b : gbm_bo) : Option PlaneArrays :=
  plane_loop b b.plane_count.toNat 0
    { handles := [0, 0, 0, 0], strides := [0, 0, 0, 0], offsets := [0, 0, 0, 0],
      modifiers := ([0, 0, 0, 0] : List Nat).set 0 b.modifier }

/-- The value of `flags` after the test of `modifiers[0]`. -/
def modifier_flags (a : PlaneArrays) : Nat :=
  if a.modifiers.headD 0 ≠ 0 ∧ a.modifiers.headD 0 ≠ DRM_FORMAT_MOD_INVALID then
    DRM_MODE_FB_MODIFIERS else 0

/-- The call of drmModeAddFB2WithModifiers issued for the gathered arrays `a`. -/
def modifier_call (b : gbm_bo) (a : PlaneArrays) : KmsEvent :=
  KmsEvent.AddFB2WithModifiers b.device_fd b.width b.height b.format
    a.handles a.strides a.offsets a.modifiers (modifier_flags a)

/-- The call of drmModeAddFB2 issued by the legacy path: plane zero only, flags 0. -/
def legacy_call (b : gbm_bo) : KmsEvent :=
  KmsEvent.AddFB2 b.device_fd b.width b.height b.format
    [b.handle, 0, 0, 0] [b.stride, 0, 0, 0] [0, 0, 0, 0] 0

/-- The state after `fb = calloc(...)` and `fb->bo = bo`. -/
def fresh_fb (w : World) (bo : Nat) : World :=
  set_heap (calloc_fb w).2 w.next (some { bo := bo, fb_id := 0 })

/-- The end of drm_fb_get_from_bo: with `ret` non-zero the drm_fb is freed and NULL is
returned, otherwise the drm_fb is attached to the buffer object and returned. -/
def finish_fb (w : World) (ret : Int) (bo fb : Nat) : Option Nat × World :=
  if ret ≠ 0 then (none, free_fb w fb)
  else (some fb, gbm_bo_set_user_data w bo fb DestroyFn.drm_fb_destroy_callback)

/-- Outcome of a call of drm_fb_get_from_bo on `bo` in state `w` that attempted the legacy
creation after the events `before`: the legacy call is the next event, followed by
`free` exactly when it is rejected; when it is accepted the drm_fb at the new address is
returned, carries the fb_id written by drmModeAddFB2 and is attached to `bo` with the
destroy callback. -/
def legacy_outcome (P : DrmPlatform) (w : World) (bo : Nat) (before : List KmsEvent)
    (r : Option Nat) (w2 : World) : Prop :=
  w2.log = before ++ [legacy_call (w.bos bo)] ++
    (if (P.drmModeAddFB2 before (legacy_call (w.bos bo))).1 = 0 then []
     else [KmsEvent.free w.next]) ∧
  ((P.drmModeAddFB2 before (legacy_call (w.bos bo))).1 = 0 →
    r = some w.next ∧
    w2.heap w.next =
      some { bo := bo, fb_id := (P.drmModeAddFB2 before (legacy_call (w.bos bo))).2 } ∧
    (w2.bos bo).user_data = some w.next ∧
    (w2.bos bo).destroy_user_data = some DestroyFn.drm_fb_destroy_callback)

/-- Outcome of a failed call of drm_fb_get_from_bo on `bo` in state `w`: NULL is returned,
the last event is the `free` of the drm_fb allocated by this call, nothing is stored at
its address any more, and no buffer object and no other heap cell has changed, so `bo`
still has no user data and no destructor beyond what it had. -/
def create_failed_outcome (w : World) (bo : Nat) (r : Option Nat) (w2 : World) : Prop :=
  r = none ∧ w2.bos = w.bos ∧ (w2.bos bo).user_data = none ∧
  (w2.bos bo).destroy_user_data = (w.bos bo).destroy_user_data ∧
  w2.heap w.next = none ∧ (∀ q, q ≠ w.next → w2.heap q = w.heap q) ∧
  w2.log.getLast? = some (KmsEvent.free w.next) ∧ w2.next = w.next + 1

/-- A buffer object with the non-linear modifier 72057594037927937 and two planes. -/
def bo_tiled : gbm_bo :=
  { device_fd := 3, width := 640, height := 480, format := 842094158, handle := 11,
    stride := 640, modifier := 72057594037927937, plane_count := 2,
    handle_for_plane := fun i => 11 + i, stride_for_plane := fun _ => 640,
    offset := fun i => 307200 * i, user_data := none, destroy_user_data := none }

/-- A state whose buffer objects are all `bo_tiled`, without cached framebuffers. -/
def world_tiled : World :=
  { bos := fun _ => bo_tiled, heap := fun _ => none, next := 1, log := [] }

/-- The arrays gathered for `bo_tiled`. -/
def planes_tiled : PlaneArrays :=
  { handles := [11, 12, 0, 0], strides := [640, 640, 0, 0], offsets := [0, 307200, 0, 0],
    modifiers := [72057594037927937, 72057594037927937, 0, 0] }

/-- The arrays gathered for `bo_linear`. -/
def planes_linear : PlaneArrays :=
  { handles := [11, 0, 0, 0], strides := [2560, 0, 0, 0], offsets := [0, 0, 0, 0],
    modifiers := [0, 0, 0, 0] }

/-- A platform without the weak GBM plane accessors whose kernel accepts drmModeAddFB2. -/
def platform_no_accessors : DrmPlatform :=
  { gbm_bo_get_handle_for_plane := false, gbm_bo_get_modifier := false,
    gbm_bo_get_plane_count := false, gbm_bo_get_stride_for_plane := false,
    gbm_bo_get_offset := false, calloc_fails := fun _ => false,
    drmModeAddFB2WithModifiers := fun _ _ => (0, 77),
    drmModeAddFB2 := fun log _ => (0, 40 + log.length) }

/-- A kernel that rejects both framebuffer creation calls. -/
def platform_rejects_all : DrmPlatform :=
  { gbm_bo_get_handle_for_plane := true, gbm_bo_get_modifier := true,
    gbm_bo_get_plane_count := true, gbm_bo_get_stride_for_plane := true,
    gbm_bo_get_offset := true, calloc_fails := fun _ => false,
    drmModeAddFB2WithModifiers := fun _ _ => (-22, 0),
    drmModeAddFB2 := fun _ _ => (-22, 0) }

/-- A state in which buffer object 7 has the cached drm_fb at address 1 with fb_id 42. -/
def world_cached : World :=
  { bos := fun _ => { bo_linear with user_data := some 1,
                                     destroy_user_data := some DestroyFn.drm_fb_destroy_callback }
    heap := fun p => if p = 1 then some { bo := 7, fb_id := 42 } else none
    next := 2
    log := [] }

/-! ### common.c: the attribute list of create_framebuffer -/

/-- EGL_NONE of the EGL headers. -/
def EGL_NONE : Int := 0x3038

/-- EGL_WIDTH of the EGL headers. -/
def EGL_WIDTH : Int := 0x3057

/-- EGL_HEIGHT of the EGL headers. -/
def EGL_HEIGHT : Int := 0x3056

/-- EGL_LINUX_DRM_FOURCC_EXT of the EGL extension headers. -/
def EGL_LINUX_DRM_FOURCC_EXT : Int := 0x3271

/-- EGL_DMA_BUF_PLANE0_FD_EXT of the EGL extension headers. -/
def EGL_DMA_BUF_PLANE0_FD_EXT : Int := 0x3272

/-- EGL_DMA_BUF_PLANE0_OFFSET_EXT of the EGL extension headers. -/
def EGL_DMA_BUF_PLANE0_OFFSET_EXT : Int := 0x3273

/-- EGL_DMA_BUF_PLANE0_PITCH_EXT of the EGL extension headers. -/
def EGL_DMA_BUF_PLANE0_PITCH_EXT : Int := 0x3274

/-- EGL_DMA_BUF_PLANE0_MODIFIER_LO_EXT, common.h. -/
def EGL_DMA_BUF_PLANE0_MODIFIER_LO_EXT : Int := 0x3443

/-- EGL_DMA_BUF_PLANE0_MODIFIER_HI_EXT, common.h. -/
def EGL_DMA_BUF_PLANE0_MODIFIER_HI_EXT : Int := 0x3444

/-- Conversion of an unsigned value to EGLint, a 32-bit int. -/
def to_EGLint (x : Nat) : Int := wrap_int32 x

/-- The array khr_image_attrs of create_framebuffer as it is passed to eglCreateImageKHR:
the seventeen initialisers, then the four stores at attrs_index 12 to 15 when
egl->modifiers_supported holds and the modifier of the buffer is not
DRM_FORMAT_MOD_LINEAR. `fd` is the result of gbm_bo_get_fd. The offset entry is the
literal 0 of the source. -/
def khr_image_attrs (modifiers_supported : Bool) (bo : gbm_bo) (fd : Int) : List Int :=
  let attrs : List Int :=
    [EGL_WIDTH, to_EGLint bo.width,
     EGL_HEIGHT, to_EGLint bo.height,
     EGL_LINUX_DRM_FOURCC_EXT, to_EGLint bo.format,
     EGL_DMA_BUF_PLANE0_FD_EXT, fd,
     EGL_DMA_BUF_PLANE0_OFFSET_EXT, 0,
     EGL_DMA_BUF_PLANE0_PITCH_EXT, to_EGLint bo.stride,
     EGL_NONE, EGL_NONE,
     EGL_NONE, EGL_NONE,
     EGL_NONE]
  if modifiers_supported then
    let modifier := bo.modifier
    if modifier ≠ DRM_FORMAT_MOD_LINEAR then
      (((attrs.set 12 EGL_DMA_BUF_PLANE0_MODIFIER_LO_EXT).set 13
        (to_EGLint (modifier &&& 0xffffffff))).set 14 EGL_DMA_BUF_PLANE0_MODIFIER_HI_EXT).set 15
        (to_EGLint (modifier >>> 32))
    else attrs
  else attrs

/-- How an EGL attribute list is read: key and value pairs up to the first key EGL_NONE. -/
def attrib_pairs : List Int → List (Int × Int)
  | key :: value :: rest => if key = EGL_NONE then [] else (key, value) :: attrib_pairs rest
  | _ => []

/-- A buffer object that reports zero planes and the non-linear modifier 5. -/
def bo_no_planes : gbm_bo :=
  { bo_tiled with modifier := 5, plane_count := 0 }

/-- A linear single-plane buffer object whose plane zero starts 4096 bytes into the
buffer. -/
def bo_offset : gbm_bo :=
  { bo_linear with offset := fun _ => 4096 }

/-- An encoder that can drive the controllers at index 1 and index 2 (mask 6). -/
def encoder_mask6 : drmModeEncoder :=
  { encoder_id := 23, crtc_id := 0, possible_crtcs := 6 }

/-- Resources with three controllers. -/
def resources_three : drmModeRes :=
  { crtcs := [10, 11, 12], connectors := [30], encoders := [23] }

/-! ### common.c: create_framebuffer and the surfaceless loop of init_egl -/

/-- GL_FRAMEBUFFER_COMPLETE of the GLES2 headers. -/
def GL_FRAMEBUFFER_COMPLETE : Nat := 0x8CD5

/-- The struct framebuffer of common.h; `image` is `none` for EGL_NO_IMAGE_KHR. -/
structure framebuffer where
  image : Option Nat
  tex : Nat
  fb : Nat
  deriving DecidableEq, Repr

/-- Calls of create_framebuffer that acquire, use or release a resource, with their
results. -/
inductive GlEvent where
  | gbm_bo_get_fd (fd : Int)
  | eglCreateImageKHR (attrs : List Int) (image : Option Nat)
  | close (fd : Int)
  | glGenTextures (tex : Nat)
  | glEGLImageTargetTexture2DOES (image : Nat)
  | glGenFramebuffers (fb : Nat)
  | glFramebufferTexture2D (fb tex : Nat)
  | glCheckFramebufferStatus (status : Nat)
  | glDeleteFramebuffers (fb : Nat)
  | glDeleteTextures (tex : Nat)
  deriving DecidableEq, Repr

/-- The EGL and GL side of create_framebuffer. `eglCreateImageKHR` is `none` when the
entry point was not resolved (the assert fails), `glEGLImageTargetTexture2DOES` says
whether that entry point was resolved (it is called without a check). Every call receives
the events so far; eglCreateImageKHR answers `none` for EGL_NO_IMAGE_KHR. -/
structure EglPlatform where
  modifiers_supported : Bool
  eglCreateImageKHR : Option (List GlEvent → List Int → Option Nat)
  glEGLImageTargetTexture2DOES : Bool
  gbm_bo_get_fd : List GlEvent → Int
  glGenTextures : List GlEvent → Nat
  glGenFramebuffers : List GlEvent → Nat
  glCheckFramebufferStatus : List GlEvent → Nat

/-- The resources held by the process: open file descriptors, EGL images, GL textures and
GL framebuffer objects, and the events so far. -/
structure GlState where
  open_fds : List Int
  images : List Nat
  textures : List Nat
  framebuffers : List Nat
  log : List GlEvent
  deriving DecidableEq, Repr

/-- Second half of create_framebuffer, after `close(fd)`: the texture, the render target
and the completeness check. `none` when glEGLImageTargetTexture2DOES is a NULL pointer. -/
def create_render_target (E : EglPlatform) (s : GlState) (image : Nat) :
    Option (Bool × framebuffer × GlState) :=
  let tex := E.glGenTextures s.log
  let s1 : GlState :=
    { s with textures := tex :: s.textures, log := s.log ++ [GlEvent.glGenTextures tex] }
  if E.glEGLImageTargetTexture2DOES = false then none
  else
    let s2 : GlState := { s1 with log := s1.log ++ [GlEvent.glEGLImageTargetTexture2DOES image] }
    let fbo := E.glGenFramebuffers s2.log
    let s3 : GlState :=
      { s2 with framebuffers := fbo :: s2.framebuffers,
                log := s2.log ++ [GlEvent.glGenFramebuffers fbo,
                                  GlEvent.glFramebufferTexture2D fbo tex] }
    let status := E.glCheckFramebufferStatus s3.log
    let s4 : GlState := { s3 with log := s3.log ++ [GlEvent.glCheckFramebufferStatus status] }
    let fb : framebuffer := { image := some image, tex := tex, fb := fbo }
    if status ≠ GL_FRAMEBUFFER_COMPLETE then
      some (false, fb,
        { s4 with framebuffers := s4.framebuffers.erase fbo,
                  textures := s4.textures.erase tex,
                  log := s4.log ++ [GlEvent.glDeleteFramebuffers fbo,
                                    GlEvent.glDeleteTextures tex] })
    else some (true, fb, s4)

/-- Model of create_framebuffer for a non-NULL buffer object `bo` and the struct
framebuffer `fb` to fill: the return value, the struct and the resources afterwards.
`none` when an assert fails or a NULL function pointer is called. -/
def create_framebuffer (E : EglPlatform) (s : GlState) (bo : gbm_bo) (fb : framebuffer) :
    Option (Bool × framebuffer × GlState) :=
  match E.eglCreateImageKHR with
  | none => none
  | some create_image =>
    let fd := E.gbm_bo_get_fd s.log
    if fd < 0 then
      some (false, fb, { s with log := s.log ++ [GlEvent.gbm_bo_get_fd fd] })
    else
      let s1 : GlState :=
        { s with open_fds := fd :: s.open_fds, log := s.log ++ [GlEvent.gbm_bo_get_fd fd] }
      let attrs := khr_image_attrs E.modifiers_supported bo fd
      let image := create_image s1.log attrs
      let s2 : GlState := { s1 with log := s1.log ++ [GlEvent.eglCreateImageKHR attrs image] }
      match image with
      | none => some (false, { fb with image := none }, s2)
      | some img =>
        let s3 : GlState :=
          { s2 with images := img :: s2.images, open_fds := s2.open_fds.erase fd,
                    log := s2.log ++ [GlEvent.close fd] }
        create_render_target E s3 img

/-- The loop at the end of init_egl over gbm->bos, from index `i`: the return value of
init_egl (0 when the loop completes, -1 at the first failing create_framebuffer), the
array egl->fbs and the resources afterwards. -/
def init_egl_loop (E : EglPlatform) :
    List gbm_bo → Nat → List framebuffer → GlState → Option (Int × List framebuffer × GlState)
  | [], _, fbs, s => some (0, fbs, s)
  | bo :: rest, i, fbs, s =>
    match create_framebuffer E s bo (fbs.getD i { image := none, tex := 0, fb := 0 }) with
    | none => none
    | some (true, fb, s1) => init_egl_loop E rest (i + 1) (fbs.set i fb) s1
    | some (false, fb, s1) => some (-1, fbs.set i fb, s1)

/-- The end of init_egl, reached after display, context and extensions are set up: the
framebuffers are created only in surfaceless mode (gbm->surface is NULL). -/
def init_egl_framebuffers (E : EglPlatform) (surface : Option Nat) (bos : List gbm_bo)
    (fbs : List framebuffer) (s : GlState) : Option (Int × List framebuffer × GlState) :=
  match surface with
  | some _ => some (0, fbs, s)
  | none => init_egl_loop E bos 0 fbs s

/-- No resource held, no event yet. -/
def gl_empty : GlState :=
  { open_fds := [], images := [], textures := [], framebuffers := [], log := [] }

/-- The zero-initialised array egl->fbs. -/
def fbs_zero : List framebuffer :=
  [{ image := none, tex := 0, fb := 0 }, { image := none, tex := 0, fb := 0 }]

/-- An EGL and GL implementation that hands out fresh names and reports the render target
of the first buffer complete and that of the second buffer incomplete
(GL_FRAMEBUFFER_UNSUPPORTED, 0x8CDD). -/
def egl_second_incomplete : EglPlatform :=
  { modifiers_supported := true
    eglCreateImageKHR := some (fun log _ => some (100 + log.length))
    glEGLImageTargetTexture2DOES := true
    gbm_bo_get_fd := fun log => 10 + log.length
    glGenTextures := fun log => 200 + log.length
    glGenFramebuffers := fun log => 300 + log.length
    glCheckFramebufferStatus := fun log => if log.length < 8 then 0x8CD5 else 0x8CDD }

/-- An EGL implementation whose eglCreateImageKHR fails for the second buffer. -/
def egl_second_image_fails : EglPlatform :=
  { egl_second_incomplete with
    eglCreateImageKHR := some (fun log _ => if log.length < 8 then some (100 + log.length)
                                            else none) }

/-! ## Theorems -/

/-! ### has_ext -/

theorem isPrefixOf_true_iff (a b : List Char) : a.isPrefixOf b = true ↔ a <+: b :=
  List.isPrefixOf_iff_prefix

/-- What strstr returns when it finds the needle: the suffix at the first occurrence. -/
theorem strstr_some {hay needle p : List Char} (h : strstr hay needle = some p) :
    ∃ a, hay = a ++ p ∧ needle <+: p ∧
      ∀ a2 p2, hay = a2 ++ p2 → needle <+: p2 → a.length ≤ a2.length := by
  induction hay with
  | nil =>
    simp only [strstr] at h
    split at h
    · rename_i hp
      cases h
      exact ⟨[], rfl, (isPrefixOf_true_iff _ _).mp hp, fun _ _ _ _ => Nat.zero_le _⟩
    · cases h
  | cons c t ih =>
    simp only [strstr] at h
    split at h
    · rename_i hp
      cases h
      exact ⟨[], rfl, (isPrefixOf_true_iff _ _).mp hp, fun _ _ _ _ => Nat.zero_le _⟩
    · rename_i hp
      obtain ⟨a, ha, hpre, hmin⟩ := ih h
      refine ⟨c :: a, by rw [ha]; rfl, hpre, ?_⟩
      intro a2 p2 h2 hp2
      cases a2 with
      | nil =>
        exfalso
        apply hp
        simp only [List.nil_append] at h2
        rw [h2]
        exact (isPrefixOf_true_iff _ _).mpr hp2
      | cons x a3 =>
        simp only [List.cons_append, List.cons.injEq] at h2
        have := hmin a3 p2 h2.2 hp2
        simp only [List.length_cons]
        omega

theorem strstr_none {hay needle : List Char} (h : strstr hay needle = none) :
    ∀ a p, hay = a ++ p → ¬ needle <+: p := by
  induction hay with
  | nil =>
    intro a p hap hp
    simp only [strstr] at h
    split at h
    · cases h
    · rename_i hn
      have : p = [] := by
        have := congrArg List.length hap
        simp only [List.length_nil, List.length_append] at this
        exact List.length_eq_zero.mp (by omega)
      subst this
      exact hn ((isPrefixOf_true_iff _ _).mpr hp)
  | cons c t ih =>
    intro a p hap hp
    simp only [strstr] at h
    split at h
    · cases h
    · rename_i hn
      cases a with
      | nil =>
        simp only [List.nil_append] at hap
        subst hap
        exact hn ((isPrefixOf_true_iff _ _).mpr hp)
      | cons x a3 =>
        simp only [List.cons_append, List.cons.injEq] at hap
        exact ih h a3 p hap.2 hp

theorem drop_of_append_eq {ext r p : List Char} (hr : ext ++ r = p) :
    p.drop ext.length = r := by
  rw [← hr]; simp

/-- The scan reports a match only at an occurrence followed by a boundary. -/
theorem has_ext_loop_true {fuel : Nat} {ptr ext : List Char}
    (h : has_ext_loop fuel ptr ext = some true) :
    ∃ pre post, ptr = pre ++ ext ++ post ∧ (post = [] ∨ ∃ t, post = ' ' :: t) := by
  induction fuel generalizing ptr with
  | zero => simp [has_ext_loop] at h
  | succ n ih =>
    simp only [has_ext_loop] at h
    cases hs : strstr ptr ext with
    | none => rw [hs] at h; simp at h
    | some p =>
      rw [hs] at h
      obtain ⟨a, ha, ⟨r, hr⟩, -⟩ := strstr_some hs
      simp only [drop_of_append_eq hr] at h
      rcases r with _ | ⟨c, rest⟩
      · exact ⟨a, [], by rw [ha, ← hr]; simp, Or.inl rfl⟩
      · simp only at h
        by_cases hsp : c = ' '
        · exact ⟨a, c :: rest, by rw [ha, ← hr]; simp, Or.inr ⟨rest, by rw [hsp]⟩⟩
        · rw [if_neg hsp] at h
          obtain ⟨pre, post, hpp, hb⟩ := ih h
          refine ⟨a ++ ext ++ pre, post, ?_, hb⟩
          rw [ha, ← hr, hpp]; simp

/-- With a non-empty name every iteration consumes input, so the scan ends. -/
theorem has_ext_loop_terminates {ext : List Char} (hne : ext ≠ []) :
    ∀ (fuel : Nat) (ptr : List Char), ptr.length < fuel →
      ∃ b, has_ext_loop fuel ptr ext = some b := by
  intro fuel
  induction fuel with
  | zero => intro ptr h; omega
  | succ n ih =>
    intro ptr hlen
    simp only [has_ext_loop]
    cases hs : strstr ptr ext with
    | none => exact ⟨false, rfl⟩
    | some p =>
      obtain ⟨a, ha, ⟨r, hr⟩, -⟩ := strstr_some hs
      simp only [drop_of_append_eq hr]
      rcases r with _ | ⟨c, rest⟩
      · exact ⟨true, rfl⟩
      · simp only
        by_cases hsp : c = ' '
        · rw [if_pos hsp]; exact ⟨true, rfl⟩
        · rw [if_neg hsp]
          apply ih
          have h1 : ptr.length = a.length + (ext.length + (c :: rest).length) := by
            rw [ha, ← hr]; simp
          have h2 : 0 < ext.length := List.length_pos.mpr hne
          omega

/-- A whole-token occurrence is never skipped by the scan. -/
theorem has_ext_loop_token {ext : List Char} (hne : ext ≠ []) (hsp : ' ' ∉ ext) :
    ∀ (fuel : Nat) (ptr pre post : List Char), ptr.length < fuel →
      ptr = pre ++ ext ++ post →
      (pre = [] ∨ ∃ q, pre = q ++ [' ']) →
      (post = [] ∨ ∃ t, post = ' ' :: t) →
      has_ext_loop fuel ptr ext = some true := by
  intro fuel
  induction fuel with
  | zero => intro ptr _ _ h; omega
  | succ n ih =>
    intro ptr pre post hlen hptr hpre hpost
    simp only [has_ext_loop]
    cases hs : strstr ptr ext with
    | none =>
      exfalso
      exact strstr_none hs pre (ext ++ post) (by rw [hptr]; simp) ⟨post, rfl⟩
    | some p =>
      obtain ⟨a, ha, ⟨r, hr⟩, hmin⟩ := strstr_some hs
      simp only [drop_of_append_eq hr]
      rcases r with _ | ⟨c, rest⟩
      · rfl
      · simp only
        by_cases hc : c = ' '
        · rw [if_pos hc]
        · rw [if_neg hc]
          have hle : a.length ≤ pre.length :=
            hmin pre (ext ++ post) (by rw [hptr]; simp) ⟨post, rfl⟩
          have heq : a ++ (ext ++ c :: rest) = pre ++ (ext ++ post) := by
            rw [hr, ← ha, hptr]; simp
          rcases List.append_eq_append_iff.mp heq with ⟨pre2, hp2, hrest⟩ | ⟨c2, hc2, hrest⟩
          · -- pre = a ++ pre2
            rcases pre2 with _ | ⟨x, pre3⟩
            · simp only [List.nil_append, List.append_cancel_left_eq] at hrest
              rcases hpost with h0 | ⟨t, ht⟩
              · rw [h0] at hrest; cases hrest
              · rw [ht] at hrest
                simp only [List.cons.injEq] at hrest
                exact absurd hrest.1 hc
            · have hlast : ∃ q2, x :: pre3 = q2 ++ [' '] := by
                rcases hpre with h0 | ⟨q, hq⟩
                · rw [h0] at hp2
                  have := congrArg List.length hp2
                  simp only [List.length_nil, List.length_append, List.length_cons] at this
                  omega
                · rw [hq] at hp2
                  rcases List.append_eq_append_iff.mp hp2 with ⟨u, hu, hv⟩ | ⟨u, hu, hv⟩
                  · rcases u with _ | ⟨y, u⟩
                    · simp only [List.nil_append] at hv
                      exact ⟨[], by rw [← hv]; rfl⟩
                    · have := congrArg List.length hv
                      simp at this
                  · exact ⟨u, hv⟩
              obtain ⟨q2, hq2⟩ := hlast
              rw [hq2] at hrest
              have hrest2 : ext ++ c :: rest = q2 ++ ( ' ' :: (ext ++ post)) := by
                rw [hrest]; simp
              rcases List.append_eq_append_iff.mp hrest2 with ⟨u, hu, hv⟩ | ⟨u, hu, hv⟩
              · -- q2 = ext ++ u
                apply ih (c :: rest) (u ++ [' ']) post
                · have h1 : ptr.length = a.length + (ext.length + (c :: rest).length) := by
                    rw [ha, ← hr]; simp
                  have h2 : 0 < ext.length := List.length_pos.mpr hne
                  omega
                · rw [hv]; simp
                · exact Or.inr ⟨u, rfl⟩
                · exact hpost
              · -- ext = q2 ++ u
                exfalso
                rcases u with _ | ⟨y, u⟩
                · simp only [List.nil_append, List.cons.injEq] at hv
                  exact hc hv.1.symm
                · simp only [List.cons_append, List.cons.injEq] at hv
                  apply hsp
                  rw [hu, ← hv.1]
                  simp
          · -- a = pre ++ c2, with |a| ≤ |pre|
            have hc2nil : c2 = [] := by
              have := congrArg List.length hc2
              simp only [List.length_append] at this
              exact List.length_eq_zero.mp (by omega)
            rw [hc2nil] at hrest
            simp only [List.nil_append, List.append_cancel_left_eq] at hrest
            rcases hpost with h0 | ⟨t, ht⟩
            · rw [h0] at hrest; cases hrest
            · rw [ht] at hrest
              simp only [List.cons.injEq] at hrest
              exact absurd hrest.1.symm hc

/-- Shape of the space-separated tokens of a list: the first token is a prefix ended by a
boundary, every later token sits between a space and a boundary. -/
theorem splitOn_space_shape (l : List Char) :
    ∃ t ts, l.splitOn ' ' = t :: ts ∧
      (∃ post, l = t ++ post ∧ (post = [] ∨ ∃ u, post = ' ' :: u)) ∧
      ∀ name ∈ ts, ∃ q post, l = (q ++ [' ']) ++ name ++ post ∧
        (post = [] ∨ ∃ u, post = ' ' :: u) := by
  induction l with
  | nil => exact ⟨[], [], rfl, ⟨[], rfl, Or.inl rfl⟩, by simp⟩
  | cons x xs ih =>
    obtain ⟨t, ts, hsplit, ⟨post, hpost, hb⟩, htail⟩ := ih
    have hsplit2 : List.splitOnP (fun c => c == ' ') xs = t :: ts := hsplit
    by_cases hx : x = ' '
    · refine ⟨[], t :: ts, ?_, ⟨x :: xs, rfl, Or.inr ⟨xs, by rw [hx]⟩⟩, ?_⟩
      · show List.splitOnP (fun c => c == ' ') (x :: xs) = _
        rw [List.splitOnP_cons, hsplit2]
        simp [hx]
      · intro name hname
        rcases List.mem_cons.mp hname with h1 | h1
        · exact ⟨[], post, by rw [h1, hx, hpost]; simp, hb⟩
        · obtain ⟨q, post2, hq, hb2⟩ := htail name h1
          exact ⟨x :: q, post2, by rw [hq]; simp, hb2⟩
    · refine ⟨x :: t, ts, ?_, ⟨post, by rw [hpost]; simp, hb⟩, ?_⟩
      · show List.splitOnP (fun c => c == ' ') (x :: xs) = _
        rw [List.splitOnP_cons, hsplit2]
        simp [hx]
      · intro name hname
        obtain ⟨q, post2, hq, hb2⟩ := htail name hname
        exact ⟨x :: q, post2, by rw [hq]; simp, hb2⟩

theorem token_decomposition {l name : List Char} (h : name ∈ l.splitOn ' ') :
    ∃ pre post, l = pre ++ name ++ post ∧ (pre = [] ∨ ∃ q, pre = q ++ [' ']) ∧
      (post = [] ∨ ∃ u, post = ' ' :: u) := by
  obtain ⟨t, ts, hsplit, ⟨post, hpost, hb⟩, htail⟩ := splitOn_space_shape l
  rw [hsplit] at h
  rcases List.mem_cons.mp h with h1 | h1
  · exact ⟨[], post, by rw [h1, hpost]; simp, Or.inl rfl, hb⟩
  · obtain ⟨q, post2, hq, hb2⟩ := htail name h1
    exact ⟨q ++ [' '], post2, hq, Or.inr ⟨q, rfl⟩, hb2⟩

/-- Claim C1, evaluated on the code: has_ext answers true for the name "foo" against the
list "xfoo", although "foo" is not one of the space-separated tokens of that list. Only the
character after the occurrence is inspected, never the one before it. -/
theorem has_ext_accepts_token_suffix :
    has_ext 5 (some "xfoo".toList) "foo".toList = some true ∧
    "foo".toList ∉ "xfoo".toList.splitOn ' ' := by
  decide

/-- Claim C2: for every list and every non-empty name without a space, if the name is one
of the space-separated tokens of the list then has_ext returns true, within any number of
iterations above the length of the list. -/
theorem has_ext_finds_whole_token (list name : List Char) (fuel : Nat)
    (hne : name ≠ []) (hsp : ' ' ∉ name) (htok : name ∈ list.splitOn ' ')
    (hfuel : list.length < fuel) :
    has_ext fuel (some list) name = some true := by
  obtain ⟨pre, post, hdec, hpre, hpost⟩ := token_decomposition htok
  cases list with
  | nil =>
    exfalso
    have := congrArg List.length hdec
    simp only [List.length_nil, List.length_append] at this
    have h2 : 0 < name.length := List.length_pos.mpr hne
    omega
  | cons c cs =>
    exact has_ext_loop_token hne hsp fuel (c :: cs) pre post hfuel hdec hpre hpost

/-- Witness for C2: "foo" is found in "foobar foo", past the rejected occurrence inside
"foobar". -/
theorem has_ext_finds_whole_token_witness :
    has_ext 11 (some "foobar foo".toList) "foo".toList = some true :=
  has_ext_finds_whole_token "foobar foo".toList "foo".toList 11 (by decide) (by decide)
    (by decide) (by decide)

/-- Claim C3: for every non-empty name, has_ext returns true only if the list contains an
occurrence of the name immediately followed by a space or by the end of the string; a NULL
or an empty list yields false; and a list in which no occurrence of the name is followed by
a space or the end (such as "foobar" for "foo") yields false, within any number of
iterations above its length. -/
theorem has_ext_true_only_at_bounded_occurrence (name : List Char) (hne : name ≠ []) :
    (∀ fuel list, has_ext fuel list name = some true →
      ∃ l pre post, list = some l ∧ l = pre ++ name ++ post ∧
        (post = [] ∨ post.head? = some ' ')) ∧
    (∀ fuel, has_ext fuel none name = some false ∧ has_ext fuel (some []) name = some false) ∧
    (∀ l fuel, l.length < fuel →
      (¬ ∃ pre post, l = pre ++ name ++ post ∧ (post = [] ∨ post.head? = some ' ')) →
      has_ext fuel (some l) name = some false) := by
  have hconv : ∀ post : List Char, (post = [] ∨ ∃ t, post = ' ' :: t) →
      (post = [] ∨ post.head? = some ' ') := by
    intro post hb
    rcases hb with hb | ⟨t, ht⟩
    · exact Or.inl hb
    · exact Or.inr (by rw [ht]; rfl)
  refine ⟨?_, fun _ => ⟨rfl, rfl⟩, ?_⟩
  · intro fuel list h
    cases list with
    | none => simp [has_ext] at h
    | some l =>
      cases l with
      | nil => simp [has_ext] at h
      | cons c cs =>
        obtain ⟨pre, post, hdec, hb⟩ := has_ext_loop_true (show has_ext_loop fuel (c :: cs) name
          = some true from h)
        exact ⟨c :: cs, pre, post, rfl, hdec, hconv post hb⟩
  · intro l fuel hfuel hno
    cases l with
    | nil => rfl
    | cons c cs =>
      obtain ⟨b, hb⟩ := has_ext_loop_terminates hne fuel (c :: cs) hfuel
      cases b with
      | false => exact hb
      | true =>
        obtain ⟨pre, post, hdec, hbd⟩ := has_ext_loop_true hb
        exact absurd ⟨pre, post, hdec, hconv post hbd⟩ hno

/-- Witness for C3: "foo" against "foobar" yields false. -/
theorem has_ext_true_only_at_bounded_occurrence_witness :
    "foo".toList ≠ [] ∧ has_ext 7 (some "foobar".toList) "foo".toList = some false :=
  ⟨by decide,
   (has_ext_true_only_at_bounded_occurrence "foo".toList (by decide)).2.2 "foobar".toList 7
     (by decide) (by
       rintro ⟨pre, post, h, hb⟩
       have hlen := congrArg List.length h
       simp only [List.length_append] at hlen
       have h6 : "foobar".toList.length = 6 := by decide
       have h3 : "foo".toList.length = 3 := by decide
       rw [h6, h3] at hlen
       have hpre : pre = "foobar".toList.take pre.length := by
         rw [h]; simp
       have hpost : post = "foobar".toList.drop (pre.length + 3) := by
         rw [h, ← h3]; simp
       have hcases : pre.length = 0 ∨ pre.length = 1 ∨ pre.length = 2 ∨ pre.length = 3 := by
         omega
       rcases hcases with h0 | h0 | h0 | h0 <;> rw [h0] at hpre hpost <;>
         rw [hpre, hpost] at h <;> revert h hb <;> rw [hpost] <;> decide)⟩

/-! ### init_bo, init_gbm -/

/-- Claim C5: when gbm_bo_create_with_modifiers is absent, init_bo succeeds exactly when the
modifier is DRM_FORMAT_MOD_LINEAR and gbm_bo_create returns a buffer; for a non-linear
modifier init_bo takes the "Modifiers requested" branch without issuing any call, and
init_gbm in surfaceless mode fails at index 0: the only call issued is gbm_create_device,
bos[0] is NULL and the rest of the array is untouched. -/
theorem init_bo_without_modifier_support (P : GbmPlatform) (g : gbm) (modifier : Nat)
    (calls : List GbmCall) (drm_fd : Int) (w h : Int) (format : Nat)
    (habsent : P.gbm_bo_create_with_modifiers = none) :
    ((∃ bo, (init_bo P g modifier calls).1 = Except.ok bo) ↔
      (modifier = DRM_FORMAT_MOD_LINEAR ∧
        ∃ bo, P.gbm_bo_create calls (bo_create_call g) = some bo)) ∧
    (modifier ≠ DRM_FORMAT_MOD_LINEAR →
      init_bo P g modifier calls = (Except.error BoError.UnsupportedModifier, calls) ∧
      init_gbm P g calls drm_fd w h format modifier true =
        (false,
         { dev := P.gbm_create_device calls drm_fd, surface := none, bos := g.bos.set 0 none,
           format := format, width := w, height := h },
         calls ++ [GbmCall.create_device drm_fd])) := by
  constructor
  · simp only [init_bo, modifier_aware_bo, habsent]
    by_cases hm : modifier = DRM_FORMAT_MOD_LINEAR
    · simp only [hm, ne_eq, not_true_eq_false, if_false, true_and]
      cases hc : P.gbm_bo_create calls (bo_create_call g) with
      | none => simp
      | some b => simp
    · simp [hm]
  · intro hm
    have h1 : ∀ g2 : gbm, init_bo P g2 modifier (calls ++ [GbmCall.create_device drm_fd]) =
        (Except.error BoError.UnsupportedModifier, calls ++ [GbmCall.create_device drm_fd]) := by
      intro g2
      simp [init_bo, modifier_aware_bo, habsent, hm]
    constructor
    · simp [init_bo, modifier_aware_bo, habsent, hm]
    · simp only [init_gbm, init_surfaceless, NUM_BUFFERS, init_surfaceless_loop, h1, if_true]

/-- Witness for C5: without modifier support, modifier 5 makes the surfaceless init_gbm fail
with nothing but the device created. -/
theorem init_bo_without_modifier_support_witness :
    platform_no_modifiers.gbm_bo_create_with_modifiers = none ∧
    init_gbm platform_no_modifiers gbm_zero [] 3 1920 1080 875713112 5 true =
      (false,
       { dev := 1, surface := none, bos := [none, none], format := 875713112,
         width := 1920, height := 1080 },
       [GbmCall.create_device 3]) :=
  ⟨rfl, ((init_bo_without_modifier_support platform_no_modifiers gbm_zero 5 [] 3 1920 1080
    875713112 rfl).2 (by decide)).2⟩

/-- Counterexample to C6: the platform has gbm_bo_create_with_modifiers, that call rejects
the request for the non-linear modifier 5, and init_bo fails in the "Modifiers requested
but support is not available" branch, not in the "failed to create gbm bo" branch. -/
theorem init_bo_rejection_reported_as_unsupported :
    platform_rejecting.gbm_bo_create_with_modifiers.isSome = true ∧
    (modifier_aware_bo platform_rejecting gbm_zero 5 []).1 = none ∧
    (init_bo platform_rejecting gbm_zero 5 []).1 = Except.error BoError.UnsupportedModifier ∧
    (init_bo platform_rejecting gbm_zero 5 []).1 ≠ Except.error BoError.AllocationFailed := by
  refine ⟨rfl, rfl, rfl, ?_⟩
  intro h
  have h2 : (Except.error BoError.UnsupportedModifier : Except BoError Nat) =
      Except.error BoError.AllocationFailed := h
  cases h2

/-- Claim C6 as amended: init_bo fails with UnsupportedModifier exactly when the modifier-aware
attempt produced no buffer and the modifier is non-linear; it fails with AllocationFailed
exactly when that attempt produced no buffer, the modifier is linear and gbm_bo_create
returns NULL; and the modifier-aware attempt produces no buffer exactly when
gbm_bo_create_with_modifiers is absent or returns NULL. -/
theorem init_bo_error_kinds (P : GbmPlatform) (g : gbm) (modifier : Nat)
    (calls : List GbmCall) :
    ((init_bo P g modifier calls).1 = Except.error BoError.UnsupportedModifier ↔
      ((modifier_aware_bo P g modifier calls).1 = none ∧ modifier ≠ DRM_FORMAT_MOD_LINEAR)) ∧
    ((init_bo P g modifier calls).1 = Except.error BoError.AllocationFailed ↔
      ((modifier_aware_bo P g modifier calls).1 = none ∧ modifier = DRM_FORMAT_MOD_LINEAR ∧
        P.gbm_bo_create (modifier_aware_bo P g modifier calls).2 (bo_create_call g) = none)) ∧
    ((modifier_aware_bo P g modifier calls).1 = none ↔
      (P.gbm_bo_create_with_modifiers = none ∨
        ∃ f, P.gbm_bo_create_with_modifiers = some f ∧
          f calls (GbmCall.bo_create_with_modifiers g.dev (to_u32 g.width) (to_u32 g.height)
            g.format [modifier] 1) = none)) := by
  refine ⟨?_, ?_, ?_⟩
  · unfold init_bo
    rcases hma : modifier_aware_bo P g modifier calls with ⟨bo, calls1⟩
    cases bo with
    | some b => simp
    | none =>
      by_cases hm : modifier = DRM_FORMAT_MOD_LINEAR
      · simp only [hm, ne_eq, not_true_eq_false, if_false, and_false, iff_false]
        cases P.gbm_bo_create calls1 (bo_create_call g) <;> simp
      · simp [hm]
  · unfold init_bo
    rcases hma : modifier_aware_bo P g modifier calls with ⟨bo, calls1⟩
    cases bo with
    | some b => simp
    | none =>
      by_cases hm : modifier = DRM_FORMAT_MOD_LINEAR
      · simp only [hm, ne_eq, not_true_eq_false, if_false, true_and]
        cases P.gbm_bo_create calls1 (bo_create_call g) <;> simp
      · simp [hm]
  · unfold modifier_aware_bo
    cases P.gbm_bo_create_with_modifiers with
    | none => simp
    | some f => simp

/-! ### drm_fb_get_from_bo -/

theorem Frame.refl (fb : Nat) (w : World) : Frame fb w w :=
  ⟨rfl, rfl, fun _ _ => rfl⟩

theorem Frame.trans {fb : Nat} {w1 w2 w3 : World} (h1 : Frame fb w1 w2) (h2 : Frame fb w2 w3) :
    Frame fb w1 w3 :=
  ⟨h2.bos.trans h1.bos, h2.next.trans h1.next, fun q hq => (h2.heap q hq).trans (h1.heap q hq)⟩

theorem frame_set_heap (w : World) (fb : Nat) (v : Option drm_fb) : Frame fb w (set_heap w fb v) :=
  ⟨rfl, rfl, fun q hq => by simp [set_heap, Function.update, hq]⟩

theorem frame_emit (w : World) (fb : Nat) (e : KmsEvent) : Frame fb w (emit w e) :=
  ⟨rfl, rfl, fun _ _ => rfl⟩

theorem frame_free_fb (w : World) (fb : Nat) : Frame fb w (free_fb w fb) :=
  (frame_emit w fb _).trans (frame_set_heap _ fb none)

theorem frame_add_fb_legacy (P : DrmPlatform) (w : World) (bo fb : Nat) :
    Frame fb w (add_fb_legacy P w bo fb).2 :=
  (frame_emit w fb _).trans (frame_set_heap _ fb _)

theorem frame_add_fb_with_modifiers {P : DrmPlatform} {w w2 : World} {bo fb : Nat} {ret : Int}
    (h : add_fb_with_modifiers P w bo fb = some (ret, w2)) : Frame fb w w2 := by
  unfold add_fb_with_modifiers at h
  simp only at h
  split at h
  · cases h
  · simp only [Option.some.injEq, Prod.mk.injEq] at h
    rw [← h.2]
    exact (frame_emit w fb _).trans (frame_set_heap _ fb _)

theorem drm_fb_get_from_bo_cached {P : DrmPlatform} {w : World} {bo p : Nat}
    (h : (w.bos bo).user_data = some p) : drm_fb_get_from_bo P w bo = some (some p, w) := by
  simp [drm_fb_get_from_bo, h]

theorem drm_fb_get_from_bo_cases {P : DrmPlatform} {w w2 : World} {bo : Nat} {r : Option Nat}
    (h : drm_fb_get_from_bo P w bo = some (r, w2)) :
    (∃ p, (w.bos bo).user_data = some p ∧ r = some p ∧ w2 = w) ∨
    ((w.bos bo).user_data = none ∧ ∃ w4 : World, w4.bos = w.bos ∧ w4.next = w.next + 1 ∧
      (∀ q, q ≠ w.next → w4.heap q = w.heap q) ∧
      ((r = none ∧ w2 = free_fb w4 w.next) ∨
       (r = some w.next ∧
         w2 = gbm_bo_set_user_data w4 bo w.next DestroyFn.drm_fb_destroy_callback))) := by
  unfold drm_fb_get_from_bo at h
  cases hu : (w.bos bo).user_data with
  | some p =>
    left
    rw [hu] at h
    simp only [Option.some.injEq, Prod.mk.injEq] at h
    exact ⟨p, rfl, h.1.symm, h.2.symm⟩
  | none =>
    right
    refine ⟨rfl, ?_⟩
    rw [hu] at h
    simp only at h
    split at h
    · cases h
    · have hbase : ∀ w3 : World,
          Frame w.next (set_heap (calloc_fb w).2 (calloc_fb w).1 (some { bo := bo, fb_id := 0 })) w3 →
          w3.bos = w.bos ∧ w3.next = w.next + 1 ∧ ∀ q, q ≠ w.next → w3.heap q = w.heap q := by
        intro w3 hf
        refine ⟨hf.bos, hf.next, fun q hq => ?_⟩
        rw [hf.heap q hq]
        simp [set_heap, calloc_fb, emit, Function.update, hq]
      split at h
      · cases h
      · rename_i ret w3 heq
        have hf3 : Frame w.next
            (set_heap (calloc_fb w).2 (calloc_fb w).1 (some { bo := bo, fb_id := 0 })) w3 := by
          split at heq
          · exact frame_add_fb_with_modifiers heq
          · simp only [Option.some.injEq, Prod.mk.injEq] at heq
            rw [← heq.2]
            exact Frame.refl _ _
        have hf4 : Frame w.next w3
            (if ret ≠ 0 then add_fb_legacy P w3 bo (calloc_fb w).1 else (ret, w3)).2 := by
          by_cases hret : ret ≠ 0
          · rw [if_pos hret]; exact frame_add_fb_legacy P w3 bo _
          · rw [if_neg hret]; exact Frame.refl _ _
        generalize (if ret ≠ 0 then add_fb_legacy P w3 bo (calloc_fb w).1 else (ret, w3)) = res4
          at h hf4
        refine ⟨res4.2, (hbase _ (hf3.trans hf4)).1, (hbase _ (hf3.trans hf4)).2.1,
          (hbase _ (hf3.trans hf4)).2.2, ?_⟩
        split at h
        · simp only [Option.some.injEq, Prod.mk.injEq] at h
          exact Or.inl ⟨h.1.symm, h.2.symm⟩
        · simp only [Option.some.injEq, Prod.mk.injEq] at h
          exact Or.inr ⟨h.1.symm, h.2.symm⟩

/-- What one call does to the cache, the allocator and the heap. -/
theorem drm_fb_get_from_bo_effects {P : DrmPlatform} {w w2 : World} {bo : Nat} {r : Option Nat}
    (h : drm_fb_get_from_bo P w bo = some (r, w2)) (hwf : w.wf) :
    w2.wf ∧ w.next ≤ w2.next ∧ (∀ q, q < w.next → w2.heap q = w.heap q) ∧
    (∀ b p, (w.bos b).user_data = some p → (w2.bos b).user_data = some p) ∧
    (∀ p, r = some p → (w2.bos bo).user_data = some p) := by
  rcases drm_fb_get_from_bo_cases h with ⟨p, hp, hr, hw⟩ | ⟨hu, w4, hb, hn, hh, hres⟩
  · subst hw
    refine ⟨hwf, Nat.le_refl _, fun _ _ => rfl, fun _ _ hbp => hbp, ?_⟩
    intro q hq
    rw [hr] at hq
    cases hq
    exact hp
  · rcases hres with ⟨hr, hw⟩ | ⟨hr, hw⟩
    · have hf := frame_free_fb w4 w.next
      rw [← hw] at hf
      refine ⟨?_, ?_, ?_, ?_, ?_⟩
      · intro b p hbp
        rw [hf.bos, hb] at hbp
        have := hwf b p hbp
        rw [hf.next, hn]
        omega
      · rw [hf.next, hn]; omega
      · intro q hq
        rw [hf.heap q (by omega), hh q (by omega)]
      · intro b p hbp
        rw [hf.bos, hb]; exact hbp
      · intro p hp
        rw [hr] at hp
        cases hp
    · subst hw
      refine ⟨?_, ?_, ?_, ?_, ?_⟩
      · intro b p hbp
        show p < w4.next
        rw [hn]
        by_cases hbb : b = bo
        · subst hbb
          simp [gbm_bo_set_user_data] at hbp
          omega
        · simp [gbm_bo_set_user_data, Function.update, hbb] at hbp
          rw [hb] at hbp
          have := hwf b p hbp
          omega
      · show w.next ≤ w4.next
        omega
      · intro q hq
        show w4.heap q = w.heap q
        exact hh q (by omega)
      · intro b p hbp
        by_cases hbb : b = bo
        · subst hbb
          rw [hu] at hbp
          cases hbp
        · simp [gbm_bo_set_user_data, Function.update, hbb]
          rw [hb]; exact hbp
      · intro p hp
        rw [hr] at hp
        cases hp
        simp [gbm_bo_set_user_data]

theorem run_gets_preserves {P : DrmPlatform} (bo p : Nat) :
    ∀ (bs : List Nat) (w w2 : World), w.wf → (w.bos bo).user_data = some p →
      run_gets P w bs = some w2 →
      w2.wf ∧ (w2.bos bo).user_data = some p ∧ w2.heap p = w.heap p := by
  intro bs
  induction bs with
  | nil =>
    intro w w2 hwf hu hrun
    simp only [run_gets, Option.some.injEq] at hrun
    subst hrun
    exact ⟨hwf, hu, rfl⟩
  | cons b rest ih =>
    intro w w2 hwf hu hrun
    simp only [run_gets] at hrun
    cases hg : drm_fb_get_from_bo P w b with
    | none => rw [hg] at hrun; cases hrun
    | some res =>
      obtain ⟨r, w1⟩ := res
      rw [hg] at hrun
      simp only at hrun
      obtain ⟨hwf1, -, hheap, hkeep, -⟩ := drm_fb_get_from_bo_effects hg hwf
      obtain ⟨hwf2, hu2, hh2⟩ := ih w1 w2 hwf1 (hkeep bo p hu) hrun
      exact ⟨hwf2, hu2, hh2.trans (hheap p (hwf bo p hu))⟩


/-- Claim C4: once drm_fb_get_from_bo has returned a drm_fb for a buffer object, then after
any further calls (on this or on other buffer objects) a call on the same buffer object
returns the same pointer and leaves the state as it is, so that it issues no kernel call and
creates nothing; the buffer object still points at that drm_fb and the drm_fb, with its
fb_id, is unchanged. -/
theorem drm_fb_get_from_bo_idempotent (P : DrmPlatform) (w w1 : World) (bo fb : Nat)
    (hwf : w.wf) (hfirst : drm_fb_get_from_bo P w bo = some (some fb, w1)) :
    ∀ (later : List Nat) (w2 : World), run_gets P w1 later = some w2 →
      drm_fb_get_from_bo P w2 bo = some (some fb, w2) ∧
      (w2.bos bo).user_data = some fb ∧ w2.heap fb = w1.heap fb := by
  intro later w2 hrun
  obtain ⟨hwf1, -, -, -, hset⟩ := drm_fb_get_from_bo_effects hfirst hwf
  obtain ⟨-, hu2, hh2⟩ := run_gets_preserves bo fb later w1 w2 hwf1 (hset fb rfl) hrun
  exact ⟨drm_fb_get_from_bo_cached hu2, hu2, hh2⟩

theorem world0_wf : world0.wf := by
  intro b p h
  cases h

/-- Witness for C4: buffer object 7 gets the drm_fb at address 1 with fb_id 42 through the
legacy path; after calls on buffer objects 8 and 7 a further call on 7 returns address 1
again, with fb_id 42. -/
theorem drm_fb_get_from_bo_idempotent_witness :
    drm_fb_get_from_bo platform_legacy_only world0 7 = some (some 1, world1) ∧
    run_gets platform_legacy_only world1 [8, 7] = some world2 ∧
    (drm_fb_get_from_bo platform_legacy_only world2 7 = some (some 1, world2) ∧
      (world2.bos 7).user_data = some 1 ∧ world2.heap 1 = world1.heap 1) ∧
    world1.heap 1 = some { bo := 7, fb_id := 42 } :=
  ⟨rfl, rfl,
   drm_fb_get_from_bo_idempotent platform_legacy_only world0 world1 7 1 world0_wf rfl [8, 7]
     world2 rfl,
   by decide⟩

/-! ### init_drm: mode selection -/

theorem find_requested_mode_first (mode_str : List Char) (vrefresh : Nat) :
    ∀ (modes : List drmModeModeInfo) (k i : Nat) (m : drmModeModeInfo),
      modes[i]? = some m →
      (m.name = mode_str ∧ (vrefresh = 0 ∨ m.vrefresh = vrefresh)) →
      (∀ j mj, j < i → modes[j]? = some mj →
        ¬ (mj.name = mode_str ∧ (vrefresh = 0 ∨ mj.vrefresh = vrefresh))) →
      find_requested_mode mode_str vrefresh modes k = some (k + i) := by
  intro modes
  induction modes with
  | nil => intro k i m hi; simp at hi
  | cons m0 rest ih =>
    intro k i m hi hm hfirst
    cases i with
    | zero =>
      simp only [List.getElem?_cons_zero, Option.some.injEq] at hi
      subst hi
      simp only [find_requested_mode]
      rw [if_pos hm]
      rfl
    | succ i2 =>
      have h0 := hfirst 0 m0 (Nat.succ_pos _) (by simp)
      simp only [find_requested_mode]
      rw [if_neg h0]
      have := ih (k + 1) i2 m (by simpa using hi) hm
        (fun j mj hj hmj => hfirst (j + 1) mj (by omega) (by simpa using hmj))
      rw [this]
      congr 1
      omega

theorem find_requested_mode_none (mode_str : List Char) (vrefresh : Nat) :
    ∀ (modes : List drmModeModeInfo) (k : Nat),
      (∀ m ∈ modes, ¬ (m.name = mode_str ∧ (vrefresh = 0 ∨ m.vrefresh = vrefresh))) →
      find_requested_mode mode_str vrefresh modes k = none := by
  intro modes
  induction modes with
  | nil => intro k _; rfl
  | cons m0 rest ih =>
    intro k h
    simp only [find_requested_mode]
    rw [if_neg (h m0 (List.mem_cons_self _ _))]
    exact ih (k + 1) (fun m hm => h m (List.mem_cons_of_mem _ hm))

theorem find_default_mode_preferred :
    ∀ (modes : List drmModeModeInfo) (k i : Nat) (area : Int) (cur : Option Nat)
      (m : drmModeModeInfo),
      modes[i]? = some m → m.type &&& DRM_MODE_TYPE_PREFERRED ≠ 0 →
      (∀ j mj, j < i → modes[j]? = some mj → mj.type &&& DRM_MODE_TYPE_PREFERRED = 0) →
      find_default_mode modes k area cur = some (k + i) := by
  intro modes
  induction modes with
  | nil => intro k i area cur m hi; simp at hi
  | cons m0 rest ih =>
    intro k i area cur m hi hm hfirst
    cases i with
    | zero =>
      simp only [List.getElem?_cons_zero, Option.some.injEq] at hi
      subst hi
      simp only [find_default_mode]
      rw [if_pos hm]
      rfl
    | succ i2 =>
      have h0 := hfirst 0 m0 (Nat.succ_pos _) (by simp)
      simp only [find_default_mode]
      rw [if_neg (by rw [h0]; simp)]
      have hrec : ∀ a c, find_default_mode rest (k + 1) a c = some (k + 1 + i2) :=
        fun a c => ih (k + 1) i2 a c m (by simpa using hi) hm
          (fun j mj hj hmj => hfirst (j + 1) mj (by omega) (by simpa using hmj))
      have e : k + (i2 + 1) = k + 1 + i2 := by omega
      rw [e]
      split
      · exact hrec _ _
      · exact hrec _ _

theorem find_default_mode_keep :
    ∀ (modes : List drmModeModeInfo) (k : Nat) (area : Int) (cur : Option Nat),
      (∀ m ∈ modes, m.type &&& DRM_MODE_TYPE_PREFERRED = 0) →
      (∀ m ∈ modes, current_area m ≤ area) →
      find_default_mode modes k area cur = cur := by
  intro modes
  induction modes with
  | nil => intro k area cur _ _; rfl
  | cons m0 rest ih =>
    intro k area cur hnp hle
    simp only [find_default_mode]
    rw [if_neg (by rw [hnp m0 (List.mem_cons_self _ _)]; simp)]
    have h0 : ¬ (wrap_int32 (m0.hdisplay * m0.vdisplay) > area) := by
      have := hle m0 (List.mem_cons_self _ _)
      unfold current_area at this
      omega
    rw [if_neg h0]
    exact ih (k + 1) area cur (fun m hm => hnp m (List.mem_cons_of_mem _ hm))
      (fun m hm => hle m (List.mem_cons_of_mem _ hm))

theorem find_default_mode_largest :
    ∀ (modes : List drmModeModeInfo) (k i : Nat) (area : Int) (cur : Option Nat)
      (m : drmModeModeInfo),
      (∀ m2 ∈ modes, m2.type &&& DRM_MODE_TYPE_PREFERRED = 0) →
      modes[i]? = some m → area < current_area m →
      (∀ m2 ∈ modes, current_area m2 ≤ current_area m) →
      (∀ j mj, j < i → modes[j]? = some mj → current_area mj < current_area m) →
      find_default_mode modes k area cur = some (k + i) := by
  intro modes
  induction modes with
  | nil => intro k i area cur m _ hi; simp at hi
  | cons m0 rest ih =>
    intro k i area cur m hnp hi hgt hmax hfirst
    have hnp2 : ∀ m2 ∈ rest, m2.type &&& DRM_MODE_TYPE_PREFERRED = 0 :=
      fun m2 hm => hnp m2 (List.mem_cons_of_mem _ hm)
    have hmax2 : ∀ m2 ∈ rest, current_area m2 ≤ current_area m :=
      fun m2 hm => hmax m2 (List.mem_cons_of_mem _ hm)
    simp only [find_default_mode]
    rw [if_neg (by rw [hnp m0 (List.mem_cons_self _ _)]; simp)]
    cases i with
    | zero =>
      simp only [List.getElem?_cons_zero, Option.some.injEq] at hi
      subst hi
      have hgt2 : wrap_int32 (m0.hdisplay * m0.vdisplay) > area := hgt
      rw [if_pos hgt2]
      exact find_default_mode_keep rest (k + 1) _ (some k) hnp2 hmax2
    | succ i2 =>
      have h0 : current_area m0 < current_area m := hfirst 0 m0 (Nat.succ_pos _) (by simp)
      have hi2 : rest[i2]? = some m := by simpa using hi
      have hfirst2 : ∀ j mj, j < i2 → rest[j]? = some mj → current_area mj < current_area m :=
        fun j mj hj hmj => hfirst (j + 1) mj (by omega) (by simpa using hmj)
      have e : k + (i2 + 1) = k + 1 + i2 := by omega
      rw [e]
      split
      · exact ih (k + 1) i2 _ _ m hnp2 hi2 h0 hmax2 hfirst2
      · exact ih (k + 1) i2 _ _ m hnp2 hi2 hgt hmax2 hfirst2

theorem wrap_int32_of_lt (x : Nat) (h : x < 2147483648) : wrap_int32 x = x := by
  unfold wrap_int32
  omega

theorem current_area_of_lt (m : drmModeModeInfo) (h : m.hdisplay * m.vdisplay < 2147483648) :
    current_area m = ((m.hdisplay * m.vdisplay : Nat) : Int) := by
  unfold current_area
  rw [← wrap_int32_of_lt _ h]
  push_cast
  rfl

/-- With a usable device, a connected connector and resolvable encoders, init_drm returns and
leaves in drm->mode what the mode selection computed. -/
theorem init_drm_mode {K : Kernel} {fd : Int} {resources : drmModeRes}
    {connector : drmModeConnector} {e : Option drmModeEncoder}
    (d0 : drm) (mode_str : Option (List Char)) (vrefresh count : Nat)
    (hfd : 0 ≤ fd) (hconn : find_connector K resources.connectors = some (some connector))
    (henc : find_encoder K connector resources.encoders = some e) :
    ∃ ret d, init_drm K d0 fd (some resources) mode_str vrefresh count = some (ret, d) ∧
      d.mode = select_mode connector mode_str vrefresh d0.mode := by
  have hfd2 : ¬ fd < 0 := by omega
  simp only [init_drm, hfd2, if_false, hconn, henc]
  cases hsel : select_mode connector mode_str vrefresh d0.mode with
  | none => exact ⟨_, _, rfl, rfl⟩
  | some mp =>
    simp only
    split
    · exact ⟨_, _, rfl, rfl⟩
    · split
      · exact ⟨_, _, rfl, rfl⟩
      · exact ⟨_, _, rfl, rfl⟩

/-- The request reaches init_drm only through the mode selection. -/
theorem init_drm_congr_mode (K : Kernel) (d0 : drm) (fd : Int) (resources : Option drmModeRes)
    (s1 s2 : Option (List Char)) (v1 v2 count : Nat)
    (h : ∀ res c, resources = some res → find_connector K res.connectors = some (some c) →
      select_mode c s1 v1 d0.mode = select_mode c s2 v2 d0.mode) :
    init_drm K d0 fd resources s1 v1 count = init_drm K d0 fd resources s2 v2 count := by
  unfold init_drm
  by_cases hfd : fd < 0
  · simp only [hfd, if_true]
  · simp only [hfd, if_false]
    cases resources with
    | none => rfl
    | some res =>
      simp only
      cases hc : find_connector K res.connectors with
      | none => rfl
      | some oc =>
        cases oc with
        | none => rfl
        | some c =>
          simp only
          rw [h res c rfl hc]

theorem select_mode_requested {connector : drmModeConnector} {mode_str : List Char}
    {vrefresh i : Nat} {m : drmModeModeInfo} (mode0 : Option ModePtr)
    (hstr : mode_str ≠ [])
    (hi : connector.modes[i]? = some m)
    (hm : m.name = mode_str ∧ (vrefresh ≠ 0 → m.vrefresh = vrefresh))
    (hfirst : ∀ j mj, j < i → connector.modes[j]? = some mj →
      ¬ (mj.name = mode_str ∧ (vrefresh ≠ 0 → mj.vrefresh = vrefresh))) :
    select_mode connector (some mode_str) vrefresh mode0 = some (ModePtr.modes_elem i) := by
  have hfind : find_requested_mode mode_str vrefresh connector.modes 0 = some (0 + i) := by
    apply find_requested_mode_first mode_str vrefresh connector.modes 0 i m hi
    · exact ⟨hm.1, by by_cases hv : vrefresh = 0; exact Or.inl hv; exact Or.inr (hm.2 hv)⟩
    · intro j mj hj hmj hreq
      exact hfirst j mj hj hmj ⟨hreq.1, fun hv => hreq.2.resolve_left hv⟩
  rw [Nat.zero_add] at hfind
  cases mode_str with
  | nil => exact absurd rfl hstr
  | cons c s => simp only [select_mode, hfind]

theorem select_mode_default {connector : drmModeConnector} {mode_str : Option (List Char)}
    {vrefresh : Nat} (mode0 : Option ModePtr)
    (hreq : ∀ s, mode_str = some s → s ≠ [] → ∀ m ∈ connector.modes,
      ¬ (m.name = s ∧ (vrefresh ≠ 0 → m.vrefresh = vrefresh))) :
    select_mode connector mode_str vrefresh mode0 = select_mode connector none 0 mode0 := by
  cases mode_str with
  | none => rfl
  | some s =>
    cases s with
    | nil => rfl
    | cons c t =>
      have hnone : find_requested_mode (c :: t) vrefresh connector.modes 0 = none := by
        apply find_requested_mode_none
        intro m hm hr
        exact hreq (c :: t) rfl (by simp) m hm
          ⟨hr.1, fun hv => hr.2.resolve_left hv⟩
      simp only [select_mode, hnone]


/-- Claim C7: when a non-empty mode name is requested and some advertised mode has that name
and, if the requested refresh is non-zero, that refresh, init_drm returns with drm->mode
pointing at the first such mode in advertised order, whatever the preferred flags and the
areas of the other modes (and whatever drm->mode held on entry). -/
theorem init_drm_requested_mode_precedence (K : Kernel) (d0 : drm) (fd : Int)
    (resources : drmModeRes) (connector : drmModeConnector) (e : Option drmModeEncoder)
    (mode_str : List Char) (vrefresh count i : Nat) (m : drmModeModeInfo)
    (hfd : 0 ≤ fd) (hconn : find_connector K resources.connectors = some (some connector))
    (henc : find_encoder K connector resources.encoders = some e)
    (hstr : mode_str ≠ [])
    (hi : connector.modes[i]? = some m)
    (hm : m.name = mode_str ∧ (vrefresh ≠ 0 → m.vrefresh = vrefresh))
    (hfirst : ∀ j mj, j < i → connector.modes[j]? = some mj →
      ¬ (mj.name = mode_str ∧ (vrefresh ≠ 0 → mj.vrefresh = vrefresh))) :
    ∃ ret d, init_drm K d0 fd (some resources) (some mode_str) vrefresh count = some (ret, d) ∧
      d.mode = some (ModePtr.modes_elem i) := by
  obtain ⟨ret, d, hrun, hmode⟩ :=
    init_drm_mode d0 (some mode_str) vrefresh count hfd hconn henc
  exact ⟨ret, d, hrun, hmode.trans (select_mode_requested d0.mode hstr hi hm hfirst)⟩

/-- Witness for C7: "1280x720" at 60 Hz is requested; the modes are 1920x1080 (preferred,
larger), 1280x720 at 75 Hz and 1280x720 at 60 Hz; the entry at index 2 is chosen. -/
theorem init_drm_requested_mode_precedence_witness :
    ∃ ret d, init_drm (kernel30 modes_two_refresh) drm_zero 3 (some resources30)
        (some "1280x720".toList) 60 5 = some (ret, d) ∧
      d.mode = some (ModePtr.modes_elem 2) :=
  init_drm_requested_mode_precedence (kernel30 modes_two_refresh) drm_zero 3 resources30
    (connector30 modes_two_refresh) (some encoder20) "1280x720".toList 60 5 2
    (mk_mode "1280x720" 1280 720 60 0) (by decide) rfl rfl (by decide) rfl (by decide)
    (by
      intro j mj hj hmj
      have hc : j = 0 ∨ j = 1 := by omega
      rcases hc with rfl | rfl <;> (cases hmj; decide))

/-- Claim C8: with drm->mode null on entry, when the advertised modes contain one flagged
preferred and no mode matches the request (no mode string, an empty one, or no mode with the
requested name and refresh), init_drm returns with drm->mode pointing at the first mode
flagged preferred, whatever the areas. -/
theorem init_drm_preferred_mode (K : Kernel) (d0 : drm) (fd : Int)
    (resources : drmModeRes) (connector : drmModeConnector) (e : Option drmModeEncoder)
    (mode_str : Option (List Char)) (vrefresh count i : Nat) (m : drmModeModeInfo)
    (hfd : 0 ≤ fd) (hnull : d0.mode = none)
    (hconn : find_connector K resources.connectors = some (some connector))
    (henc : find_encoder K connector resources.encoders = some e)
    (hreq : ∀ s, mode_str = some s → s ≠ [] → ∀ m2 ∈ connector.modes,
      ¬ (m2.name = s ∧ (vrefresh ≠ 0 → m2.vrefresh = vrefresh)))
    (hi : connector.modes[i]? = some m)
    (hpref : m.type &&& DRM_MODE_TYPE_PREFERRED ≠ 0)
    (hfirst : ∀ j mj, j < i → connector.modes[j]? = some mj →
      mj.type &&& DRM_MODE_TYPE_PREFERRED = 0) :
    ∃ ret d, init_drm K d0 fd (some resources) mode_str vrefresh count = some (ret, d) ∧
      d.mode = some (ModePtr.modes_elem i) := by
  obtain ⟨ret, d, hrun, hmode⟩ :=
    init_drm_mode d0 mode_str vrefresh count hfd hconn henc
  refine ⟨ret, d, hrun, ?_⟩
  rw [hmode, select_mode_default d0.mode hreq, hnull]
  have hfind := find_default_mode_preferred connector.modes 0 i 0 none m hi hpref hfirst
  rw [Nat.zero_add] at hfind
  simp only [select_mode, hfind, Option.map_some']

/-- Witness for C8: scenario A (1920x1080 preferred, then 1280x720, no mode string) yields
index 0, and a 640x480 mode flagged preferred behind two larger modes is chosen as well. -/
theorem init_drm_preferred_mode_witness :
    (∃ ret d, init_drm (kernel30 modes_preferred_first) drm_zero 3 (some resources30)
        none 0 5 = some (ret, d) ∧ d.mode = some (ModePtr.modes_elem 0)) ∧
    (∃ ret d, init_drm (kernel30 modes_preferred_small) drm_zero 3 (some resources30)
        none 0 5 = some (ret, d) ∧ d.mode = some (ModePtr.modes_elem 2)) :=
  ⟨init_drm_preferred_mode (kernel30 modes_preferred_first) drm_zero 3 resources30
      (connector30 modes_preferred_first) (some encoder20) none 0 5 0
      (mk_mode "1920x1080" 1920 1080 60 8) (by decide) rfl rfl rfl
      (by intro s hs; cases hs) rfl (by decide) (by intro j mj hj; omega),
   init_drm_preferred_mode (kernel30 modes_preferred_small) drm_zero 3 resources30
      (connector30 modes_preferred_small) (some encoder20) none 0 5 2
      (mk_mode "640x480" 640 480 60 8) (by decide) rfl rfl rfl
      (by intro s hs; cases hs) rfl (by decide)
      (by
        intro j mj hj hmj
        have hc : j = 0 ∨ j = 1 := by omega
        rcases hc with rfl | rfl <;> (cases hmj; decide))⟩

/-- Counterexample to C9: a non-empty mode list without a preferred mode and without a
request in which init_drm selects no mode at all (the only mode has area zero, init_drm
returns -1 with drm->mode null), and one in which it selects a mode that is not of maximal
hdisplay*vdisplay (the 65535x65535 product does not fit the int it is computed in). -/
theorem init_drm_largest_mode_fails_on_degenerate_areas :
    (modes_zero_area ≠ [] ∧
      (∀ m ∈ modes_zero_area, m.type &&& DRM_MODE_TYPE_PREFERRED = 0) ∧
      init_drm (kernel30 modes_zero_area) drm_zero 3 (some resources30) none 0 5 =
        some (-1, { drm_zero with fd := 3 })) ∧
    ((∀ m ∈ modes_overflow, m.type &&& DRM_MODE_TYPE_PREFERRED = 0) ∧
      (init_drm (kernel30 modes_overflow) drm_zero 3 (some resources30) none 0 5).map
        (fun r => r.2.mode) = some (some (ModePtr.modes_elem 1)) ∧
      (∃ m ∈ modes_overflow, 1 * 1 < m.hdisplay * m.vdisplay)) := by
  decide

/-- Claim C9 as amended: with drm->mode null on entry, no mode flagged preferred, no mode
matching the request, every hdisplay*vdisplay below 2^31 and at least one of them positive,
init_drm returns with drm->mode pointing at the first mode in advertised order whose
hdisplay*vdisplay is maximal over the list. -/
theorem init_drm_largest_mode (K : Kernel) (d0 : drm) (fd : Int)
    (resources : drmModeRes) (connector : drmModeConnector) (e : Option drmModeEncoder)
    (mode_str : Option (List Char)) (vrefresh count i : Nat) (m : drmModeModeInfo)
    (hfd : 0 ≤ fd) (hnull : d0.mode = none)
    (hconn : find_connector K resources.connectors = some (some connector))
    (henc : find_encoder K connector resources.encoders = some e)
    (hreq : ∀ s, mode_str = some s → s ≠ [] → ∀ m2 ∈ connector.modes,
      ¬ (m2.name = s ∧ (vrefresh ≠ 0 → m2.vrefresh = vrefresh)))
    (hnp : ∀ m2 ∈ connector.modes, m2.type &&& DRM_MODE_TYPE_PREFERRED = 0)
    (hbound : ∀ m2 ∈ connector.modes, m2.hdisplay * m2.vdisplay < 2147483648)
    (hi : connector.modes[i]? = some m)
    (hpos : 0 < m.hdisplay * m.vdisplay)
    (hmax : ∀ m2 ∈ connector.modes, m2.hdisplay * m2.vdisplay ≤ m.hdisplay * m.vdisplay)
    (hfirst : ∀ j mj, j < i → connector.modes[j]? = some mj →
      mj.hdisplay * mj.vdisplay < m.hdisplay * m.vdisplay) :
    ∃ ret d, init_drm K d0 fd (some resources) mode_str vrefresh count = some (ret, d) ∧
      d.mode = some (ModePtr.modes_elem i) := by
  obtain ⟨ret, d, hrun, hmode⟩ :=
    init_drm_mode d0 mode_str vrefresh count hfd hconn henc
  refine ⟨ret, d, hrun, ?_⟩
  rw [hmode, select_mode_default d0.mode hreq, hnull]
  have hmem : m ∈ connector.modes := List.getElem?_mem hi
  have harea : ∀ m2 ∈ connector.modes,
      current_area m2 = ((m2.hdisplay * m2.vdisplay : Nat) : Int) :=
    fun m2 h2 => current_area_of_lt m2 (hbound m2 h2)
  have hfind := find_default_mode_largest connector.modes 0 i 0 none m hnp hi
    (by rw [harea m hmem]; exact_mod_cast hpos)
    (by
      intro m2 h2
      rw [harea m2 h2, harea m hmem]
      exact_mod_cast hmax m2 h2)
    (by
      intro j mj hj hmj
      rw [harea mj (List.getElem?_mem hmj), harea m hmem]
      exact_mod_cast hfirst j mj hj hmj)
  rw [Nat.zero_add] at hfind
  simp only [select_mode, hfind, Option.map_some']

/-- Witness for C9: areas 100, 100, 200, 200 without a preferred mode; index 2, the first
mode of area 200, is chosen. -/
theorem init_drm_largest_mode_witness :
    ∃ ret d, init_drm (kernel30 modes_area_tie) drm_zero 3 (some resources30)
        none 0 5 = some (ret, d) ∧ d.mode = some (ModePtr.modes_elem 2) :=
  init_drm_largest_mode (kernel30 modes_area_tie) drm_zero 3 resources30
    (connector30 modes_area_tie) (some encoder20) none 0 5 2
    (mk_mode "20x10" 20 10 60 0) (by decide) rfl rfl rfl
    (by intro s hs; cases hs) (by decide) (by decide) rfl (by decide) (by decide)
    (by
      intro j mj hj hmj
      have hc : j = 0 ∨ j = 1 := by omega
      rcases hc with rfl | rfl <;> (cases hmj; decide))

/-- Counterexample to C10: "1280x720" at 50 Hz is requested, a 1280x720 mode exists at 60 Hz
only, and init_drm selects the preferred 1920x1080 mode at index 0, whose name is not the
requested one. -/
theorem init_drm_name_only_match_not_taken :
    (∃ m ∈ modes_preferred_first, m.name = "1280x720".toList) ∧
    (∀ m ∈ modes_preferred_first, m.name = "1280x720".toList → m.vrefresh ≠ 50) ∧
    (init_drm (kernel30 modes_preferred_first) drm_zero 3 (some resources30)
        (some "1280x720".toList) 50 5).map (fun r => r.2.mode) =
      some (some (ModePtr.modes_elem 0)) ∧
    (modes_preferred_first[0]?).map (fun m => m.name) = some "1920x1080".toList := by
  decide

/-- Claim C10 as amended: when a mode name and a non-zero refresh are both requested and no
advertised mode of the chosen connector has both that name and that refresh (modes that
have the name alone do not count), init_drm behaves exactly as when no mode is requested:
the selection falls through to the preferred mode or else the largest one. -/
theorem init_drm_refresh_mismatch_uses_default (K : Kernel) (d0 : drm) (fd : Int)
    (resources : Option drmModeRes) (mode_str : List Char) (vrefresh count : Nat)
    (hv : vrefresh ≠ 0)
    (hno : ∀ res c, resources = some res →
      find_connector K res.connectors = some (some c) →
      ∀ m ∈ c.modes, ¬ (m.name = mode_str ∧ m.vrefresh = vrefresh)) :
    init_drm K d0 fd resources (some mode_str) vrefresh count =
      init_drm K d0 fd resources none 0 count := by
  apply init_drm_congr_mode
  intro res c hres hc
  apply select_mode_default
  intro s hs _ m hm hreq
  cases hs
  exact hno res c hres hc m hm ⟨hreq.1, hreq.2 hv⟩

/-- Witness for C10: with 1920x1080 (preferred) and 1280x720 at 60 Hz advertised, the request
"1280x720" at 50 Hz gives the same result as no request. -/
theorem init_drm_refresh_mismatch_uses_default_witness :
    init_drm (kernel30 modes_preferred_first) drm_zero 3 (some resources30)
        (some "1280x720".toList) 50 5 =
      init_drm (kernel30 modes_preferred_first) drm_zero 3 (some resources30) none 0 5 :=
  init_drm_refresh_mismatch_uses_default (kernel30 modes_preferred_first) drm_zero 3
    (some resources30) "1280x720".toList 50 5 (by decide)
    (by
      intro res c hres hc
      cases hres
      have hc2 : some (some (connector30 modes_preferred_first)) = some (some c) := hc
      cases hc2
      decide)

/-! ### init_drm: connector, encoder and controller selection -/

/-- The connector loop stops at the first connected connector. -/
theorem find_connector_first (K : Kernel) :
    ∀ (ids : List Nat) (k id : Nat) (c : drmModeConnector),
      ids[k]? = some id → K.drmModeGetConnector id = some c →
      c.connection = DRM_MODE_CONNECTED →
      (∀ j idj, j < k → ids[j]? = some idj →
        ∃ cj, K.drmModeGetConnector idj = some cj ∧ cj.connection ≠ DRM_MODE_CONNECTED) →
      find_connector K ids = some (some c) := by
  intro ids
  induction ids with
  | nil => intro k id c hk; simp at hk
  | cons id0 rest ih =>
    intro k id c hk hget hcon hfirst
    cases k with
    | zero =>
      simp only [List.getElem?_cons_zero, Option.some.injEq] at hk
      subst hk
      simp only [find_connector, hget, hcon, if_true]
    | succ k2 =>
      obtain ⟨c0, hc0, hn0⟩ := hfirst 0 id0 (Nat.succ_pos _) (by simp)
      simp only [find_connector, hc0, if_neg hn0]
      exact ih k2 id c (by simpa using hk) hget hcon
        (fun j idj hj hidj => hfirst (j + 1) idj (by omega) (by simpa using hidj))

/-- The connector loop ends with NULL when every connector is there and none is connected. -/
theorem find_connector_none (K : Kernel) :
    ∀ (ids : List Nat),
      (∀ id ∈ ids, ∃ c, K.drmModeGetConnector id = some c ∧
        c.connection ≠ DRM_MODE_CONNECTED) →
      find_connector K ids = some none := by
  intro ids
  induction ids with
  | nil => intro _; rfl
  | cons id0 rest ih =>
    intro h
    obtain ⟨c0, hc0, hn0⟩ := h id0 (List.mem_cons_self _ _)
    simp only [find_connector, hc0, if_neg hn0]
    exact ih (fun id hid => h id (List.mem_cons_of_mem _ hid))

/-- The encoder loop stops at the first encoder attached to the connector. -/
theorem find_encoder_first (K : Kernel) (connector : drmModeConnector) :
    ∀ (ids : List Nat) (k id : Nat) (e : drmModeEncoder),
      ids[k]? = some id → K.drmModeGetEncoder id = some e →
      e.encoder_id = connector.encoder_id →
      (∀ j idj, j < k → ids[j]? = some idj →
        ∃ ej, K.drmModeGetEncoder idj = some ej ∧ ej.encoder_id ≠ connector.encoder_id) →
      find_encoder K connector ids = some (some e) := by
  intro ids
  induction ids with
  | nil => intro k id e hk; simp at hk
  | cons id0 rest ih =>
    intro k id e hk hget hatt hfirst
    cases k with
    | zero =>
      simp only [List.getElem?_cons_zero, Option.some.injEq] at hk
      subst hk
      simp only [find_encoder, hget, hatt, if_true]
    | succ k2 =>
      obtain ⟨e0, he0, hn0⟩ := hfirst 0 id0 (Nat.succ_pos _) (by simp)
      simp only [find_encoder, he0, if_neg hn0]
      exact ih k2 id e (by simpa using hk) hget hatt
        (fun j idj hj hidj => hfirst (j + 1) idj (by omega) (by simpa using hidj))

/-- The run of init_drm once an attached encoder is found. -/
theorem init_drm_of_attached {K : Kernel} {fd : Int} {resources : drmModeRes}
    {connector : drmModeConnector} {mp : ModePtr} {e : drmModeEncoder}
    (d0 : drm) (mode_str : Option (List Char)) (vrefresh count : Nat)
    (hfd : 0 ≤ fd) (hconn : find_connector K resources.connectors = some (some connector))
    (hsel : select_mode connector mode_str vrefresh d0.mode = some mp)
    (henc : find_encoder K connector resources.encoders = some (some e)) :
    init_drm K d0 fd (some resources) mode_str vrefresh count =
      some (0, drm_bound d0 fd resources connector mp e.crtc_id count) := by
  have hfd2 : ¬ fd < 0 := by omega
  simp only [init_drm, hfd2, if_false, hconn, hsel, henc, drm_bound]
  cases find_crtc_index e.crtc_id resources.crtcs 0 <;> rfl

/-- What a return value 0 of init_drm tells about the run. -/
theorem init_drm_success {K : Kernel} {d0 d : drm} {fd : Int} {resources : drmModeRes}
    {mode_str : Option (List Char)} {vrefresh count : Nat}
    (h : init_drm K d0 fd (some resources) mode_str vrefresh count = some (0, d)) :
    ∃ connector mp crtc_id,
      find_connector K resources.connectors = some (some connector) ∧
      select_mode connector mode_str vrefresh d0.mode = some mp ∧
      d = drm_bound d0 fd resources connector mp crtc_id count := by
  unfold init_drm at h
  by_cases hfd : fd < 0
  · simp [hfd] at h
  · simp only [hfd, if_false] at h
    cases hc : find_connector K resources.connectors with
    | none => rw [hc] at h; cases h
    | some oc =>
      cases oc with
      | none => rw [hc] at h; simp at h
      | some connector =>
        rw [hc] at h
        simp only at h
        cases hsel : select_mode connector mode_str vrefresh d0.mode with
        | none => rw [hsel] at h; simp at h
        | some mp =>
          rw [hsel] at h
          simp only at h
          cases henc : find_encoder K connector resources.encoders with
          | none => rw [henc] at h; cases h
          | some enc =>
            rw [henc] at h
            simp only at h
            split at h
            · simp at h
            · rename_i crtc_id hcr
              simp only [Option.some.injEq, Prod.mk.injEq, true_and] at h
              refine ⟨connector, mp, crtc_id, rfl, hsel, ?_⟩
              rw [← h]
              unfold drm_bound
              cases find_crtc_index crtc_id resources.crtcs 0 <;> rfl

/-- The last loop of init_drm finds the first position of an id that is in the list. -/
theorem find_crtc_index_of_mem (crtc_id : Nat) :
    ∀ (crtcs : List Nat) (k : Nat), crtc_id ∈ crtcs →
      ∃ i, find_crtc_index crtc_id crtcs k = some (k + i) ∧ i < crtcs.length ∧
        crtcs[i]? = some crtc_id ∧ ∀ j, j < i → crtcs[j]? ≠ some crtc_id := by
  intro crtcs
  induction crtcs with
  | nil => intro k h; simp at h
  | cons c rest ih =>
    intro k h
    by_cases hc : c = crtc_id
    · refine ⟨0, ?_, by simp, by simp [hc], fun j hj => by omega⟩
      simp only [find_crtc_index, hc, if_true, Nat.add_zero]
    · have hmem : crtc_id ∈ rest := by
        rcases List.mem_cons.mp h with h1 | h1
        · exact absurd h1.symm hc
        · exact h1
      obtain ⟨i, hi, hlt, hget, hfirst⟩ := ih (k + 1) hmem
      refine ⟨i + 1, ?_, by simp only [List.length_cons]; omega, by simpa using hget, ?_⟩
      · simp only [find_crtc_index, if_neg hc, hi]
        congr 1
        omega
      · intro j hj
        cases j with
        | zero => simp [hc]
        | succ j2 => simpa using hfirst j2 (by omega)

/-- Claim C11, evaluated on the code: with no encoder attached to the connector and no
candidate encoder able to drive a controller (no candidates at all, or the single candidate
21 whose possible_crtcs is 0), find_crtc_for_connector yields 4294967295, the check against
0 in init_drm does not fire, and init_drm returns 0 with crtc_id 4294967295. -/
theorem init_drm_no_controller_not_reported :
    find_crtc_for_connector (kernel_unattached []) resources_unattached
      (connector_unattached []) = 4294967295 ∧
    init_drm (kernel_unattached []) drm_zero 3 (some resources_unattached) none 0 5 =
      some (0, { fd := 3, crtc_index := 0, mode := some (ModePtr.modes_elem 0),
                 crtc_id := 4294967295, connector_id := 31, count := 5 }) ∧
    find_crtc_for_connector (kernel_unattached [21]) resources_unattached
      (connector_unattached [21]) = 4294967295 ∧
    init_drm (kernel_unattached [21]) drm_zero 3 (some resources_unattached) none 0 5 =
      some (0, { fd := 3, crtc_index := 0, mode := some (ModePtr.modes_elem 0),
                 crtc_id := 4294967295, connector_id := 31, count := 5 }) := by
  decide

/-- Claim C12, evaluated on the code: the candidates are encoder 21 (no usable controller)
and then encoder 22 (can drive crtcs[0] = 10). For encoder 21 find_crtc_for_encoder
returns 4294967295, which find_crtc_for_connector takes for a controller id: encoder 21 is
not skipped, encoder 22 is never tried, and init_drm returns 0 with crtc_id 4294967295
instead of 10. -/
theorem find_crtc_for_connector_does_not_skip :
    find_crtc_for_encoder resources_unattached encoder21 = 4294967295 ∧
    find_crtc_for_encoder resources_unattached encoder22 = 10 ∧
    find_crtc_for_connector (kernel_unattached [21, 22]) resources_unattached
      (connector_unattached [21, 22]) = 4294967295 ∧
    (init_drm (kernel_unattached [21, 22]) drm_zero 3 (some resources_unattached) none 0 5).map
      (fun r => (r.1, r.2.crtc_id)) = some (0, 4294967295) := by
  decide

/-- Counterexample to C13: connector 30 is attached to an encoder that is bound to no CRTC
(crtc_id 0). init_drm returns 0 with crtc_id 0, which is not in the controller list [10];
the last loop finds nothing and crtc_index keeps its entry value 0, where the list holds
10. -/
theorem init_drm_crtc_index_left_stale :
    init_drm kernel_unbound drm_zero 3 (some resources30) none 0 5 =
      some (0, { fd := 3, crtc_index := 0, mode := some (ModePtr.modes_elem 0),
                 crtc_id := 0, connector_id := 30, count := 5 }) ∧
    resources30.crtcs[0]? = some 10 := by
  decide

/-- Claim C13 as amended: on every successful init_drm whose chosen crtc_id occurs in the
controller list, crtc_index is the least index at which the list holds crtc_id; in
particular 0 <= crtc_index < count_crtcs and crtcs[crtc_index] == crtc_id. -/
theorem init_drm_crtc_index (K : Kernel) (d0 d : drm) (fd : Int) (resources : drmModeRes)
    (mode_str : Option (List Char)) (vrefresh count : Nat)
    (hrun : init_drm K d0 fd (some resources) mode_str vrefresh count = some (0, d))
    (hmem : d.crtc_id ∈ resources.crtcs) :
    ∃ i : Nat, d.crtc_index = (i : Int) ∧ i < resources.crtcs.length ∧
      resources.crtcs[i]? = some d.crtc_id ∧
      ∀ j, j < i → resources.crtcs[j]? ≠ some d.crtc_id := by
  obtain ⟨connector, mp, crtc_id, -, -, hd⟩ := init_drm_success hrun
  subst hd
  obtain ⟨i, hfind, hlt, hget, hfirst⟩ := find_crtc_index_of_mem crtc_id resources.crtcs 0 hmem
  rw [Nat.zero_add] at hfind
  refine ⟨i, ?_, hlt, hget, hfirst⟩
  simp only [drm_bound, hfind]

/-- Witness for C13: on the board with controllers [11, 10] the attached encoder is bound
to CRTC 10, and init_drm records crtc_index 1. -/
theorem init_drm_crtc_index_witness :
    init_drm kernel_board drm_zero 3 (some resources_board) none 0 5 =
      some (0, { fd := 3, crtc_index := 1, mode := some (ModePtr.modes_elem 0),
                 crtc_id := 10, connector_id := 30, count := 5 }) ∧
    ∃ i : Nat, (1 : Int) = (i : Int) ∧ i < resources_board.crtcs.length ∧
      resources_board.crtcs[i]? = some 10 ∧
      ∀ j, j < i → resources_board.crtcs[j]? ≠ some 10 :=
  ⟨by decide,
   init_drm_crtc_index kernel_board drm_zero
     { fd := 3, crtc_index := 1, mode := some (ModePtr.modes_elem 0), crtc_id := 10,
       connector_id := 30, count := 5 }
     3 resources_board none 0 5 (by decide) (by decide)⟩

/-- Claim C14: when the encoder list of the resources contains an encoder whose id is the
encoder_id of the chosen connector, init_drm (having selected a mode) returns 0 with
crtc_id set to the crtc_id of the first such encoder in list order; and the result is the
same for every kernel that answers the same connectors and the same encoder ids and bound
CRTCs, whatever the possible_crtcs masks are: the bitmask fallback plays no part. -/
theorem init_drm_attached_encoder (K : Kernel) (d0 : drm) (fd : Int) (resources : drmModeRes)
    (connector : drmModeConnector) (mode_str : Option (List Char)) (vrefresh count : Nat)
    (mp : ModePtr) (k id : Nat) (e : drmModeEncoder)
    (hfd : 0 ≤ fd) (hconn : find_connector K resources.connectors = some (some connector))
    (hsel : select_mode connector mode_str vrefresh d0.mode = some mp)
    (hk : resources.encoders[k]? = some id) (hget : K.drmModeGetEncoder id = some e)
    (hatt : e.encoder_id = connector.encoder_id)
    (hfirst : ∀ j idj, j < k → resources.encoders[j]? = some idj →
      ∃ ej, K.drmModeGetEncoder idj = some ej ∧ ej.encoder_id ≠ connector.encoder_id) :
    (∃ d, init_drm K d0 fd (some resources) mode_str vrefresh count = some (0, d) ∧
      d.crtc_id = e.crtc_id) ∧
    ∀ K2 : Kernel, K2.drmModeGetConnector = K.drmModeGetConnector →
      (∀ i, (K2.drmModeGetEncoder i).map (fun x => (x.encoder_id, x.crtc_id)) =
        (K.drmModeGetEncoder i).map (fun x => (x.encoder_id, x.crtc_id))) →
      init_drm K2 d0 fd (some resources) mode_str vrefresh count =
        init_drm K d0 fd (some resources) mode_str vrefresh count := by
  have henc := find_encoder_first K connector resources.encoders k id e hk hget hatt hfirst
  have hrun := init_drm_of_attached d0 mode_str vrefresh count hfd hconn hsel henc
  refine ⟨⟨_, hrun, rfl⟩, ?_⟩
  intro K2 hsame henc2
  have hconn2 : find_connector K2 resources.connectors = some (some connector) := by
    have hfc : ∀ ids, find_connector K2 ids = find_connector K ids := by
      intro ids
      induction ids with
      | nil => rfl
      | cons i0 rest ih => simp only [find_connector, hsame, ih]
    rw [hfc]; exact hconn
  have hlift : ∀ i x, K.drmModeGetEncoder i = some x →
      ∃ x2, K2.drmModeGetEncoder i = some x2 ∧ x2.encoder_id = x.encoder_id ∧
        x2.crtc_id = x.crtc_id := by
    intro i x hx
    have := henc2 i
    rw [hx] at this
    cases h2 : K2.drmModeGetEncoder i with
    | none => rw [h2] at this; simp at this
    | some x2 =>
      rw [h2] at this
      simp only [Option.map_some', Option.some.injEq, Prod.mk.injEq] at this
      exact ⟨x2, rfl, this.1, this.2⟩
  obtain ⟨e2, hget2, hid2, hcrtc2⟩ := hlift id e hget
  have henc2b := find_encoder_first K2 connector resources.encoders k id e2 hk hget2
    (hid2.trans hatt)
    (by
      intro j idj hj hidj
      obtain ⟨ej, hej, hne⟩ := hfirst j idj hj hidj
      obtain ⟨ej2, hej2, hidj2, -⟩ := hlift idj ej hej
      exact ⟨ej2, hej2, by rw [hidj2]; exact hne⟩)
  rw [hrun, init_drm_of_attached d0 mode_str vrefresh count hfd hconn2 hsel henc2b, hcrtc2]

/-- Witness for C14: on the board the encoder list is [22, 20], connector 30 is attached to
encoder 20, and init_drm returns 0 with the CRTC 10 bound to encoder 20. -/
theorem init_drm_attached_encoder_witness :
    ∃ d, init_drm kernel_board drm_zero 3 (some resources_board) none 0 5 = some (0, d) ∧
      d.crtc_id = encoder20.crtc_id :=
  (init_drm_attached_encoder kernel_board drm_zero 3 resources_board
    (connector30 modes_preferred_first) none 0 5 (ModePtr.modes_elem 0) 1 20 encoder20
    (by decide) (by decide) (by decide) (by decide) (by decide) (by decide)
    (by
      intro j idj hj hidj
      have hj0 : j = 0 := by omega
      subst hj0
      cases hidj
      exact ⟨encoder22, by decide, by decide⟩)).1

/-- Claim C15: init_drm binds the first connector, in the order of the resource list, whose
connection state is connected: the mode is selected among the modes of that connector,
init_drm returns 0 exactly when that selection yields a mode and a controller is found
(the attached encoder, or a non-zero result of find_crtc_for_connector), connector_id is
then the id of that connector, and otherwise init_drm returns -1 with connector_id as it
was. When every connector of the list is disconnected (also when the list is empty)
init_drm returns -1 and leaves mode, crtc_id, crtc_index and connector_id as they were. -/
theorem init_drm_first_connected_connector (K : Kernel) (d0 : drm) (fd : Int)
    (resources : drmModeRes) (mode_str : Option (List Char)) (vrefresh count : Nat)
    (hfd : 0 ≤ fd) :
    (∀ (k id : Nat) (c : drmModeConnector) (e : Option drmModeEncoder),
      resources.connectors[k]? = some id → K.drmModeGetConnector id = some c →
      c.connection = DRM_MODE_CONNECTED →
      (∀ j idj, j < k → resources.connectors[j]? = some idj →
        ∃ cj, K.drmModeGetConnector idj = some cj ∧ cj.connection ≠ DRM_MODE_CONNECTED) →
      find_encoder K c resources.encoders = some e →
      ∃ ret d, init_drm K d0 fd (some resources) mode_str vrefresh count = some (ret, d) ∧
        d.mode = select_mode c mode_str vrefresh d0.mode ∧
        (ret = 0 → d.connector_id = c.connector_id) ∧
        (ret = 0 ↔ select_mode c mode_str vrefresh d0.mode ≠ none ∧
          (e = none → find_crtc_for_connector K resources c ≠ 0)) ∧
        (ret ≠ 0 → ret = -1 ∧ d.connector_id = d0.connector_id)) ∧
    ((∀ id ∈ resources.connectors, ∃ c, K.drmModeGetConnector id = some c ∧
        c.connection ≠ DRM_MODE_CONNECTED) →
      init_drm K d0 fd (some resources) mode_str vrefresh count =
        some (-1, { d0 with fd := fd })) := by
  have hfd2 : ¬ fd < 0 := by omega
  have hneg : ¬ ((-1 : Int) = 0) := by decide
  constructor
  · intro k id c e hk hget hcon hfirst henc
    have hconn := find_connector_first K resources.connectors k id c hk hget hcon hfirst
    simp only [init_drm, hfd2, if_false, hconn, henc]
    cases hsel : select_mode c mode_str vrefresh d0.mode with
    | none =>
      refine ⟨-1, _, rfl, rfl, fun h => absurd h hneg, ?_, fun _ => ⟨rfl, rfl⟩⟩
      constructor
      · intro h; exact absurd h hneg
      · intro h; exact absurd rfl h.1
    | some mp =>
      cases e with
      | some enc =>
        refine ⟨0, _, rfl, ?_, ?_, ?_, fun h => absurd rfl h⟩
        · cases find_crtc_index enc.crtc_id resources.crtcs 0 <;> rfl
        · intro _
          cases find_crtc_index enc.crtc_id resources.crtcs 0 <;> rfl
        · constructor
          · intro _
            exact ⟨by simp, fun h => by cases h⟩
          · intro _; rfl
      | none =>
        by_cases hz : find_crtc_for_connector K resources c = 0
        · simp only [hz, if_true]
          refine ⟨-1, _, rfl, rfl, fun h => absurd h hneg, ?_, fun _ => ⟨rfl, rfl⟩⟩
          constructor
          · intro h; exact absurd h hneg
          · intro h; exact absurd rfl (h.2 trivial)
        · simp only [hz, if_false]
          refine ⟨0, _, rfl, ?_, ?_, ?_, fun h => absurd rfl h⟩
          · cases find_crtc_index (find_crtc_for_connector K resources c) resources.crtcs 0 <;>
              rfl
          · intro _
            cases find_crtc_index (find_crtc_for_connector K resources c) resources.crtcs 0 <;>
              rfl
          · constructor
            · intro _
              exact ⟨by simp, fun _ => hz⟩
            · intro _; rfl
  · intro hnone
    have hconn := find_connector_none K resources.connectors hnone
    simp only [init_drm, hfd2, if_false, hconn]

/-- Witness for C15: on the board the disconnected connector 32 is passed over, init_drm
returns 0 and the connected connector 30 is bound; with connector 32 alone init_drm
returns -1 and the struct drm keeps its entry values. -/
theorem init_drm_first_connected_connector_witness :
    (∃ d, init_drm kernel_board drm_zero 3 (some resources_board) none 0 5 = some (0, d) ∧
      d.mode = select_mode (connector30 modes_preferred_first) none 0 drm_zero.mode ∧
      d.connector_id = 30) ∧
    init_drm kernel_board drm_zero 3 (some resources_unplugged) none 0 5 =
      some (-1, { drm_zero with fd := 3 }) := by
  refine ⟨?_, (init_drm_first_connected_connector kernel_board drm_zero 3 resources_unplugged
      none 0 5 (by decide)).2
      (by
        intro id hid
        have h32 : id = 32 := by simpa [resources_unplugged] using hid
        subst h32
        exact ⟨connector32, by decide, by decide⟩)⟩
  obtain ⟨ret, d, hrun, hmode, hid, hiff, -⟩ :=
    (init_drm_first_connected_connector kernel_board drm_zero 3 resources_board none 0 5
      (by decide)).1 1 30 (connector30 modes_preferred_first) (some encoder20)
      (by decide) (by decide) (by decide)
      (by
        intro j idj hj hidj
        have hj0 : j = 0 := by omega
        subst hj0
        cases hidj
        exact ⟨connector32, by decide, by decide⟩)
      (by decide)
  have h0 : ret = 0 := hiff.2 ⟨by decide, fun h => by cases h⟩
  subst h0
  exact ⟨d, hrun, hmode, hid rfl⟩

/-! ### drm_fb_get_from_bo: creation paths -/

theorem store4_head (l : List Nat) (i : Nat) (l2 : List Nat)
    (h : store4 l i (l.headD 0) = some l2) : l2.headD 0 = l.headD 0 := by
  unfold store4 at h
  split at h
  · simp only [Option.some.injEq] at h
    subst h
    cases l with
    | nil => rfl
    | cons x t =>
      cases i with
      | zero => rfl
      | succ j => rfl
  · cases h

/-- The plane loop stays inside the arrays when it ends at index 4 or before, and it
leaves `modifiers[0]` as it was. -/
theorem plane_loop_some (b : gbm_bo) :
    ∀ (n i : Nat) (a : PlaneArrays), i + n ≤ 4 →
      ∃ a2, plane_loop b n i a = some a2 ∧ a2.modifiers.headD 0 = a.modifiers.headD 0 := by
  intro n
  induction n with
  | zero => intro i a _; exact ⟨a, rfl, rfl⟩
  | succ m ih =>
    intro i a hle
    have hi : i < 4 := by omega
    simp only [plane_loop, store4, hi, if_true]
    obtain ⟨a2, h2, hm⟩ := ih (i + 1)
      { handles := a.handles.set i (b.handle_for_plane i),
        strides := a.strides.set i (b.stride_for_plane i),
        offsets := a.offsets.set i (b.offset i),
        modifiers := a.modifiers.set i (a.modifiers.headD 0) } (by omega)
    refine ⟨a2, h2, hm.trans ?_⟩
    exact store4_head a.modifiers i _ (by simp [store4, hi])

theorem gather_planes_some (b : gbm_bo) (h : b.plane_count ≤ 4) :
    ∃ a, gather_planes b = some a ∧ a.modifiers.headD 0 = b.modifier := by
  obtain ⟨a, ha, hm⟩ := plane_loop_some b b.plane_count.toNat 0
    { handles := [0, 0, 0, 0], strides := [0, 0, 0, 0], offsets := [0, 0, 0, 0],
      modifiers := ([0, 0, 0, 0] : List Nat).set 0 b.modifier } (by omega)
  exact ⟨a, ha, hm⟩

/-- The run of drm_fb_get_from_bo without the plane accessors. -/
theorem drm_fb_get_from_bo_no_accessors {P : DrmPlatform} {w : World} {bo : Nat}
    (hu : (w.bos bo).user_data = none) (hcal : P.calloc_fails w.log = false)
    (hacc : plane_accessors P = false) :
    drm_fb_get_from_bo P w bo =
      some (finish_fb (add_fb_legacy P (fresh_fb w bo) bo w.next).2
        (add_fb_legacy P (fresh_fb w bo) bo w.next).1 bo w.next) := by
  unfold plane_accessors at hacc
  have hm1 : ¬ ((-1 : Int) = 0) := by decide
  have hstep : (calloc_fb w).1 = w.next := rfl
  have hw2 : set_heap (calloc_fb w).2 w.next (some { bo := bo, fb_id := 0 }) =
      fresh_fb w bo := rfl
  simp only [drm_fb_get_from_bo, hu, hcal, hacc, Bool.false_eq_true, if_false, ne_eq, hm1,
    not_false_eq_true, if_true, hstep, hw2, finish_fb]
  by_cases h : (add_fb_legacy P (fresh_fb w bo) bo w.next).1 = 0
  · simp only [h, not_true_eq_false, if_false]
  · simp only [h, not_false_eq_true, if_true]

/-- The run of drm_fb_get_from_bo with the plane accessors, once the planes are gathered. -/
theorem drm_fb_get_from_bo_accessors {P : DrmPlatform} {w : World} {bo : Nat}
    {a : PlaneArrays}
    (hu : (w.bos bo).user_data = none) (hcal : P.calloc_fails w.log = false)
    (hacc : plane_accessors P = true) (hg : gather_planes (w.bos bo) = some a) :
    drm_fb_get_from_bo P w bo =
      some (
        if (P.drmModeAddFB2WithModifiers (fresh_fb w bo).log
            (modifier_call (w.bos bo) a)).1 ≠ 0 then
          finish_fb
            (add_fb_legacy P
              (set_heap (emit (fresh_fb w bo) (modifier_call (w.bos bo) a)) w.next
                (some { bo := bo, fb_id := (P.drmModeAddFB2WithModifiers (fresh_fb w bo).log
                  (modifier_call (w.bos bo) a)).2 })) bo w.next).2
            (add_fb_legacy P
              (set_heap (emit (fresh_fb w bo) (modifier_call (w.bos bo) a)) w.next
                (some { bo := bo, fb_id := (P.drmModeAddFB2WithModifiers (fresh_fb w bo).log
                  (modifier_call (w.bos bo) a)).2 })) bo w.next).1 bo w.next
        else
          (some w.next,
            gbm_bo_set_user_data
              (set_heap (emit (fresh_fb w bo) (modifier_call (w.bos bo) a)) w.next
                (some { bo := bo, fb_id := (P.drmModeAddFB2WithModifiers (fresh_fb w bo).log
                  (modifier_call (w.bos bo) a)).2 })) bo w.next
              DestroyFn.drm_fb_destroy_callback)) := by
  unfold plane_accessors at hacc
  have hstage : add_fb_with_modifiers P (fresh_fb w bo) bo w.next =
      some ((P.drmModeAddFB2WithModifiers (fresh_fb w bo).log (modifier_call (w.bos bo) a)).1,
        set_heap (emit (fresh_fb w bo) (modifier_call (w.bos bo) a)) w.next
          (some { bo := bo, fb_id := (P.drmModeAddFB2WithModifiers (fresh_fb w bo).log
            (modifier_call (w.bos bo) a)).2 })) := by
    have hg2 : plane_loop ((fresh_fb w bo).bos bo) ((fresh_fb w bo).bos bo).plane_count.toNat 0
        { handles := [0, 0, 0, 0], strides := [0, 0, 0, 0], offsets := [0, 0, 0, 0],
          modifiers := ([0, 0, 0, 0] : List Nat).set 0 ((fresh_fb w bo).bos bo).modifier } =
        some a := hg
    unfold add_fb_with_modifiers
    simp only [hg2]
    rfl
  have hstep : (calloc_fb w).1 = w.next := rfl
  have hw2 : set_heap (calloc_fb w).2 w.next (some { bo := bo, fb_id := 0 }) =
      fresh_fb w bo := rfl
  simp only [drm_fb_get_from_bo, hu, hcal, hacc, Bool.false_eq_true, if_false, if_true,
    hstep, hw2, hstage, finish_fb]
  by_cases h1 : (P.drmModeAddFB2WithModifiers (fresh_fb w bo).log
      (modifier_call (w.bos bo) a)).1 = 0
  · simp only [h1, ne_eq, not_true_eq_false, if_false]
  · simp only [h1, ne_eq, not_false_eq_true, if_true]
    split <;> rfl

/-- The state handed to the creation calls differs from the entry state only in the log,
the allocator and the new heap cell. -/
theorem fresh_fb_frame (w : World) (bo : Nat) :
    (fresh_fb w bo).bos = w.bos ∧ (fresh_fb w bo).next = w.next + 1 ∧
    (fresh_fb w bo).log = w.log ++ [KmsEvent.calloc w.next] ∧
    ∀ q, q ≠ w.next → (fresh_fb w bo).heap q = w.heap q := by
  refine ⟨rfl, rfl, rfl, fun q hq => ?_⟩
  simp [fresh_fb, set_heap, calloc_fb, emit, Function.update, hq]

/-- What the legacy attempt and the end of drm_fb_get_from_bo do, from any state reached
inside the call. -/
theorem legacy_outcome_of (P : DrmPlatform) (w w3 : World) (bo : Nat)
    (hb : w3.bos = w.bos) :
    legacy_outcome P w bo w3.log
      (finish_fb (add_fb_legacy P w3 bo w.next).2 (add_fb_legacy P w3 bo w.next).1
        bo w.next).1
      (finish_fb (add_fb_legacy P w3 bo w.next).2 (add_fb_legacy P w3 bo w.next).1
        bo w.next).2 := by
  have hcall : add_fb_legacy P w3 bo w.next =
      ((P.drmModeAddFB2 w3.log (legacy_call (w.bos bo))).1,
        set_heap (emit w3 (legacy_call (w.bos bo))) w.next
          (some { bo := bo, fb_id := (P.drmModeAddFB2 w3.log (legacy_call (w.bos bo))).2 })) := by
    rw [← hb]; rfl
  rw [hcall]
  unfold legacy_outcome finish_fb
  by_cases hret : (P.drmModeAddFB2 w3.log (legacy_call (w.bos bo))).1 = 0
  · simp only [hret, ne_eq, not_true_eq_false, if_false, if_true, List.append_nil,
      true_implies]
    refine ⟨rfl, trivial, ?_, ?_, ?_⟩
    · simp [gbm_bo_set_user_data, set_heap, emit, Function.update]
    · simp [gbm_bo_set_user_data]
    · simp [gbm_bo_set_user_data]
  · simp only [hret, ne_eq, not_false_eq_true, if_true, if_false, false_implies, and_true]
    rfl

/-- A rejected legacy attempt ends the call with the cache untouched. -/
theorem create_failed_of (P : DrmPlatform) (w w3 : World) (bo : Nat)
    (hu : (w.bos bo).user_data = none)
    (hb : w3.bos = w.bos) (hn : w3.next = w.next + 1)
    (hh : ∀ q, q ≠ w.next → w3.heap q = w.heap q)
    (hret : (add_fb_legacy P w3 bo w.next).1 ≠ 0) :
    create_failed_outcome w bo
      (finish_fb (add_fb_legacy P w3 bo w.next).2 (add_fb_legacy P w3 bo w.next).1
        bo w.next).1
      (finish_fb (add_fb_legacy P w3 bo w.next).2 (add_fb_legacy P w3 bo w.next).1
        bo w.next).2 := by
  have hf : Frame w.next w3 (free_fb (add_fb_legacy P w3 bo w.next).2 w.next) :=
    (frame_add_fb_legacy P w3 bo w.next).trans (frame_free_fb _ _)
  have hfin : finish_fb (add_fb_legacy P w3 bo w.next).2 (add_fb_legacy P w3 bo w.next).1
      bo w.next = (none, free_fb (add_fb_legacy P w3 bo w.next).2 w.next) := if_pos hret
  rw [hfin]
  unfold create_failed_outcome
  refine ⟨rfl, hf.bos.trans hb, ?_, ?_, ?_, ?_, ?_, hf.next.trans hn⟩
  · rw [hf.bos, hb]; exact hu
  · rw [hf.bos, hb]
  · simp [free_fb, set_heap, Function.update]
  · intro q hq
    rw [hf.heap q hq, hh q hq]
  · simp [free_fb, set_heap, emit]

/-- With the plane accessors, the events of the call start with the allocation and the
call of drmModeAddFB2WithModifiers. -/
theorem drm_fb_get_from_bo_accessors_log (P : DrmPlatform) (w : World) (bo : Nat)
    (hu : (w.bos bo).user_data = none) (hcal : P.calloc_fails w.log = false)
    (hacc : plane_accessors P = true) (a : PlaneArrays)
    (hg : gather_planes (w.bos bo) = some a) :
    ∃ r w2 rest, drm_fb_get_from_bo P w bo = some (r, w2) ∧
      w2.log = w.log ++ [KmsEvent.calloc w.next] ++ [modifier_call (w.bos bo) a] ++ rest := by
  have hlog : (fresh_fb w bo).log = w.log ++ [KmsEvent.calloc w.next] := rfl
  rw [drm_fb_get_from_bo_accessors hu hcal hacc hg, hlog]
  by_cases hrej : (P.drmModeAddFB2WithModifiers (w.log ++ [KmsEvent.calloc w.next])
      (modifier_call (w.bos bo) a)).1 ≠ 0
  · rw [if_pos hrej]
    have h1 := (legacy_outcome_of P w
      (set_heap (emit (fresh_fb w bo) (modifier_call (w.bos bo) a)) w.next
        (some { bo := bo, fb_id := (P.drmModeAddFB2WithModifiers
          (w.log ++ [KmsEvent.calloc w.next]) (modifier_call (w.bos bo) a)).2 })) bo rfl).1
    have hW3 : (set_heap (emit (fresh_fb w bo) (modifier_call (w.bos bo) a)) w.next
        (some { bo := bo, fb_id := (P.drmModeAddFB2WithModifiers
          (w.log ++ [KmsEvent.calloc w.next]) (modifier_call (w.bos bo) a)).2 })).log =
        w.log ++ [KmsEvent.calloc w.next] ++ [modifier_call (w.bos bo) a] := rfl
    rw [hW3] at h1
    rcases hfin : finish_fb
      (add_fb_legacy P
        (set_heap (emit (fresh_fb w bo) (modifier_call (w.bos bo) a)) w.next
          (some { bo := bo, fb_id := (P.drmModeAddFB2WithModifiers
            (w.log ++ [KmsEvent.calloc w.next]) (modifier_call (w.bos bo) a)).2 })) bo w.next).2
      (add_fb_legacy P
        (set_heap (emit (fresh_fb w bo) (modifier_call (w.bos bo) a)) w.next
          (some { bo := bo, fb_id := (P.drmModeAddFB2WithModifiers
            (w.log ++ [KmsEvent.calloc w.next]) (modifier_call (w.bos bo) a)).2 })) bo w.next).1
      bo w.next with ⟨r, w2⟩
    rw [hfin] at h1
    exact ⟨r, w2,
      [legacy_call (w.bos bo)] ++
        (if (P.drmModeAddFB2
            (w.log ++ [KmsEvent.calloc w.next] ++ [modifier_call (w.bos bo) a])
            (legacy_call (w.bos bo))).1 = 0 then [] else [KmsEvent.free w.next]),
      rfl, h1.trans (by simp only [List.append_assoc])⟩
  · rw [if_neg hrej]
    exact ⟨_, _, [], rfl, by simp only [List.append_nil]; rfl⟩

/-- Claim C16: in a call of drm_fb_get_from_bo that finds no cached framebuffer, the legacy
creation drmModeAddFB2 is attempted when the plane accessors are unavailable and when
drmModeAddFB2WithModifiers was rejected, whatever the plane count, and it is not
attempted when drmModeAddFB2WithModifiers was accepted. The legacy call gets handles
[handle, 0, 0, 0], strides [stride, 0, 0, 0], offsets [0, 0, 0, 0] and flags 0 (see
`legacy_call`), and when it succeeds the returned drm_fb carries the fb_id it wrote and is
attached to the same buffer object (see `legacy_outcome`). -/
theorem drm_fb_get_from_bo_legacy_fallback (P : DrmPlatform) (w : World) (bo : Nat)
    (hu : (w.bos bo).user_data = none) (hcal : P.calloc_fails w.log = false) :
    (plane_accessors P = false →
      ∃ r w2, drm_fb_get_from_bo P w bo = some (r, w2) ∧
        legacy_outcome P w bo (w.log ++ [KmsEvent.calloc w.next]) r w2) ∧
    (plane_accessors P = true → ∀ a, gather_planes (w.bos bo) = some a →
      ((P.drmModeAddFB2WithModifiers (w.log ++ [KmsEvent.calloc w.next])
          (modifier_call (w.bos bo) a)).1 ≠ 0 →
        ∃ r w2, drm_fb_get_from_bo P w bo = some (r, w2) ∧
          legacy_outcome P w bo
            (w.log ++ [KmsEvent.calloc w.next] ++ [modifier_call (w.bos bo) a]) r w2) ∧
      ((P.drmModeAddFB2WithModifiers (w.log ++ [KmsEvent.calloc w.next])
          (modifier_call (w.bos bo) a)).1 = 0 →
        ∃ w2, drm_fb_get_from_bo P w bo = some (some w.next, w2) ∧
          w2.log = w.log ++ [KmsEvent.calloc w.next] ++ [modifier_call (w.bos bo) a])) ∧
    legacy_call (w.bos bo) =
      KmsEvent.AddFB2 (w.bos bo).device_fd (w.bos bo).width (w.bos bo).height
        (w.bos bo).format [(w.bos bo).handle, 0, 0, 0] [(w.bos bo).stride, 0, 0, 0]
        [0, 0, 0, 0] 0 := by
  refine ⟨?_, ?_, rfl⟩
  · intro hacc
    rw [drm_fb_get_from_bo_no_accessors hu hcal hacc]
    exact ⟨_, _, rfl, legacy_outcome_of P w (fresh_fb w bo) bo rfl⟩
  · intro hacc a hg
    have hlog : (fresh_fb w bo).log = w.log ++ [KmsEvent.calloc w.next] := rfl
    rw [drm_fb_get_from_bo_accessors hu hcal hacc hg, hlog]
    constructor
    · intro hrej
      rw [if_pos hrej]
      exact ⟨_, _, rfl, legacy_outcome_of P w _ bo rfl⟩
    · intro hok
      rw [if_neg (by rw [hok]; simp)]
      exact ⟨_, rfl, rfl⟩

/-- Witness for C16: without the plane accessors the two-plane buffer object 7 gets its
framebuffer from the legacy call alone, and a kernel that rejects the modifier-aware call
for a linear single-plane buffer is asked again through the legacy call. -/
theorem drm_fb_get_from_bo_legacy_fallback_witness :
    (∃ r w2, drm_fb_get_from_bo platform_no_accessors world_tiled 7 = some (r, w2) ∧
      legacy_outcome platform_no_accessors world_tiled 7 ([] ++ [KmsEvent.calloc 1]) r w2) ∧
    (∃ r w2, drm_fb_get_from_bo platform_legacy_only world0 7 = some (r, w2) ∧
      legacy_outcome platform_legacy_only world0 7
        ([] ++ [KmsEvent.calloc 1] ++
          [KmsEvent.AddFB2WithModifiers 3 640 480 875713112 [11, 0, 0, 0] [2560, 0, 0, 0]
            [0, 0, 0, 0] [0, 0, 0, 0] 0]) r w2) :=
  ⟨(drm_fb_get_from_bo_legacy_fallback platform_no_accessors world_tiled 7 rfl rfl).1 rfl,
   ((drm_fb_get_from_bo_legacy_fallback platform_legacy_only world0 7 rfl rfl).2.1 rfl
      planes_linear rfl).1 (by decide)⟩

/-- Claim C17: when the modifier-aware creation is attempted (plane accessors present, at
most four planes), the call of drmModeAddFB2WithModifiers is the first event after the
allocation and its flags argument is DRM_MODE_FB_MODIFIERS exactly when the modifier of
the buffer is neither 0 (linear) nor DRM_FORMAT_MOD_INVALID, and 0 otherwise. -/
theorem drm_fb_get_from_bo_modifier_flag (P : DrmPlatform) (w : World) (bo : Nat)
    (hu : (w.bos bo).user_data = none) (hcal : P.calloc_fails w.log = false)
    (hacc : plane_accessors P = true) (hplanes : (w.bos bo).plane_count ≤ 4) :
    ∃ a r w2, gather_planes (w.bos bo) = some a ∧
      drm_fb_get_from_bo P w bo = some (r, w2) ∧
      (w2.log.drop (w.log.length + 1)).head? =
        some (KmsEvent.AddFB2WithModifiers (w.bos bo).device_fd (w.bos bo).width
          (w.bos bo).height (w.bos bo).format a.handles a.strides a.offsets a.modifiers
          (if (w.bos bo).modifier ≠ 0 ∧ (w.bos bo).modifier ≠ DRM_FORMAT_MOD_INVALID then
            DRM_MODE_FB_MODIFIERS else 0)) := by
  obtain ⟨a, hg, hm⟩ := gather_planes_some (w.bos bo) hplanes
  have hcall : modifier_call (w.bos bo) a =
      KmsEvent.AddFB2WithModifiers (w.bos bo).device_fd (w.bos bo).width
        (w.bos bo).height (w.bos bo).format a.handles a.strides a.offsets a.modifiers
        (if (w.bos bo).modifier ≠ 0 ∧ (w.bos bo).modifier ≠ DRM_FORMAT_MOD_INVALID then
          DRM_MODE_FB_MODIFIERS else 0) := by
    unfold modifier_call modifier_flags
    rw [hm]
  have hdrop : ∀ (l : List KmsEvent) (e : KmsEvent) (rest : List KmsEvent),
      ((l ++ [KmsEvent.calloc w.next] ++ [e] ++ rest).drop (l.length + 1)).head? = some e := by
    intro l e rest
    have : l ++ [KmsEvent.calloc w.next] ++ [e] ++ rest =
        (l ++ [KmsEvent.calloc w.next]) ++ (e :: rest) := by simp
    rw [this, List.drop_left' (by simp)]
    rfl
  obtain ⟨r, w2, rest, hrun, hlog⟩ := drm_fb_get_from_bo_accessors_log P w bo hu hcal hacc a hg
  exact ⟨a, r, w2, hg, hrun, by rw [hlog, ← hcall]; exact hdrop _ _ _⟩

/-- Witness for C17: for the two-plane buffer with the non-linear modifier
72057594037927937 the kernel is asked with flags DRM_MODE_FB_MODIFIERS (2), and for the
linear buffer with flags 0. -/
theorem drm_fb_get_from_bo_modifier_flag_witness :
    (∃ r w2, drm_fb_get_from_bo platform_rejects_all world_tiled 7 = some (r, w2) ∧
      (w2.log.drop 1).head? =
        some (KmsEvent.AddFB2WithModifiers 3 640 480 842094158 [11, 12, 0, 0]
          [640, 640, 0, 0] [0, 307200, 0, 0]
          [72057594037927937, 72057594037927937, 0, 0] 2)) ∧
    (∃ r w2, drm_fb_get_from_bo platform_rejects_all world0 7 = some (r, w2) ∧
      (w2.log.drop 1).head? =
        some (KmsEvent.AddFB2WithModifiers 3 640 480 875713112 [11, 0, 0, 0]
          [2560, 0, 0, 0] [0, 0, 0, 0] [0, 0, 0, 0] 0)) := by
  constructor
  · obtain ⟨a, r, w2, hg, hrun, hlog⟩ :=
      drm_fb_get_from_bo_modifier_flag platform_rejects_all world_tiled 7 rfl rfl rfl
        (by decide)
    have ha : some a = some planes_tiled := hg.symm.trans (by decide)
    cases ha
    exact ⟨r, w2, hrun, hlog⟩
  · obtain ⟨a, r, w2, hg, hrun, hlog⟩ :=
      drm_fb_get_from_bo_modifier_flag platform_rejects_all world0 7 rfl rfl rfl (by decide)
    have ha : some a = some planes_linear := hg.symm.trans (by decide)
    cases ha
    exact ⟨r, w2, hrun, hlog⟩

/-- Claim C18: when the legacy creation is rejected, after the modifier-aware creation was
rejected or could not be attempted, drm_fb_get_from_bo returns NULL, frees the drm_fb it
allocated as its last step, and leaves every buffer object as it was: no user data and no
destructor is attached, so the buffer object is still without a cached framebuffer (see
`create_failed_outcome`). -/
theorem drm_fb_get_from_bo_create_failed (P : DrmPlatform) (w : World) (bo : Nat)
    (hu : (w.bos bo).user_data = none) (hcal : P.calloc_fails w.log = false) :
    (plane_accessors P = false →
      (P.drmModeAddFB2 (w.log ++ [KmsEvent.calloc w.next]) (legacy_call (w.bos bo))).1 ≠ 0 →
      ∃ r w2, drm_fb_get_from_bo P w bo = some (r, w2) ∧ create_failed_outcome w bo r w2) ∧
    (plane_accessors P = true → ∀ a, gather_planes (w.bos bo) = some a →
      (P.drmModeAddFB2WithModifiers (w.log ++ [KmsEvent.calloc w.next])
        (modifier_call (w.bos bo) a)).1 ≠ 0 →
      (P.drmModeAddFB2
        (w.log ++ [KmsEvent.calloc w.next] ++ [modifier_call (w.bos bo) a])
        (legacy_call (w.bos bo))).1 ≠ 0 →
      ∃ r w2, drm_fb_get_from_bo P w bo = some (r, w2) ∧ create_failed_outcome w bo r w2) := by
  obtain ⟨hfb, hfn, hfl, hfh⟩ := fresh_fb_frame w bo
  constructor
  · intro hacc hrej
    rw [drm_fb_get_from_bo_no_accessors hu hcal hacc]
    exact ⟨_, _, rfl, create_failed_of P w (fresh_fb w bo) bo hu hfb hfn hfh hrej⟩
  · intro hacc a hg hrej1 hrej2
    have hlog : (fresh_fb w bo).log = w.log ++ [KmsEvent.calloc w.next] := rfl
    rw [drm_fb_get_from_bo_accessors hu hcal hacc hg, hlog, if_pos hrej1]
    have hframe : Frame w.next (fresh_fb w bo)
        (set_heap (emit (fresh_fb w bo) (modifier_call (w.bos bo) a)) w.next
          (some { bo := bo, fb_id := (P.drmModeAddFB2WithModifiers
            (w.log ++ [KmsEvent.calloc w.next]) (modifier_call (w.bos bo) a)).2 })) :=
      (frame_emit _ _ _).trans (frame_set_heap _ _ _)
    exact ⟨_, _, rfl, create_failed_of P w _ bo hu (hframe.bos.trans hfb)
      (hframe.next.trans hfn) (fun q hq => (hframe.heap q hq).trans (hfh q hq)) hrej2⟩

/-- Witness for C18: the kernel rejects both calls for buffer object 7; NULL is returned and
buffer object 7 has no user data afterwards. -/
theorem drm_fb_get_from_bo_create_failed_witness :
    ∃ r w2, drm_fb_get_from_bo platform_rejects_all world0 7 = some (r, w2) ∧
      create_failed_outcome world0 7 r w2 :=
  (drm_fb_get_from_bo_create_failed platform_rejects_all world0 7 rfl rfl).2 rfl
    planes_linear rfl (by decide) (by decide)

/-- Claim C19: run on a cached drm_fb, the destroy callback calls drmModeRmFB, on the
device fd of the buffer object and with the cached fb_id, exactly when fb_id is not 0;
that call comes before the single `free` of the drm_fb, which is the last event; after it
the cache entry is gone and nothing else has changed. -/
theorem drm_fb_destroy_callback_order (w : World) (bo data : Nat) (fb : drm_fb)
    (hfb : w.heap data = some fb) :
    ∃ w2, drm_fb_destroy_callback w bo data = some w2 ∧
      w2.log = w.log ++
        (if fb.fb_id ≠ 0 then [KmsEvent.RmFB (w.bos bo).device_fd fb.fb_id] else []) ++
        [KmsEvent.free data] ∧
      w2.heap data = none ∧ w2.bos = w.bos ∧ ∀ q, q ≠ data → w2.heap q = w.heap q := by
  unfold drm_fb_destroy_callback
  simp only [hfb]
  by_cases hid : fb.fb_id = 0
  · simp only [hid, ne_eq, not_true_eq_false, if_false, List.append_nil]
    refine ⟨_, rfl, rfl, ?_, rfl, ?_⟩
    · simp [free_fb, set_heap, Function.update]
    · intro q hq
      simp [free_fb, set_heap, emit, Function.update, hq]
  · simp only [hid, ne_eq, not_false_eq_true, if_true]
    refine ⟨_, rfl, rfl, ?_, rfl, ?_⟩
    · simp [free_fb, set_heap, Function.update]
    · intro q hq
      simp [free_fb, set_heap, emit, Function.update, hq]

/-- Witness for C19: for the drm_fb at address 1 with fb_id 42, cached on a buffer object of
the device with fd 3, the callback logs drmModeRmFB(3, 42) and then free(1). -/
theorem drm_fb_destroy_callback_order_witness :
    ∃ w2, drm_fb_destroy_callback world_cached 7 1 = some w2 ∧
      w2.log = [] ++ [KmsEvent.RmFB 3 42] ++ [KmsEvent.free 1] ∧
      w2.heap 1 = none ∧ w2.bos = world_cached.bos ∧
      ∀ q, q ≠ 1 → w2.heap q = world_cached.heap q :=
  drm_fb_destroy_callback_order world_cached 7 1 { bo := 7, fb_id := 42 } rfl

/-! ### create_framebuffer: the attribute list -/

/-- Counterexample to C20: the plane zero of the buffer starts at offset 4096, and the
attribute list built for it holds the offset pair with the value 0. -/
theorem khr_image_attrs_ignores_plane_offset :
    bo_offset.offset 0 = 4096 ∧
    attrib_pairs (khr_image_attrs false bo_offset 9) =
      [(EGL_WIDTH, 640), (EGL_HEIGHT, 480), (EGL_LINUX_DRM_FOURCC_EXT, 875713112),
       (EGL_DMA_BUF_PLANE0_FD_EXT, 9), (EGL_DMA_BUF_PLANE0_OFFSET_EXT, 0),
       (EGL_DMA_BUF_PLANE0_PITCH_EXT, 2560)] := by
  decide

/-- Claim C20 as amended: the attribute array built by create_framebuffer has seventeen
entries; the first twelve are the six pairs width, height, fourcc format, fd, the
plane-zero offset key with the constant 0 and plane-zero pitch; when the context has modifier support and the modifier
of the buffer is not linear the entries 12 to 15 are the modifier low and high pairs and
entry 16 is EGL_NONE, otherwise entry 12 (and every later one) is EGL_NONE; read as an
attribute list it is the six pairs, followed by the two modifier pairs exactly in the
first case; and the array does not depend on the plane offsets of the buffer. -/
theorem khr_image_attrs_layout (modifiers_supported : Bool) (bo : gbm_bo) (fd : Int) :
    (khr_image_attrs modifiers_supported bo fd).length = 17 ∧
    (khr_image_attrs modifiers_supported bo fd).take 12 =
      [EGL_WIDTH, to_EGLint bo.width, EGL_HEIGHT, to_EGLint bo.height,
       EGL_LINUX_DRM_FOURCC_EXT, to_EGLint bo.format, EGL_DMA_BUF_PLANE0_FD_EXT, fd,
       EGL_DMA_BUF_PLANE0_OFFSET_EXT, 0, EGL_DMA_BUF_PLANE0_PITCH_EXT, to_EGLint bo.stride] ∧
    (khr_image_attrs modifiers_supported bo fd).drop 12 =
      (if modifiers_supported = true ∧ bo.modifier ≠ DRM_FORMAT_MOD_LINEAR then
        [EGL_DMA_BUF_PLANE0_MODIFIER_LO_EXT, to_EGLint (bo.modifier &&& 0xffffffff),
         EGL_DMA_BUF_PLANE0_MODIFIER_HI_EXT, to_EGLint (bo.modifier >>> 32), EGL_NONE]
       else [EGL_NONE, EGL_NONE, EGL_NONE, EGL_NONE, EGL_NONE]) ∧
    attrib_pairs (khr_image_attrs modifiers_supported bo fd) =
      [(EGL_WIDTH, to_EGLint bo.width), (EGL_HEIGHT, to_EGLint bo.height),
       (EGL_LINUX_DRM_FOURCC_EXT, to_EGLint bo.format), (EGL_DMA_BUF_PLANE0_FD_EXT, fd),
       (EGL_DMA_BUF_PLANE0_OFFSET_EXT, 0),
       (EGL_DMA_BUF_PLANE0_PITCH_EXT, to_EGLint bo.stride)] ++
      (if modifiers_supported = true ∧ bo.modifier ≠ DRM_FORMAT_MOD_LINEAR then
        [(EGL_DMA_BUF_PLANE0_MODIFIER_LO_EXT, to_EGLint (bo.modifier &&& 0xffffffff)),
         (EGL_DMA_BUF_PLANE0_MODIFIER_HI_EXT, to_EGLint (bo.modifier >>> 32))]
       else []) ∧
    ∀ offset : Nat → Nat,
      khr_image_attrs modifiers_supported { bo with offset := offset } fd =
        khr_image_attrs modifiers_supported bo fd := by
  have k1 : EGL_WIDTH ≠ EGL_NONE := by decide
  have k2 : EGL_HEIGHT ≠ EGL_NONE := by decide
  have k3 : EGL_LINUX_DRM_FOURCC_EXT ≠ EGL_NONE := by decide
  have k4 : EGL_DMA_BUF_PLANE0_FD_EXT ≠ EGL_NONE := by decide
  have k5 : EGL_DMA_BUF_PLANE0_OFFSET_EXT ≠ EGL_NONE := by decide
  have k6 : EGL_DMA_BUF_PLANE0_PITCH_EXT ≠ EGL_NONE := by decide
  have k7 : EGL_DMA_BUF_PLANE0_MODIFIER_LO_EXT ≠ EGL_NONE := by decide
  have k8 : EGL_DMA_BUF_PLANE0_MODIFIER_HI_EXT ≠ EGL_NONE := by decide
  cases modifiers_supported with
  | false =>
    refine ⟨?_, ?_, ?_, ?_, fun _ => rfl⟩ <;>
      simp [khr_image_attrs, attrib_pairs, k1, k2, k3, k4, k5, k6]
  | true =>
    by_cases hm : bo.modifier = DRM_FORMAT_MOD_LINEAR
    · refine ⟨?_, ?_, ?_, ?_, fun _ => rfl⟩ <;>
        simp [khr_image_attrs, attrib_pairs, hm, k1, k2, k3, k4, k5, k6]
    · refine ⟨?_, ?_, ?_, ?_, fun _ => rfl⟩ <;>
        simp [khr_image_attrs, attrib_pairs, hm, k1, k2, k3, k4, k5, k6, k7, k8]

/-! ### Modifier words of the attribute list -/

theorem wrap_int32_emod (x : Nat) : wrap_int32 x % 4294967296 = ((x % 4294967296 : Nat) : Int) := by
  unfold wrap_int32
  omega

/-- The attribute array when the modifier pairs are stored. -/
theorem khr_image_attrs_appended (bo : gbm_bo) (fd : Int)
    (hne : bo.modifier ≠ DRM_FORMAT_MOD_LINEAR) :
    khr_image_attrs true bo fd =
      [EGL_WIDTH, to_EGLint bo.width, EGL_HEIGHT, to_EGLint bo.height,
       EGL_LINUX_DRM_FOURCC_EXT, to_EGLint bo.format, EGL_DMA_BUF_PLANE0_FD_EXT, fd,
       EGL_DMA_BUF_PLANE0_OFFSET_EXT, 0, EGL_DMA_BUF_PLANE0_PITCH_EXT, to_EGLint bo.stride,
       EGL_DMA_BUF_PLANE0_MODIFIER_LO_EXT, to_EGLint (bo.modifier &&& 0xffffffff),
       EGL_DMA_BUF_PLANE0_MODIFIER_HI_EXT, to_EGLint (bo.modifier >>> 32), EGL_NONE] := by
  unfold khr_image_attrs
  rw [if_pos rfl, if_pos hne]
  rfl

/-- Claim C21: when the modifier pair is appended (modifier support negotiated, modifier m
not linear, m a 64-bit value), entry 13 of the attribute array is the low word and entry
15 the high word: as 32-bit patterns they are m mod 2^32 and m div 2^32, and the low
pattern plus 2^32 times the high pattern is m. -/
theorem khr_image_attrs_modifier_split (bo : gbm_bo) (fd : Int)
    (h64 : bo.modifier < 2 ^ 64) (hne : bo.modifier ≠ DRM_FORMAT_MOD_LINEAR) :
    ∃ lo hi : Int,
      (khr_image_attrs true bo fd)[13]? = some lo ∧
      (khr_image_attrs true bo fd)[15]? = some hi ∧
      lo % 4294967296 = ((bo.modifier % 4294967296 : Nat) : Int) ∧
      hi % 4294967296 = ((bo.modifier / 4294967296 : Nat) : Int) ∧
      lo % 4294967296 + 4294967296 * (hi % 4294967296) = (bo.modifier : Int) := by
  have hlo : bo.modifier &&& 0xffffffff = bo.modifier % 4294967296 :=
    Nat.and_pow_two_sub_one_eq_mod bo.modifier 32
  have hhi : bo.modifier >>> 32 = bo.modifier / 4294967296 :=
    Nat.shiftRight_eq_div_pow bo.modifier 32
  have hhilt : bo.modifier / 4294967296 < 4294967296 := by
    have : (2 : Nat) ^ 64 = 4294967296 * 4294967296 := by norm_num
    rw [this] at h64
    exact Nat.div_lt_of_lt_mul h64
  refine ⟨to_EGLint (bo.modifier &&& 0xffffffff), to_EGLint (bo.modifier >>> 32), ?_, ?_, ?_,
    ?_, ?_⟩
  · rw [khr_image_attrs_appended bo fd hne]
    simp only [List.getElem?_cons_succ, List.getElem?_cons_zero]
  · rw [khr_image_attrs_appended bo fd hne]
    simp only [List.getElem?_cons_succ, List.getElem?_cons_zero]
  · unfold to_EGLint
    rw [wrap_int32_emod, hlo, Nat.mod_mod]
  · unfold to_EGLint
    rw [wrap_int32_emod, hhi, Nat.mod_eq_of_lt hhilt]
  · unfold to_EGLint
    rw [wrap_int32_emod, wrap_int32_emod, hlo, hhi, Nat.mod_mod, Nat.mod_eq_of_lt hhilt]
    have := Nat.mod_add_div bo.modifier 4294967296
    exact_mod_cast this

/-- Witness for C21: the modifier 72057594037927937 (2^56 + 1) is split into the low word 1
and the high word 16777216. -/
theorem khr_image_attrs_modifier_split_witness :
    ∃ lo hi : Int,
      (khr_image_attrs true bo_tiled 9)[13]? = some lo ∧
      (khr_image_attrs true bo_tiled 9)[15]? = some hi ∧
      lo % 4294967296 = ((bo_tiled.modifier % 4294967296 : Nat) : Int) ∧
      hi % 4294967296 = ((bo_tiled.modifier / 4294967296 : Nat) : Int) ∧
      lo % 4294967296 + 4294967296 * (hi % 4294967296) = (bo_tiled.modifier : Int) :=
  khr_image_attrs_modifier_split bo_tiled 9 (by decide) (by decide)

/-! ### has_ext: termination -/

/-- With an empty name and a list that starts with a character other than a space, the
scan stays where it is through every iteration. -/
theorem has_ext_loop_empty_name (c : Char) (cs : List Char) (hc : c ≠ ' ') :
    ∀ fuel, has_ext_loop fuel (c :: cs) [] = none := by
  intro fuel
  induction fuel with
  | zero => rfl
  | succ n ih =>
    simp only [has_ext_loop, strstr, List.isPrefixOf, if_true, List.length_nil, List.drop_zero,
      if_neg hc]
    exact ih

/-- Claim C24: has_ext ends on (list, name) exactly when it is not the case that the name
is empty and the list is non-empty and starts with a character other than a space. For a
non-empty name each iteration leaves a strictly shorter rest of the list to scan, and any
number of iterations above the length of the list suffices; for an empty name and such a
list strstr returns the position it was given, the position is advanced by 0, and no
number of iterations yields a result. -/
theorem has_ext_terminates_iff (list : Option (List Char)) (name : List Char) :
    ((∃ fuel b, has_ext fuel list name = some b) ↔
      ¬ (name = [] ∧ ∃ c cs, list = some (c :: cs) ∧ c ≠ ' ')) ∧
    (name ≠ [] →
      (∀ ptr p, strstr ptr name = some p → (p.drop name.length).length < ptr.length) ∧
      ∀ fuel, (list.getD []).length < fuel → ∃ b, has_ext fuel list name = some b) ∧
    (name = [] → ∀ c cs, list = some (c :: cs) → c ≠ ' ' →
      strstr (c :: cs) name = some (c :: cs) ∧ (c :: cs).drop name.length = c :: cs ∧
      ∀ fuel, has_ext fuel list name = none) := by
  have hterm : name ≠ [] → ∀ fuel, (list.getD []).length < fuel →
      ∃ b, has_ext fuel list name = some b := by
    intro hne fuel hfuel
    cases list with
    | none => exact ⟨false, rfl⟩
    | some l =>
      cases l with
      | nil => exact ⟨false, rfl⟩
      | cons c cs => exact has_ext_loop_terminates hne fuel (c :: cs) hfuel
  have hloop : name = [] → ∀ c cs, list = some (c :: cs) → c ≠ ' ' →
      ∀ fuel, has_ext fuel list name = none := by
    intro hn c cs hl hc fuel
    subst hn
    subst hl
    exact has_ext_loop_empty_name c cs hc fuel
  refine ⟨⟨?_, ?_⟩, ?_, ?_⟩
  · rintro ⟨fuel, b, hb⟩ ⟨hn, c, cs, hl, hc⟩
    rw [hloop hn c cs hl hc fuel] at hb
    cases hb
  · intro hnot
    by_cases hn : name = []
    · subst hn
      cases list with
      | none => exact ⟨0, false, rfl⟩
      | some l =>
        cases l with
        | nil => exact ⟨0, false, rfl⟩
        | cons c cs =>
          have hc : c = ' ' := by
            by_contra hc
            exact hnot ⟨rfl, c, cs, rfl, hc⟩
          subst hc
          exact ⟨1, true, by simp [has_ext, has_ext_loop, strstr, List.isPrefixOf]⟩
    · obtain ⟨b, hb⟩ := hterm hn ((list.getD []).length + 1) (Nat.lt_succ_self _)
      exact ⟨_, b, hb⟩
  · intro hne
    refine ⟨?_, hterm hne⟩
    intro ptr p hs
    obtain ⟨a, ha, ⟨r, hr⟩, -⟩ := strstr_some hs
    rw [drop_of_append_eq hr, ha, ← hr]
    have h2 : 0 < name.length := List.length_pos.mpr hne
    simp only [List.length_append]
    omega
  · intro hn c cs hl hc
    refine ⟨?_, ?_, hloop hn c cs hl hc⟩
    · subst hn; simp [strstr, List.isPrefixOf]
    · subst hn; rfl

/-- Witness for C24: the name "foo" against "foobar foo" ends within 11 iterations, and the
empty name against "x" yields nothing after 1000 iterations. -/
theorem has_ext_terminates_iff_witness :
    (∃ b, has_ext 11 (some "foobar foo".toList) "foo".toList = some b) ∧
    has_ext 1000 (some "x".toList) [] = none :=
  ⟨((has_ext_terminates_iff (some "foobar foo".toList) "foo".toList).2.1 (by decide)).2 11
      (by decide),
   ((has_ext_terminates_iff (some "x".toList) []).2.2 rfl 'x' [] rfl (by decide)).2.2 1000⟩

/-! ### init_bo: the fallback call -/

/-- Claim C25: the calls issued by init_bo are those of the modifier-aware attempt followed
by the call of gbm_bo_create exactly when that attempt produced no buffer and the
requested modifier is linear; in that case init_bo returns what gbm_bo_create returned
(NULL included); when the modifier-aware call returns a buffer, init_bo returns that
buffer and issues no further call; and the attempt produces no buffer exactly when
gbm_bo_create_with_modifiers is absent or returns NULL. -/
theorem init_bo_fallback_call (P : GbmPlatform) (g : gbm) (modifier : Nat)
    (calls : List GbmCall) :
    (init_bo P g modifier calls).2 =
      (modifier_aware_bo P g modifier calls).2 ++
        (if (modifier_aware_bo P g modifier calls).1 = none ∧
            modifier = DRM_FORMAT_MOD_LINEAR then [bo_create_call g] else []) ∧
    ((modifier_aware_bo P g modifier calls).1 = none → modifier = DRM_FORMAT_MOD_LINEAR →
      (init_bo P g modifier calls).1.toOption =
        P.gbm_bo_create (modifier_aware_bo P g modifier calls).2 (bo_create_call g)) ∧
    (∀ bo, (modifier_aware_bo P g modifier calls).1 = some bo →
      init_bo P g modifier calls =
        (Except.ok bo, (modifier_aware_bo P g modifier calls).2)) ∧
    ((modifier_aware_bo P g modifier calls).1 = none ↔
      (P.gbm_bo_create_with_modifiers = none ∨
        ∃ f, P.gbm_bo_create_with_modifiers = some f ∧
          f calls (GbmCall.bo_create_with_modifiers g.dev (to_u32 g.width) (to_u32 g.height)
            g.format [modifier] 1) = none)) := by
  refine ⟨?_, ?_, ?_, ?_⟩
  · unfold init_bo
    rcases hma : modifier_aware_bo P g modifier calls with ⟨bo, calls1⟩
    cases bo with
    | some b => simp
    | none =>
      by_cases hm : modifier = DRM_FORMAT_MOD_LINEAR
      · simp only [hm, ne_eq, not_true_eq_false, if_false, and_self, if_true]
        cases P.gbm_bo_create calls1 (bo_create_call g) <;> rfl
      · simp [hm]
  · intro hnone hm
    unfold init_bo
    rcases hma : modifier_aware_bo P g modifier calls with ⟨bo, calls1⟩
    rw [hma] at hnone
    simp only at hnone
    subst hnone
    simp only [hm, ne_eq, not_true_eq_false, if_false]
    cases P.gbm_bo_create calls1 (bo_create_call g) <;> rfl
  · intro bo hbo
    unfold init_bo
    rcases hma : modifier_aware_bo P g modifier calls with ⟨bo2, calls1⟩
    rw [hma] at hbo
    simp only at hbo
    subst hbo
    rfl
  · unfold modifier_aware_bo
    cases P.gbm_bo_create_with_modifiers with
    | none => simp
    | some f => simp

/-- Witness for C25: the platform rejects the modifier-aware request for the linear
modifier; gbm_bo_create is then called and its buffer 101 is returned. -/
theorem init_bo_fallback_call_witness :
    (init_bo platform_rejecting gbm_zero 0 []).1.toOption =
      platform_rejecting.gbm_bo_create (modifier_aware_bo platform_rejecting gbm_zero 0 []).2
        (bo_create_call gbm_zero) ∧
    (init_bo platform_rejecting gbm_zero 0 []).1.toOption = some 101 :=
  ⟨(init_bo_fallback_call platform_rejecting gbm_zero 0 []).2.1 rfl rfl, rfl⟩

/-! ### drm_fb_get_from_bo: the plane loop -/

/-- The plane loop run for `n` planes from index 0 on zeroed arrays with `modifiers[0] = m`:
it stays inside the arrays and leaves exactly the values of the first `n` planes. -/
theorem plane_loop_values (b : gbm_bo) (m n : Nat) (hn : n ≤ 4) :
    ∃ a, plane_loop b n 0
        { handles := [0, 0, 0, 0], strides := [0, 0, 0, 0], offsets := [0, 0, 0, 0],
          modifiers := ([0, 0, 0, 0] : List Nat).set 0 m } = some a ∧
      ∀ i, i < 4 →
        a.handles[i]? = some (if i < n then b.handle_for_plane i else 0) ∧
        a.strides[i]? = some (if i < n then b.stride_for_plane i else 0) ∧
        a.offsets[i]? = some (if i < n then b.offset i else 0) ∧
        a.modifiers[i]? = some (if i < n ∨ i = 0 then m else 0) := by
  interval_cases n <;> refine ⟨_, rfl, ?_⟩ <;> intro i hi <;> interval_cases i <;> simp

/-- The plane loop stores outside the arrays as soon as it is asked to pass index 3. -/
theorem plane_loop_overrun (b : gbm_bo) :
    ∀ (n i : Nat) (a : PlaneArrays), i ≤ 4 → 4 < i + n → plane_loop b n i a = none := by
  intro n
  induction n with
  | zero => intro i a h1 h2; omega
  | succ k ih =>
    intro i a h1 h2
    by_cases hi : i < 4
    · simp only [plane_loop, store4, hi, if_true]
      exact ih (i + 1) _ (by omega) (by omega)
    · have h4 : i = 4 := by omega
      subst h4
      simp [plane_loop, store4]

/-- Counterexample to C26: a buffer object that reports zero planes and the modifier 5.
No plane is gathered, yet `modifiers[0]` holds 5: the entry at index 0 >= n does not stay
zero, because the modifier is stored there before the loop. -/
theorem gather_planes_modifier_slot_zero_planes :
    bo_no_planes.plane_count = 0 ∧
    gather_planes bo_no_planes =
      some { handles := [0, 0, 0, 0], strides := [0, 0, 0, 0], offsets := [0, 0, 0, 0],
             modifiers := [5, 0, 0, 0] } := by
  decide

/-- Claim C26 as amended: for a plane count n with 0 <= n <= 4 every store of the plane
loop is inside the four-element arrays; afterwards entry i < n of handles, strides and
offsets holds the value of plane i and entry i >= n is zero; entry i of modifiers holds the
modifier of the buffer for i < n and for i = 0 (where it is stored before the loop) and is
zero otherwise. For n > 4 the loop stores outside the arrays: the bound is a
precondition. -/
theorem gather_planes_bounds (b : gbm_bo) (h0 : 0 ≤ b.plane_count) :
    (b.plane_count ≤ 4 →
      ∃ a, gather_planes b = some a ∧
        ∀ i : Nat, i < 4 →
          a.handles[i]? = some (if (i : Int) < b.plane_count then b.handle_for_plane i else 0) ∧
          a.strides[i]? = some (if (i : Int) < b.plane_count then b.stride_for_plane i else 0) ∧
          a.offsets[i]? = some (if (i : Int) < b.plane_count then b.offset i else 0) ∧
          a.modifiers[i]? =
            some (if (i : Int) < b.plane_count ∨ i = 0 then b.modifier else 0)) ∧
    (4 < b.plane_count → gather_planes b = none) := by
  have hk : b.plane_count = ((b.plane_count.toNat : Nat) : Int) :=
    (Int.toNat_of_nonneg h0).symm
  constructor
  · intro h4
    obtain ⟨a, ha, hv⟩ := plane_loop_values b b.modifier b.plane_count.toNat (by omega)
    refine ⟨a, ha, ?_⟩
    intro i hi
    have hlt : ((i : Int) < b.plane_count) ↔ i < b.plane_count.toNat := by omega
    simp only [hlt]
    exact hv i hi
  · intro h4
    exact plane_loop_overrun b b.plane_count.toNat 0 _ (by omega) (by omega)

/-- Witness for C26: the two-plane buffer fills entries 0 and 1 and leaves entries 2 and 3
zero, and a buffer that reports five planes makes the loop leave the arrays. -/
theorem gather_planes_bounds_witness :
    (∃ a, gather_planes bo_tiled = some a ∧
      ∀ i : Nat, i < 4 →
        a.handles[i]? =
          some (if (i : Int) < bo_tiled.plane_count then bo_tiled.handle_for_plane i else 0) ∧
        a.strides[i]? =
          some (if (i : Int) < bo_tiled.plane_count then bo_tiled.stride_for_plane i else 0) ∧
        a.offsets[i]? =
          some (if (i : Int) < bo_tiled.plane_count then bo_tiled.offset i else 0) ∧
        a.modifiers[i]? =
          some (if (i : Int) < bo_tiled.plane_count ∨ i = 0 then bo_tiled.modifier else 0)) ∧
    gather_planes { bo_tiled with plane_count := 5 } = none :=
  ⟨(gather_planes_bounds bo_tiled (by decide)).1 (by decide),
   (gather_planes_bounds { bo_tiled with plane_count := 5 } (by decide)).2 (by decide)⟩

/-! ### find_crtc_for_encoder -/

/-- The mask test of find_crtc_for_encoder at an index below 32 reads bit `i`. -/
theorem crtc_mask_test (x i : Nat) (hi : i < 32) :
    (x &&& (1 <<< i) % 4294967296 ≠ 0) ↔ x.testBit i = true := by
  have hpow : (1 <<< i) % 4294967296 = 2 ^ i := by
    rw [Nat.one_shiftLeft]
    apply Nat.mod_eq_of_lt
    calc 2 ^ i < 2 ^ 32 := Nat.pow_lt_pow_right (by decide) hi
      _ = 4294967296 := by norm_num
  rw [hpow]
  constructor
  · intro hne
    by_contra hbit
    apply hne
    apply Nat.eq_of_testBit_eq
    intro j
    rw [Nat.testBit_and, Nat.testBit_two_pow, Nat.zero_testBit]
    by_cases hij : i = j
    · subst hij
      simp only [Bool.not_eq_true] at hbit
      simp [hbit]
    · simp [hij]
  · intro hbit h0
    have h1 : (x &&& 2 ^ i).testBit i = true := by
      rw [Nat.testBit_and, Nat.testBit_two_pow_self, hbit]
      rfl
    rw [h0, Nat.zero_testBit] at h1
    cases h1

/-- The loop of find_crtc_for_encoder returns the entry at the first index whose bit is set. -/
theorem find_crtc_for_encoder_loop_first (encoder : drmModeEncoder) :
    ∀ (crtcs : List Nat) (k i crtc_id : Nat), k + crtcs.length ≤ 32 →
      crtcs[i]? = some crtc_id → encoder.possible_crtcs.testBit (k + i) = true →
      (∀ j, j < i → encoder.possible_crtcs.testBit (k + j) = false) →
      find_crtc_for_encoder_loop encoder crtcs k = crtc_id := by
  intro crtcs
  induction crtcs with
  | nil => intro k i crtc_id _ hi; simp at hi
  | cons c rest ih =>
    intro k i crtc_id hlen hi hbit hfirst
    simp only [List.length_cons] at hlen
    cases i with
    | zero =>
      simp only [List.getElem?_cons_zero, Option.some.injEq] at hi
      subst hi
      simp only [find_crtc_for_encoder_loop]
      rw [if_pos ((crtc_mask_test _ k (by omega)).mpr hbit)]
    | succ i2 =>
      have h0 : encoder.possible_crtcs.testBit k = false := by
        have := hfirst 0 (Nat.succ_pos _)
        simpa using this
      simp only [find_crtc_for_encoder_loop]
      rw [if_neg (by
        intro hne
        have := (crtc_mask_test _ k (by omega)).mp hne
        rw [h0] at this
        cases this)]
      apply ih (k + 1) i2 crtc_id (by omega) (by simpa using hi)
      · have e : k + 1 + i2 = k + (i2 + 1) := by omega
        rw [e]; exact hbit
      · intro j hj
        have e : k + 1 + j = k + (j + 1) := by omega
        rw [e]; exact hfirst (j + 1) (by omega)

/-- The loop of find_crtc_for_encoder returns (uint32_t)-1 when no bit of the range is set. -/
theorem find_crtc_for_encoder_loop_none (encoder : drmModeEncoder) :
    ∀ (crtcs : List Nat) (k : Nat), k + crtcs.length ≤ 32 →
      (∀ j, j < crtcs.length → encoder.possible_crtcs.testBit (k + j) = false) →
      find_crtc_for_encoder_loop encoder crtcs k = 4294967295 := by
  intro crtcs
  induction crtcs with
  | nil => intro k _ _; rfl
  | cons c rest ih =>
    intro k hlen hnone
    simp only [List.length_cons] at hlen hnone
    have h0 : encoder.possible_crtcs.testBit k = false := by
      have := hnone 0 (Nat.succ_pos _)
      simpa using this
    simp only [find_crtc_for_encoder_loop]
    rw [if_neg (by
      intro hne
      have := (crtc_mask_test _ k (by omega)).mp hne
      rw [h0] at this
      cases this)]
    apply ih (k + 1) (by omega)
    intro j hj
    have e : k + 1 + j = k + (j + 1) := by omega
    rw [e]; exact hnone (j + 1) (by omega)

/-- Claim C27: for a controller list of at most 31 entries, find_crtc_for_encoder returns
crtcs[i] for the least index i below count_crtcs whose bit is set in possible_crtcs, and
4294967295, which is (uint32_t)-1 and not 0, when no such index exists. -/
theorem find_crtc_for_encoder_first_bit (resources : drmModeRes) (encoder : drmModeEncoder)
    (hlen : resources.crtcs.length ≤ 31) :
    (∀ i crtc_id, resources.crtcs[i]? = some crtc_id →
      encoder.possible_crtcs.testBit i = true →
      (∀ j, j < i → encoder.possible_crtcs.testBit j = false) →
      find_crtc_for_encoder resources encoder = crtc_id) ∧
    ((∀ j, j < resources.crtcs.length → encoder.possible_crtcs.testBit j = false) →
      find_crtc_for_encoder resources encoder = 4294967295) ∧
    (4294967295 : Nat) ≠ 0 := by
  refine ⟨?_, ?_, by decide⟩
  · intro i crtc_id hi hbit hfirst
    apply find_crtc_for_encoder_loop_first encoder resources.crtcs 0 i crtc_id (by omega) hi
    · rw [Nat.zero_add]; exact hbit
    · intro j hj; rw [Nat.zero_add]; exact hfirst j hj
  · intro hnone
    apply find_crtc_for_encoder_loop_none encoder resources.crtcs 0 (by omega)
    intro j hj; rw [Nat.zero_add]; exact hnone j hj

/-- Witness for C27: with controllers [10, 11, 12] the mask 6 (bits 1 and 2) yields
crtcs[1] = 11, and the mask 0 of encoder 21 yields 4294967295. -/
theorem find_crtc_for_encoder_first_bit_witness :
    find_crtc_for_encoder resources_three encoder_mask6 = 11 ∧
    find_crtc_for_encoder resources_three encoder21 = 4294967295 :=
  ⟨(find_crtc_for_encoder_first_bit resources_three encoder_mask6 (by decide)).1 1 11 rfl
      (by decide) (by intro j hj; have h0 : j = 0 := by omega
                      subst h0; decide),
   (find_crtc_for_encoder_first_bit resources_three encoder21 (by decide)).2.1
      (by intro j _; simp [encoder21])⟩

/-! ### create_framebuffer and init_egl -/

/-- The state in which create_framebuffer starts its second half: the image is registered
and the fd closed again. -/
theorem create_framebuffer_image_ok {E : EglPlatform} {s : GlState} {bo : gbm_bo}
    {create_image : List GlEvent → List Int → Option Nat} {img : Nat} (fb0 : framebuffer)
    (hres : E.eglCreateImageKHR = some create_image)
    (hfd : 0 ≤ E.gbm_bo_get_fd s.log)
    (himg : create_image (s.log ++ [GlEvent.gbm_bo_get_fd (E.gbm_bo_get_fd s.log)])
      (khr_image_attrs E.modifiers_supported bo (E.gbm_bo_get_fd s.log)) = some img) :
    create_framebuffer E s bo fb0 =
      create_render_target E
        { open_fds := s.open_fds, images := img :: s.images, textures := s.textures,
          framebuffers := s.framebuffers,
          log := s.log ++ [GlEvent.gbm_bo_get_fd (E.gbm_bo_get_fd s.log)] ++
            [GlEvent.eglCreateImageKHR
              (khr_image_attrs E.modifiers_supported bo (E.gbm_bo_get_fd s.log)) (some img)] ++
            [GlEvent.close (E.gbm_bo_get_fd s.log)] } img := by
  have hfd2 : ¬ E.gbm_bo_get_fd s.log < 0 := by omega
  unfold create_framebuffer
  rw [hres]
  simp only [hfd2, if_false, himg, List.erase_cons_head]

/-- The second half of create_framebuffer, by the reported status. -/
theorem create_render_target_status (E : EglPlatform) (s : GlState) (img : Nat)
    (htgt : E.glEGLImageTargetTexture2DOES = true) :
    ∃ ok fb s2 status before,
      create_render_target E s img = some (ok, fb, s2) ∧
      fb.image = some img ∧
      status = E.glCheckFramebufferStatus before ∧
      (∃ mid, before = s.log ++ mid ∧ GlEvent.glGenTextures fb.tex ∈ mid ∧
        GlEvent.glGenFramebuffers fb.fb ∈ mid) ∧
      s2.log = before ++ [GlEvent.glCheckFramebufferStatus status] ++
        (if status ≠ GL_FRAMEBUFFER_COMPLETE then
          [GlEvent.glDeleteFramebuffers fb.fb, GlEvent.glDeleteTextures fb.tex] else []) ∧
      s2.images = s.images ∧ s2.open_fds = s.open_fds ∧
      (status ≠ GL_FRAMEBUFFER_COMPLETE →
        ok = false ∧ s2.textures = s.textures ∧ s2.framebuffers = s.framebuffers) ∧
      (status = GL_FRAMEBUFFER_COMPLETE →
        ok = true ∧ s2.textures = fb.tex :: s.textures ∧
        s2.framebuffers = fb.fb :: s.framebuffers) := by
  unfold create_render_target
  simp only [htgt, Bool.true_eq_false, if_false]
  generalize E.glGenTextures s.log = tex
  generalize E.glGenFramebuffers
    (s.log ++ [GlEvent.glGenTextures tex] ++ [GlEvent.glEGLImageTargetTexture2DOES img]) = fbo
  split
  · rename_i hst
    refine ⟨false, ⟨some img, tex, fbo⟩, _, _,
      s.log ++ [GlEvent.glGenTextures tex] ++ [GlEvent.glEGLImageTargetTexture2DOES img] ++
        [GlEvent.glGenFramebuffers fbo, GlEvent.glFramebufferTexture2D fbo tex],
      rfl, rfl, rfl, ⟨_, by simp only [List.append_assoc]; rfl, ?_, ?_⟩, ?_, rfl, rfl, ?_, ?_⟩
    · simp
    · simp
    · rw [if_pos hst]
    · intro _
      exact ⟨rfl, List.erase_cons_head _ _, List.erase_cons_head _ _⟩
    · intro h; exact absurd h hst
  · rename_i hst
    refine ⟨true, ⟨some img, tex, fbo⟩, _, _,
      s.log ++ [GlEvent.glGenTextures tex] ++ [GlEvent.glEGLImageTargetTexture2DOES img] ++
        [GlEvent.glGenFramebuffers fbo, GlEvent.glFramebufferTexture2D fbo tex],
      rfl, rfl, rfl, ⟨_, by simp only [List.append_assoc]; rfl, ?_, ?_⟩, ?_, rfl, rfl, ?_, ?_⟩
    · simp
    · simp
    · rw [if_neg hst]; simp
    · intro h; exact absurd h hst
    · intro _
      exact ⟨rfl, rfl, rfl⟩

/-- What a returning second half of create_framebuffer leaves behind, by its result. -/
theorem create_render_target_cases {E : EglPlatform} {s : GlState} {img : Nat} {ok : Bool}
    {fb : framebuffer} {s2 : GlState}
    (h : create_render_target E s img = some (ok, fb, s2)) :
    fb.image = some img ∧ s2.images = s.images ∧ s2.open_fds = s.open_fds ∧
      (ok = false → s2.textures = s.textures ∧ s2.framebuffers = s.framebuffers) ∧
      (ok = true → s2.textures = fb.tex :: s.textures ∧
        s2.framebuffers = fb.fb :: s.framebuffers) := by
  cases htgt : E.glEGLImageTargetTexture2DOES with
  | false =>
    unfold create_render_target at h
    simp only [htgt, if_true] at h
    exact absurd h (by simp)
  | true =>
    obtain ⟨ok1, fb1, s1, status, before, hrun, himg, _, _, _, hi, hf, hbad, hgood⟩ :=
      create_render_target_status E s img htgt
    rw [h] at hrun
    simp only [Option.some.injEq, Prod.mk.injEq] at hrun
    obtain ⟨rfl, rfl, rfl⟩ := hrun
    refine ⟨himg, hi, hf, ?_, ?_⟩
    · intro hok
      by_cases hst : status = GL_FRAMEBUFFER_COMPLETE
      · rw [(hgood hst).1] at hok; exact absurd hok (by decide)
      · exact (hbad hst).2
    · intro hok
      by_cases hst : status = GL_FRAMEBUFFER_COMPLETE
      · exact (hgood hst).2
      · rw [(hbad hst).1] at hok; exact absurd hok (by decide)

/-- A failing create_framebuffer leaves the textures and framebuffer objects as they were
and destroys no image. -/
theorem create_framebuffer_false {E : EglPlatform} {s : GlState} {bo : gbm_bo}
    {fb0 fb : framebuffer} {s2 : GlState}
    (h : create_framebuffer E s bo fb0 = some (false, fb, s2)) :
    s2.textures = s.textures ∧ s2.framebuffers = s.framebuffers ∧
      ∀ x ∈ s.images, x ∈ s2.images := by
  cases hres : E.eglCreateImageKHR with
  | none =>
    unfold create_framebuffer at h
    rw [hres] at h
    exact absurd h (by simp)
  | some create_image =>
    by_cases hfd : E.gbm_bo_get_fd s.log < 0
    · unfold create_framebuffer at h
      rw [hres] at h
      simp only [hfd, if_true, Option.some.injEq, Prod.mk.injEq, true_and] at h
      obtain ⟨_, rfl⟩ := h
      exact ⟨rfl, rfl, fun x hx => hx⟩
    · cases himg : create_image (s.log ++ [GlEvent.gbm_bo_get_fd (E.gbm_bo_get_fd s.log)])
          (khr_image_attrs E.modifiers_supported bo (E.gbm_bo_get_fd s.log)) with
      | none =>
        unfold create_framebuffer at h
        rw [hres] at h
        simp only [hfd, if_false, himg, Option.some.injEq, Prod.mk.injEq, true_and] at h
        obtain ⟨_, rfl⟩ := h
        exact ⟨rfl, rfl, fun x hx => hx⟩
      | some img =>
        rw [create_framebuffer_image_ok fb0 hres (by omega) himg] at h
        obtain ⟨_, hi, _, hbad, _⟩ := create_render_target_cases h
        obtain ⟨ht, hf⟩ := hbad rfl
        refine ⟨ht, hf, fun x hx => ?_⟩
        rw [hi]
        exact List.mem_cons_of_mem _ hx

/-- A succeeding create_framebuffer fills the struct with one new image, texture and
framebuffer object, all alive afterwards. -/
theorem create_framebuffer_true {E : EglPlatform} {s : GlState} {bo : gbm_bo}
    {fb0 fb : framebuffer} {s2 : GlState}
    (h : create_framebuffer E s bo fb0 = some (true, fb, s2)) :
    ∃ img, fb.image = some img ∧ s2.images = img :: s.images ∧
      s2.textures = fb.tex :: s.textures ∧ s2.framebuffers = fb.fb :: s.framebuffers := by
  cases hres : E.eglCreateImageKHR with
  | none =>
    unfold create_framebuffer at h
    rw [hres] at h
    exact absurd h (by simp)
  | some create_image =>
    by_cases hfd : E.gbm_bo_get_fd s.log < 0
    · unfold create_framebuffer at h
      rw [hres] at h
      simp only [hfd, if_true, Option.some.injEq, Prod.mk.injEq] at h
      exact absurd h.1 (by decide)
    · cases himg : create_image (s.log ++ [GlEvent.gbm_bo_get_fd (E.gbm_bo_get_fd s.log)])
          (khr_image_attrs E.modifiers_supported bo (E.gbm_bo_get_fd s.log)) with
      | none =>
        unfold create_framebuffer at h
        rw [hres] at h
        simp only [hfd, if_false, himg, Option.some.injEq, Prod.mk.injEq] at h
        exact absurd h.1 (by decide)
      | some img =>
        rw [create_framebuffer_image_ok fb0 hres (by omega) himg] at h
        obtain ⟨him, hi, _, _, hgood⟩ := create_render_target_cases h
        obtain ⟨ht, hf⟩ := hgood rfl
        exact ⟨img, him, hi, ht, hf⟩

/-- A completed loop of init_egl: every struct it went over holds an image, a texture and a
framebuffer object that are alive, and nothing held before was released. -/
theorem init_egl_loop_ok (E : EglPlatform) :
    ∀ (bos : List gbm_bo) (i : Nat) (fbs : List framebuffer) (s : GlState)
      (fbs2 : List framebuffer) (s2 : GlState),
      init_egl_loop E bos i fbs s = some (0, fbs2, s2) →
      fbs2.length = fbs.length ∧ (∀ x ∈ s.images, x ∈ s2.images) ∧
      (∀ x ∈ s.textures, x ∈ s2.textures) ∧ (∀ x ∈ s.framebuffers, x ∈ s2.framebuffers) ∧
      (∀ j, j < i → fbs2[j]? = fbs[j]?) ∧
      ∀ j, i ≤ j → j < i + bos.length → j < fbs.length →
        ∃ f img, fbs2[j]? = some f ∧ f.image = some img ∧ img ∈ s2.images ∧
          f.tex ∈ s2.textures ∧ f.fb ∈ s2.framebuffers := by
  intro bos
  induction bos with
  | nil =>
    intro i fbs s fbs2 s2 h
    simp only [init_egl_loop, Option.some.injEq, Prod.mk.injEq, true_and] at h
    obtain ⟨rfl, rfl⟩ := h
    refine ⟨rfl, fun _ hx => hx, fun _ hx => hx, fun _ hx => hx, fun _ _ => rfl, ?_⟩
    intro j h1 h2
    simp only [List.length_nil, Nat.add_zero] at h2
    omega
  | cons bo rest ih =>
    intro i fbs s fbs2 s2 h
    unfold init_egl_loop at h
    cases hc : create_framebuffer E s bo (fbs.getD i { image := none, tex := 0, fb := 0 }) with
    | none =>
      rw [hc] at h
      exact absurd h (by simp)
    | some r =>
      obtain ⟨ok, fb, s1⟩ := r
      rw [hc] at h
      cases ok with
      | false =>
        simp only [Option.some.injEq, Prod.mk.injEq] at h
        exact absurd h.1 (by decide)
      | true =>
        simp only at h
        obtain ⟨img, him, hi, ht, hf⟩ := create_framebuffer_true hc
        obtain ⟨hlen, mi, mt, mf, hlow, hhigh⟩ := ih (i + 1) (fbs.set i fb) s1 fbs2 s2 h
        rw [List.length_set] at hlen
        refine ⟨hlen, ?_, ?_, ?_, ?_, ?_⟩
        · intro x hx
          exact mi x (by rw [hi]; exact List.mem_cons_of_mem _ hx)
        · intro x hx
          exact mt x (by rw [ht]; exact List.mem_cons_of_mem _ hx)
        · intro x hx
          exact mf x (by rw [hf]; exact List.mem_cons_of_mem _ hx)
        · intro j hj
          rw [hlow j (by omega), List.getElem?_set_ne (by omega)]
        · intro j h1 h2 h3
          by_cases hji : j = i
          · subst hji
            refine ⟨fb, img, ?_, him, ?_, ?_, ?_⟩
            · rw [hlow j (by omega), List.getElem?_set_self h3]
            · exact mi img (by rw [hi]; exact List.mem_cons_self _ _)
            · exact mt fb.tex (by rw [ht]; exact List.mem_cons_self _ _)
            · exact mf fb.fb (by rw [hf]; exact List.mem_cons_self _ _)
          · refine hhigh j (by omega) ?_ (by rw [List.length_set]; exact h3)
            simp only [List.length_cons] at h2
            omega

/-- A loop of init_egl that returns -1 went through some buffers successfully and returned
straight after the first failing create_framebuffer. -/
theorem init_egl_loop_fail (E : EglPlatform) :
    ∀ (bos : List gbm_bo) (i : Nat) (fbs : List framebuffer) (s : GlState)
      (fbs2 : List framebuffer) (s2 : GlState),
      init_egl_loop E bos i fbs s = some (-1, fbs2, s2) →
      ∃ (k : Nat) (bo : gbm_bo) (fbs1 : List framebuffer) (s1 : GlState) (fb : framebuffer),
        k < bos.length ∧ bos[k]? = some bo ∧
        init_egl_loop E (bos.take k) i fbs s = some (0, fbs1, s1) ∧
        create_framebuffer E s1 bo (fbs1.getD (i + k) { image := none, tex := 0, fb := 0 }) =
          some (false, fb, s2) ∧
        fbs2 = fbs1.set (i + k) fb := by
  intro bos
  induction bos with
  | nil =>
    intro i fbs s fbs2 s2 h
    simp only [init_egl_loop, Option.some.injEq, Prod.mk.injEq] at h
    exact absurd h.1 (by decide)
  | cons bo rest ih =>
    intro i fbs s fbs2 s2 h
    unfold init_egl_loop at h
    cases hc : create_framebuffer E s bo (fbs.getD i { image := none, tex := 0, fb := 0 }) with
    | none =>
      rw [hc] at h
      exact absurd h (by simp)
    | some r =>
      obtain ⟨ok, fb, s1⟩ := r
      rw [hc] at h
      cases ok with
      | false =>
        simp only [Option.some.injEq, Prod.mk.injEq, true_and] at h
        obtain ⟨rfl, rfl⟩ := h
        refine ⟨0, bo, fbs, s, fb, by simp, List.getElem?_cons_zero, ?_, hc, rfl⟩
        simp only [List.take_zero, init_egl_loop]
      | true =>
        simp only at h
        obtain ⟨k, bo2, fbs1, s3, fb2, hk, hbo, hpre, hfail, hset⟩ :=
          ih (i + 1) (fbs.set i fb) s1 fbs2 s2 h
        refine ⟨k + 1, bo2, fbs1, s3, fb2, by simp only [List.length_cons]; omega, ?_, ?_, ?_, ?_⟩
        · simpa using hbo
        · rw [List.take_succ_cons]
          unfold init_egl_loop
          rw [hc]
          exact hpre
        · rw [show i + (k + 1) = i + 1 + k by omega]
          exact hfail
        · rw [show i + (k + 1) = i + 1 + k by omega]
          exact hset

/-- When the buffers before index `k` succeed and create_framebuffer fails for buffer `k`,
the loop of init_egl returns -1 with the state that failing call left. -/
theorem init_egl_loop_returns_error (E : EglPlatform) :
    ∀ (bos : List gbm_bo) (k i : Nat) (fbs : List framebuffer) (s : GlState) (bo : gbm_bo)
      (fbs1 : List framebuffer) (s1 : GlState) (fb : framebuffer) (s2 : GlState),
      bos[k]? = some bo →
      init_egl_loop E (bos.take k) i fbs s = some (0, fbs1, s1) →
      create_framebuffer E s1 bo (fbs1.getD (i + k) { image := none, tex := 0, fb := 0 }) =
        some (false, fb, s2) →
      init_egl_loop E bos i fbs s = some (-1, fbs1.set (i + k) fb, s2) := by
  intro bos
  induction bos with
  | nil =>
    intro k i fbs s bo fbs1 s1 fb s2 hbo
    exact absurd hbo (by simp)
  | cons b rest ih =>
    intro k i fbs s bo fbs1 s1 fb s2 hbo hpre hfail
    cases k with
    | zero =>
      simp only [List.take_zero, init_egl_loop, Option.some.injEq, Prod.mk.injEq,
        true_and] at hpre
      obtain ⟨rfl, rfl⟩ := hpre
      simp only [List.getElem?_cons_zero, Option.some.injEq] at hbo
      subst hbo
      unfold init_egl_loop
      rw [Nat.add_zero] at hfail
      rw [hfail]
      rfl
    | succ k =>
      rw [List.take_succ_cons] at hpre
      unfold init_egl_loop at hpre
      unfold init_egl_loop
      cases hc : create_framebuffer E s b (fbs.getD i { image := none, tex := 0, fb := 0 }) with
      | none =>
        rw [hc] at hpre
        exact absurd hpre (by simp)
      | some r =>
        obtain ⟨ok, fb1, s3⟩ := r
        rw [hc] at hpre
        cases ok with
        | false =>
          simp only [Option.some.injEq, Prod.mk.injEq] at hpre
          exact absurd hpre.1 (by decide)
        | true =>
          simp only at hpre
          simp only
          rw [show i + (k + 1) = i + 1 + k by omega] at hfail
          rw [show i + (k + 1) = i + 1 + k by omega]
          exact ih k (i + 1) (fbs.set i fb1) s3 bo fbs1 s1 fb s2 (by simpa using hbo) hpre hfail

/-- Counterexample to C22: on an EGL and GL implementation that reports the render
target of the second buffer incomplete, init_egl returns -1 while the image, the texture
and the framebuffer object of the first buffer (101, 203, 305) are still alive, and so is
the image of the second buffer (109); when eglCreateImageKHR fails for the second buffer,
the exported fd 18 is still open as well. -/
theorem init_egl_failure_leaves_resources :
    (init_egl_framebuffers egl_second_incomplete none [bo_linear, bo_linear] fbs_zero
        gl_empty).map
      (fun r => (r.1, r.2.1, r.2.2.open_fds, r.2.2.images, r.2.2.textures,
        r.2.2.framebuffers)) =
      some (-1, [{ image := some 101, tex := 203, fb := 305 },
                 { image := some 109, tex := 211, fb := 313 }],
            [], [109, 101], [203], [305]) ∧
    (init_egl_framebuffers egl_second_image_fails none [bo_linear, bo_linear] fbs_zero
        gl_empty).map
      (fun r => (r.1, r.2.1, r.2.2.open_fds, r.2.2.images, r.2.2.textures,
        r.2.2.framebuffers)) =
      some (-1, [{ image := some 101, tex := 203, fb := 305 },
                 { image := none, tex := 0, fb := 0 }],
            [18], [101], [203], [305]) := by
  constructor <;> rfl

/-- Claim C22 as amended: when create_framebuffer succeeds for the buffers before index `k`
and fails for buffer `k`, init_egl returns -1 straight after the failing call, with the
state that call left; the textures and framebuffer objects alive are exactly those alive
before the failing call, no image was destroyed, and the image, the texture and the render
target of every earlier buffer are still alive: init_egl releases nothing. -/
theorem init_egl_failure_keeps_earlier (E : EglPlatform) (bos : List gbm_bo) (k : Nat)
    (fbs : List framebuffer) (s : GlState) (bo : gbm_bo) (fbs1 : List framebuffer)
    (s1 : GlState) (fb : framebuffer) (s2 : GlState)
    (hbo : bos[k]? = some bo)
    (hpre : init_egl_loop E (bos.take k) 0 fbs s = some (0, fbs1, s1))
    (hfail : create_framebuffer E s1 bo (fbs1.getD k { image := none, tex := 0, fb := 0 }) =
      some (false, fb, s2)) :
    init_egl_framebuffers E none bos fbs s = some (-1, fbs1.set k fb, s2) ∧
      s2.textures = s1.textures ∧ s2.framebuffers = s1.framebuffers ∧
      (∀ x ∈ s1.images, x ∈ s2.images) ∧
      ∀ j, j < k → j < fbs.length →
        ∃ f img, (fbs1.set k fb)[j]? = some f ∧ f.image = some img ∧ img ∈ s2.images ∧
          f.tex ∈ s2.textures ∧ f.fb ∈ s2.framebuffers := by
  have hk : k < bos.length := by
    rcases Nat.lt_or_ge k bos.length with h | h
    · exact h
    · rw [List.getElem?_eq_none h] at hbo
      exact absurd hbo (by simp)
  obtain ⟨ht, hf, hi⟩ := create_framebuffer_false hfail
  obtain ⟨_, _, _, _, _, halive⟩ := init_egl_loop_ok E (bos.take k) 0 fbs s fbs1 s1 hpre
  refine ⟨?_, ht, hf, hi, ?_⟩
  · have h := init_egl_loop_returns_error E bos k 0 fbs s bo fbs1 s1 fb s2 hbo hpre
      (by rw [Nat.zero_add]; exact hfail)
    rw [Nat.zero_add] at h
    exact h
  · intro j hj hlen
    obtain ⟨f, img, hget, him, h1, h2, h3⟩ :=
      halive j (Nat.zero_le j) (by rw [List.length_take]; omega) hlen
    refine ⟨f, img, ?_, him, hi img h1, ?_, ?_⟩
    · rw [List.getElem?_set_ne (by omega)]
      exact hget
    · rw [ht]; exact h2
    · rw [hf]; exact h3

/-- Claim C23: once the image exists (eglCreateImageKHR resolved, a non-negative fd, an
image returned, glEGLImageTargetTexture2DOES resolved), create_framebuffer always returns;
it generates a texture and a framebuffer object and asks for the status of the render
target. If the status is not GL_FRAMEBUFFER_COMPLETE it returns false, its last two calls
are glDeleteFramebuffers and glDeleteTextures on these two names, and the textures and
framebuffer objects alive are those alive before the call; if the status is
GL_FRAMEBUFFER_COMPLETE it returns true, nothing is deleted, and both are alive. -/
theorem create_framebuffer_completeness (E : EglPlatform) (s : GlState) (bo : gbm_bo)
    (fb0 : framebuffer) (create_image : List GlEvent → List Int → Option Nat) (img : Nat)
    (hres : E.eglCreateImageKHR = some create_image)
    (htgt : E.glEGLImageTargetTexture2DOES = true)
    (hfd : 0 ≤ E.gbm_bo_get_fd s.log)
    (himg : create_image (s.log ++ [GlEvent.gbm_bo_get_fd (E.gbm_bo_get_fd s.log)])
      (khr_image_attrs E.modifiers_supported bo (E.gbm_bo_get_fd s.log)) = some img) :
    ∃ ok fb s2 status mid,
      create_framebuffer E s bo fb0 = some (ok, fb, s2) ∧
      fb.image = some img ∧
      status = E.glCheckFramebufferStatus (s.log ++ mid) ∧
      GlEvent.glGenTextures fb.tex ∈ mid ∧ GlEvent.glGenFramebuffers fb.fb ∈ mid ∧
      s2.log = s.log ++ mid ++ [GlEvent.glCheckFramebufferStatus status] ++
        (if status ≠ GL_FRAMEBUFFER_COMPLETE then
          [GlEvent.glDeleteFramebuffers fb.fb, GlEvent.glDeleteTextures fb.tex] else []) ∧
      (status ≠ GL_FRAMEBUFFER_COMPLETE →
        ok = false ∧ s2.textures = s.textures ∧ s2.framebuffers = s.framebuffers) ∧
      (status = GL_FRAMEBUFFER_COMPLETE →
        ok = true ∧ s2.textures = fb.tex :: s.textures ∧
        s2.framebuffers = fb.fb :: s.framebuffers) := by
  rw [create_framebuffer_image_ok fb0 hres hfd himg]
  obtain ⟨ok, fb, s2, status, before, hrun, him, hst, ⟨mid, hmid, hgt, hgf⟩, hlog, _, _,
    hbad, hgood⟩ := create_render_target_status E _ img htgt
  subst hmid
  refine ⟨ok, fb, s2, status,
    [GlEvent.gbm_bo_get_fd (E.gbm_bo_get_fd s.log)] ++
      [GlEvent.eglCreateImageKHR
        (khr_image_attrs E.modifiers_supported bo (E.gbm_bo_get_fd s.log)) (some img)] ++
      [GlEvent.close (E.gbm_bo_get_fd s.log)] ++ mid,
    hrun, him, ?_, List.mem_append_right _ hgt, List.mem_append_right _ hgf, ?_, hbad, hgood⟩
  · rw [hst]
    simp only [List.append_assoc]
  · rw [hlog]
    simp only [List.append_assoc]

/-- Witness for C22: the first buffer succeeds and the second is reported
incomplete; init_egl returns -1 and the first struct still names a living image, texture
and framebuffer object. -/
theorem init_egl_failure_keeps_earlier_witness :
    ∃ fbs2 s2,
      init_egl_framebuffers egl_second_incomplete none [bo_linear, bo_linear] fbs_zero
        gl_empty = some (-1, fbs2, s2) ∧
      s2.textures = [203] ∧ s2.framebuffers = [305] ∧
      ∃ f img, fbs2[0]? = some f ∧ f.image = some img ∧ img ∈ s2.images ∧
        f.tex ∈ s2.textures ∧ f.fb ∈ s2.framebuffers := by
  obtain ⟨h1, h2, h3, _, h5⟩ :=
    init_egl_failure_keeps_earlier egl_second_incomplete [bo_linear, bo_linear] 1 fbs_zero
      gl_empty bo_linear _ _ _ _ rfl rfl rfl
  exact ⟨_, _, h1, h2.trans rfl, h3.trans rfl, h5 0 (by decide) (by decide)⟩

/-- Witness for C23, on an implementation that reports every render target incomplete, and
on one that reports every render target complete. -/
theorem create_framebuffer_completeness_witness :
    (∃ fb s2,
      create_framebuffer
        { egl_second_incomplete with glCheckFramebufferStatus := fun _ => 0x8CDD }
        gl_empty bo_linear { image := none, tex := 0, fb := 0 } = some (false, fb, s2) ∧
      s2.textures = [] ∧ s2.framebuffers = []) ∧
    (∃ fb s2,
      create_framebuffer
        { egl_second_incomplete with glCheckFramebufferStatus := fun _ => 0x8CD5 }
        gl_empty bo_linear { image := none, tex := 0, fb := 0 } = some (true, fb, s2) ∧
      s2.textures = [fb.tex] ∧ s2.framebuffers = [fb.fb]) := by
  constructor
  · obtain ⟨ok, fb, s2, status, mid, hrun, _, hst, _, _, _, hbad, _⟩ :=
      create_framebuffer_completeness
        { egl_second_incomplete with glCheckFramebufferStatus := fun _ => 0x8CDD }
        gl_empty bo_linear { image := none, tex := 0, fb := 0 }
        (fun log _ => some (100 + log.length)) 101 rfl rfl (by decide) rfl
    have h : status ≠ GL_FRAMEBUFFER_COMPLETE := by
      rw [hst]
      show (0x8CDD : Nat) ≠ GL_FRAMEBUFFER_COMPLETE
      decide
    obtain ⟨rfl, ht, hf⟩ := hbad h
    exact ⟨fb, s2, hrun, ht, hf⟩
  · obtain ⟨ok, fb, s2, status, mid, hrun, _, hst, _, _, _, _, hgood⟩ :=
      create_framebuffer_completeness
        { egl_second_incomplete with glCheckFramebufferStatus := fun _ => 0x8CD5 }
        gl_empty bo_linear { image := none, tex := 0, fb := 0 }
        (fun log _ => some (100 + log.length)) 101 rfl rfl (by decide) rfl
    have h : status = GL_FRAMEBUFFER_COMPLETE := by rw [hst]; rfl
    obtain ⟨rfl, ht, hf⟩ := hgood h
    exact ⟨fb, s2, hrun, ht, hf⟩

end KmsCube
